import Mathlib

/-!
# s3ui: layout arithmetic of the UI helper (`src/s3ui.cpp`, `src/s3ui.h`)

Shallow embedding of the `s3ui` class: text measuring, word wrapping, list
windowing, the confirmation dialog, the live log, and the entry points with the
calls they make to the display.

Conventions of the embedding.

* The target has a 32-bit `int` (the class uses `std::vector`, so it is not an
  8-bit AVR build).  Every arithmetic expression is therefore evaluated in
  `Int` and narrowed where the source stores it into a `uint8_t`, `uint16_t`
  or `int16_t` variable (`toUInt8`, `toUInt16`, `toInt16`).
* A text (`String` of the Arduino core) is a `List Char`, one `Char` per stored
  byte, read as an unsigned character code (`Char.toNat`).
* A loop whose trip count is not fixed in advance is run on fuel and yields
  `none` when the fuel is used up, so `some r` always means "the code returns
  `r`".  An operation without a defined result (a call through the null `gfx`,
  a division by zero, a `double` that does not fit the integer it is stored
  in, a read outside the frame array) yields `none` as well.
* An entry point is a function from the state of the object to the list of the
  calls it makes to the display (`DrawCall`), together with the new state when
  it writes a data member.  The value of `millis()` is a parameter.
-/

namespace s3ui

/-! ## Machine integers -/

/-- Narrowing of an `int` value to `uint8_t`. -/
def toUInt8 (x : Int) : Nat := (x % 256).toNat

/-- Narrowing of an `int` value to `uint16_t`. -/
def toUInt16 (x : Int) : Nat := (x % 65536).toNat

/-- Narrowing of an `int` value to `int16_t` (two's complement). -/
def toInt16 (x : Int) : Int := (x + 32768) % 65536 - 32768

/-! ## Collaborators that are not part of the repository -/

/-- The fields of an Adafruit `GFXfont` that the code reads: the supported
character range, the advance of each glyph (indexed from `first`) and the line
advance. -/
structure GFXfont where
  first : Nat
  last : Nat
  xAdvance : Nat → Nat
  yAdvance : Nat

/-- Arduino `String::substring(left, right)`: the characters at positions
`left ≤ i < right`, the two bounds being swapped when `left > right` and `right`
being cut to the length. -/
def substring (str : List Char) (left right : Nat) : List Char :=
  (str.take (max left right)).drop (min left right)

/-- Arduino `String::operator[]` / `charAt`: the character at `index`, and the
character 0 when `index` is not inside the text. -/
def charAt (str : List Char) (index : Nat) : Char :=
  str.getD index (Char.ofNat 0)

/-! ## State of an `s3ui` object -/

/-- The data members of `class s3ui` that the layout code reads or writes.
`gfx` records whether a display is bound (`gfx != nullptr`), the two fonts are
`none` while unset.  A bitmap (a pointer to pixel data) is represented by a
number, and `animationFrames` lists the frames of the current animation. -/
structure Ui where
  gfx : Bool
  displayWidth : Nat
  displayHeight : Nat
  animationActive : Bool
  animationFrames : List Nat
  currentFrame : Nat
  totalFrames : Nat
  frameDelay : Nat
  lastFrameTime : Nat
  bitmapWidth : Nat
  bitmapHeight : Nat
  captionText : List Char
  logActive : Bool
  logLines : List (List Char)
  titleFont : Option GFXfont
  contentFont : Option GFXfont
  titleSize : Nat
  contentSize : Nat
  titleFontHeight : Nat
  contentFontHeight : Nat

/-- Constant `titleMargin` of the class. -/
def titleMargin : Nat := 2
/-- Constant `contentBoxThickness` of the class. -/
def contentBoxThickness : Nat := 2
/-- Constant `sliderWidth` of the class. -/
def sliderWidth : Nat := 3
/-- Constant `sliderPadding` of the class. -/
def sliderPadding : Nat := 1
/-- Constant `optionPadding` of the class. -/
def optionPadding : Nat := 1

/-! ## Text metrics -/

/-- One turn of the loop of `strWidth`: a character outside `[first, last]` is
skipped, any other adds `xAdvance * size` to the `int16_t` accumulator. -/
def strWidthStep (font : GFXfont) (size : Nat) (totalWidth : Int) (c : Char) : Int :=
  if c.toNat < font.first ∨ c.toNat > font.last then totalWidth
  else toInt16 (totalWidth + ((font.xAdvance (c.toNat - font.first) * size : Nat) : Int))

/-- The member function `s3ui::strWidth(str, font, size)`. -/
def strWidth (s : Ui) (str : List Char) (font : Option GFXfont) (size : Nat) : Int :=
  if s.gfx = false then 0
  else
    match font with
    | none => 0
    | some f => str.foldl (strWidthStep f size) 0

/-- The `while (endIdx < str.length())` loop of `findWrapPoint`, with the local
variables `endIdx` (`uint16_t`) and `lastSpaceIdx` (`int16_t`). -/
def findWrapLoop (s : Ui) (str : List Char) (startIdx maxWidth : Nat) :
    Nat → Nat → Int → Option Nat
  | 0, _, _ => none
  | fuel + 1, endIdx, lastSpaceIdx =>
    if endIdx < str.length then
      if strWidth s (substring str startIdx (endIdx + 1)) s.contentFont s.contentSize
          > (maxWidth : Int) then
        if lastSpaceIdx > (startIdx : Int) then
          some (toUInt16 (lastSpaceIdx - (startIdx : Int) + 1))
        else
          some (if endIdx > startIdx then toUInt16 ((endIdx : Int) - (startIdx : Int)) else 1)
      else
        findWrapLoop s str startIdx maxWidth fuel (toUInt16 ((endIdx : Int) + 1))
          (if charAt str endIdx = ' ' then toInt16 (endIdx : Int) else lastSpaceIdx)
    else
      some (toUInt16 ((endIdx : Int) - (startIdx : Int)))

/-- The member function `s3ui::findWrapPoint(str, startIdx, maxWidth)`. -/
def findWrapPoint (s : Ui) (str : List Char) (startIdx maxWidth : Nat) : Option Nat :=
  if startIdx ≥ str.length then some 0
  else findWrapLoop s str startIdx maxWidth (str.length + 1) startIdx (-1)

/-! ## Word wrap of a caption (`showRunningActivity`) -/

/-- The chunk loop `while (chunkStart < segment.length())` with its
`if (chunkLen == 0) chunkLen = 1` guard; it is the same in the caption wrapper,
in the drawing pass of the log and in the question of `showConfirm`.  The result
lists the chunks in the order in which they are emitted. -/
def wrapChunks (s : Ui) (segment : List Char) (availWidth : Nat) :
    Nat → Nat → Option (List (List Char))
  | 0, _ => none
  | fuel + 1, chunkStart =>
    if chunkStart < segment.length then
      match findWrapPoint s segment chunkStart availWidth with
      | none => none
      | some r =>
        let chunkLen := if r = 0 then 1 else r
        match wrapChunks s segment availWidth fuel
            (toUInt16 ((chunkStart : Int) + (chunkLen : Int))) with
        | none => none
        | some rest => some (substring segment chunkStart (chunkStart + chunkLen) :: rest)
    else
      some []

/-- What the caption wrapper and the drawing pass of the log do with one
segment: nothing when it is empty, one line when it is not wider than
`availWidth`, the chunk loop otherwise. -/
def segmentLines (s : Ui) (segment : List Char) (availWidth : Nat) :
    Option (List (List Char)) :=
  if segment.length > 0 then
    if strWidth s segment s.contentFont s.contentSize ≤ (availWidth : Int) then
      some [segment]
    else
      wrapChunks s segment availWidth (segment.length + 1) 0
  else
    some []

/-- The loop `for (int16_t pos = 0; pos <= n; pos++)` that cuts a text into
segments at its line breaks and wraps each segment, `n` being
`(int16_t)text.length()` and the first argument the number of turns still to
run (`n + 1 - pos`).  The caption wrapper and the drawing pass of the log run
this same loop and differ only in the characters they take as line breaks
(`isBreak`).  `segmentStart` never exceeds `pos + 1`, so it stays inside
`int16_t` whenever the loop runs.  The result lists the lines in the order in
which they are emitted. -/
def segmentLoop (s : Ui) (isBreak : Char → Bool) (text : List Char) (availWidth n : Nat) :
    Nat → Nat → Nat → Option (List (List Char))
  | 0, _, _ => some []
  | turns + 1, pos, segmentStart =>
    let isNewline := decide (pos < n) && isBreak (charAt text pos)
    let isEnd := decide (pos = n)
    if isNewline || isEnd then
      match segmentLines s (substring text segmentStart pos) availWidth with
      | none => none
      | some ls =>
        match segmentLoop s isBreak text availWidth n turns (pos + 1) (pos + 1) with
        | none => none
        | some rest => some (ls ++ rest)
    else
      segmentLoop s isBreak text availWidth n turns (pos + 1) segmentStart

/-- The loop over `pos` with its bound `(int16_t)text.length()`.  When the
bound is negative the loop body never runs; when it is `32767` the condition
`pos <= 32767` never fails and the loop does not end. -/
def wrapSegments (s : Ui) (isBreak : Char → Bool) (text : List Char) (availWidth : Nat) :
    Option (List (List Char)) :=
  if toInt16 (text.length : Int) < 0 then some []
  else if toInt16 (text.length : Int) = 32767 then none
  else segmentLoop s isBreak text availWidth (toInt16 (text.length : Int)).toNat
    ((toInt16 (text.length : Int)).toNat + 1) 0 0

/-- The line breaks of the caption wrapper: `'\n'` and `'\r'`. -/
def isCaptionBreak (c : Char) : Bool := c == '\n' || c == '\r'

/-- The vector `captionLines` that `showRunningActivity` builds, for a given
`availWidth`. -/
def captionLinesFor (s : Ui) (caption : List Char) (availWidth : Nat) :
    Option (List (List Char)) :=
  if s.gfx = false then some []
  else if caption.length > 0 ∧ s.contentFont.isSome then
    wrapSegments s isCaptionBreak caption availWidth
  else some []

/-- The `availWidth` of `showRunningActivity`:
`contentWidth - 2 * optionPadding` with `contentWidth = displayWidth - 2 * contentBoxThickness`,
both `uint16_t`. -/
def captionAvailWidth (s : Ui) : Nat :=
  toUInt16 ((toUInt16 ((s.displayWidth : Int) - 2 * (contentBoxThickness : Int)) : Int)
    - 2 * (optionPadding : Int))

/-- The vector `captionLines` of `showRunningActivity(bitmap, w, h, caption)`. -/
def captionLines (s : Ui) (caption : List Char) : Option (List (List Char)) :=
  captionLinesFor s caption (captionAvailWidth s)

/-! ## Content box metrics and the option list (`showOptionSelect`) -/

/-- The local `contentWidth`: `displayWidth - 2 * contentBoxThickness`, a `uint16_t`. -/
def contentWidth (s : Ui) : Nat :=
  toUInt16 ((s.displayWidth : Int) - 2 * (contentBoxThickness : Int))

/-- The local `contentTop` that every drawing function computes first:
`titleFontHeight + titleMargin + contentBoxThickness`, a `uint16_t`. -/
def contentTop (s : Ui) : Nat :=
  toUInt16 ((s.titleFontHeight : Int) + (titleMargin : Int) + (contentBoxThickness : Int))

/-- The local `contentHeight`:
`displayHeight - (titleFontHeight + titleMargin) - 2 * contentBoxThickness`, a `uint16_t`. -/
def contentHeight (s : Ui) : Nat :=
  toUInt16 ((s.displayHeight : Int) - ((s.titleFontHeight : Int) + (titleMargin : Int))
    - 2 * (contentBoxThickness : Int))

namespace showOptionSelect

/-- The local `uint8_t optionHeight = contentFontHeight + 2 * optionPadding`. -/
def optionHeight (s : Ui) : Nat :=
  toUInt8 ((s.contentFontHeight : Int) + 2 * (optionPadding : Int))

/-- The local `uint16_t sliderBoxHeight = contentHeight - 2 * sliderPadding`. -/
def sliderBoxHeight (s : Ui) : Nat :=
  toUInt16 ((contentHeight s : Int) - 2 * (sliderPadding : Int))

/-- The initial value of `uint8_t fullyVisibleCount`:
`(optionHeight == 0) ? 1 : (contentHeight / optionHeight)`. -/
def fullyVisibleCountInit (s : Ui) : Nat :=
  if optionHeight s = 0 then 1
  else toUInt8 ((contentHeight s / optionHeight s : Nat) : Int)

/-- The local `fullyVisibleCount` after `if (fullyVisibleCount == 0) fullyVisibleCount = 1`. -/
def fullyVisibleCount (s : Ui) : Nat :=
  if fullyVisibleCountInit s = 0 then 1 else fullyVisibleCountInit s

/-- The local `uint8_t visibleCount`. -/
def visibleCount (s : Ui) (numOptions : Nat) : Nat :=
  if numOptions > fullyVisibleCount s then toUInt8 ((fullyVisibleCount s : Int) + 1)
  else numOptions

/-- The local `uint8_t sliderHeight`. -/
def sliderHeight (s : Ui) (numOptions : Nat) : Nat :=
  if numOptions ≤ fullyVisibleCount s then toUInt8 (sliderBoxHeight s : Int)
  else
    let h := toUInt8 ((fullyVisibleCount s * sliderBoxHeight s / numOptions : Nat) : Int)
    if h < 4 then 4 else h

/-- The local `uint16_t sliderPos`.  The cast `(uint16_t)` applies to the product
`cursorPos * (sliderBoxHeight - sliderHeight)`, which is then divided by
`numOptions - 1`. -/
def sliderPos (s : Ui) (numOptions cursorPos : Nat) : Nat :=
  if numOptions ≤ 1 then
    toUInt16 ((s.titleFontHeight : Int) + (titleMargin : Int) + (contentBoxThickness : Int)
      + (sliderPadding : Int))
  else
    toUInt16 ((contentTop s : Int) + (sliderPadding : Int)
      + ((toUInt16 ((cursorPos : Int)
            * ((sliderBoxHeight s : Int) - (sliderHeight s numOptions : Int)))
          / (numOptions - 1) : Nat) : Int))

/-- The top edge of the slider box that is drawn: `contentTop + sliderPadding`. -/
def sliderBoxTop (s : Ui) : Nat := contentTop s + sliderPadding

/-- The local `uint8_t topIndex`, with the locals `desiredTop` and `maxTop` (`int16_t`). -/
def topIndex (s : Ui) (numOptions cursorPos : Nat) : Nat :=
  if numOptions > fullyVisibleCount s then
    let desiredTop := toInt16 (toInt16 (cursorPos : Int)
      - toInt16 ((fullyVisibleCount s / 2 : Nat) : Int))
    let maxTop := toInt16 (toInt16 (numOptions : Int) - toInt16 (fullyVisibleCount s : Int) - 1)
    let maxTop := if maxTop < 0 then 0 else maxTop
    let desiredTop := if desiredTop < 0 then 0 else desiredTop
    let desiredTop := if desiredTop > maxTop then maxTop else desiredTop
    toUInt8 desiredTop
  else 0

end showOptionSelect

/-! ## The live log (`showActivityLiveLog`) -/

namespace showActivityLiveLog

/-- The only line break of the log: `'\n'`. -/
def isLogBreak (c : Char) : Bool := c == '\n'

/-- The chunk loop of the counting pass, `displayLines++;
chunkStart += findWrapPoint(segment, chunkStart, availWidth);`, with the
`uint8_t` counter `displayLines`.  It has no `chunkLen == 0` guard. -/
def countChunks (s : Ui) (segment : List Char) (availWidth : Nat) :
    Nat → Nat → Nat → Option Nat
  | 0, _, _ => none
  | fuel + 1, chunkStart, displayLines =>
    if chunkStart < segment.length then
      match findWrapPoint s segment chunkStart availWidth with
      | none => none
      | some r =>
        countChunks s segment availWidth fuel (toUInt16 ((chunkStart : Int) + (r : Int)))
          (toUInt8 ((displayLines : Int) + 1))
    else
      some displayLines

/-- What the counting pass does with one segment. -/
def countSegment (s : Ui) (segment : List Char) (availWidth displayLines : Nat) :
    Option Nat :=
  if segment.length > 0 then
    if strWidth s segment s.contentFont s.contentSize ≤ (availWidth : Int) then
      some (toUInt8 ((displayLines : Int) + 1))
    else
      countChunks s segment availWidth (segment.length + 1) 0 displayLines
  else
    some displayLines

/-- The loop over `pos` of the counting pass, for one log line. -/
def countLoop (s : Ui) (line : List Char) (availWidth n : Nat) :
    Nat → Nat → Nat → Nat → Option Nat
  | 0, _, _, displayLines => some displayLines
  | turns + 1, pos, segmentStart, displayLines =>
    let isNewline := decide (pos < n) && isLogBreak (charAt line pos)
    let isEnd := decide (pos = n)
    if isNewline || isEnd then
      match countSegment s (substring line segmentStart pos) availWidth displayLines with
      | none => none
      | some d => countLoop s line availWidth n turns (pos + 1) (pos + 1) d
    else
      countLoop s line availWidth n turns (pos + 1) segmentStart displayLines

/-- The value pushed to `lineDisplayCounts` for one log line. -/
def displayLineCount (s : Ui) (line : List Char) (availWidth : Nat) : Option Nat :=
  if toInt16 (line.length : Int) < 0 then some 0
  else if toInt16 (line.length : Int) = 32767 then none
  else countLoop s line availWidth (toInt16 (line.length : Int)).toNat
    ((toInt16 (line.length : Int)).toNat + 1) 0 0 0

/-- The vector `lineDisplayCounts` after the first pass over the given log
lines. -/
def lineDisplayCounts (s : Ui) (availWidth : Nat) : List (List Char) → Option (List Nat)
  | [] => some []
  | line :: rest =>
    (displayLineCount s line availWidth).bind fun c =>
      (lineDisplayCounts s availWidth rest).bind fun cs => some (c :: cs)

/-- The loop `for (int16_t i = (int16_t)totalLines - 1; i >= 0; i--)` that looks
for the start index.  The first argument is `i + 1`, the second
`accumulatedLines` (`uint16_t`).  The result is the value of the expression
`i + 1` that the loop assigns to `startIndex` when it breaks, and 0, the initial
value of `startIndex`, when the loop runs to its end. -/
def tailWalk (lineDisplayCounts : List Nat) (visibleLineCount : Nat) : Nat → Nat → Nat
  | 0, _ => 0
  | i + 1, accumulatedLines =>
    if accumulatedLines + lineDisplayCounts.getD i 0 > visibleLineCount then i + 1
    else
      tailWalk lineDisplayCounts visibleLineCount i
        (toUInt16 ((accumulatedLines : Int) + (lineDisplayCounts.getD i 0 : Int)))

/-- The initial value of the local `int16_t i` of the walk: the `int` difference
`(int16_t)totalLines - 1` narrowed to `int16_t`.  For 32768 lines
`(int16_t)totalLines` is -32768 and the difference -32769 is stored as 32767. -/
def walkStart (totalLines : Nat) : Int :=
  toInt16 (toInt16 (totalLines : Int) - 1)

/-- The local `int16_t startIndex` for `totalLines` log lines: the walk does not
run when its initial index is negative, and the value `i + 1` that it assigns
is narrowed to `int16_t`. -/
def startIndex (lineDisplayCounts : List Nat) (visibleLineCount totalLines : Nat) : Int :=
  if walkStart totalLines < 0 then 0
  else toInt16 ((tailWalk lineDisplayCounts visibleLineCount
    ((walkStart totalLines).toNat + 1) 0 : Nat) : Int)

/-- The initial value of the index of the second pass,
`uint16_t i = startIndex`. -/
def firstDrawn (lineDisplayCounts : List Nat) (visibleLineCount totalLines : Nat) : Nat :=
  toUInt16 (startIndex lineDisplayCounts visibleLineCount totalLines)

/-- The second pass over the given log lines: the texts that are printed, in
the order in which they are printed. -/
def drawEntries (s : Ui) (availWidth : Nat) : List (List Char) → Option (List (List Char))
  | [] => some []
  | line :: rest =>
    (wrapSegments s isLogBreak line availWidth).bind fun ls =>
      (drawEntries s availWidth rest).bind fun r => some (ls ++ r)

/-- The log lines that `showActivityLiveLog` prints, for a given `availWidth`
and `visibleLineCount`: first pass, walk, second pass
`for (uint16_t i = startIndex; i < totalLines; i++)`.  `totalLines` is the
`uint16_t` size of the buffer. -/
def drawnLines (s : Ui) (availWidth visibleLineCount : Nat) : Option (List (List Char)) :=
  if s.gfx = false ∨ s.contentFont.isSome = false then some []
  else
    match lineDisplayCounts s availWidth
        (s.logLines.take (toUInt16 (s.logLines.length : Int))) with
    | none => none
    | some counts =>
      drawEntries s availWidth
        ((s.logLines.take (toUInt16 (s.logLines.length : Int))).drop
          (firstDrawn counts visibleLineCount (toUInt16 (s.logLines.length : Int))))

/-- The local `uint16_t logWindowTop = contentTop + labelHeight + optionPadding`,
`labelHeight` being `contentFontHeight`. -/
def logWindowTop (s : Ui) : Nat :=
  toUInt16 ((contentTop s : Int) + (s.contentFontHeight : Int) + (optionPadding : Int))

/-- The local `uint16_t logWindowHeight = contentHeight - labelHeight - 2 * optionPadding`. -/
def logWindowHeight (s : Ui) : Nat :=
  toUInt16 ((contentHeight s : Int) - (s.contentFontHeight : Int) - 2 * (optionPadding : Int))

/-- The local `uint16_t logWindowLeft = contentLeft + optionPadding`, `contentLeft`
being `contentBoxThickness`. -/
def logWindowLeft : Nat :=
  toUInt16 ((contentBoxThickness : Int) + (optionPadding : Int))

/-- The local `uint16_t logWindowWidth = contentWidth - 2 * optionPadding`. -/
def logWindowWidth (s : Ui) : Nat :=
  toUInt16 ((contentWidth s : Int) - 2 * (optionPadding : Int))

/-- The local `uint16_t availWidth = logWindowWidth - 4 * optionPadding`. -/
def availWidth (s : Ui) : Nat :=
  toUInt16 ((logWindowWidth s : Int) - 4 * (optionPadding : Int))

/-- The local `uint8_t lineHeight = contentFontHeight + contentFontHeight * 0.2`.
The sum is computed in `double` and cut to an integer: for an integer `h` below
`2^16` the product `h * 0.2` rounds to a value with the integer part `h / 5`, so
the result is `h + h / 5`.  A value above 255 cannot be stored in the `uint8_t`
and the conversion is undefined: `none`. -/
def lineHeight (s : Ui) : Option Nat :=
  if s.contentFontHeight + s.contentFontHeight / 5 ≤ 255 then
    some (s.contentFontHeight + s.contentFontHeight / 5)
  else none

/-- The local `uint8_t visibleLineCount = (logWindowHeight - 2 * optionPadding) / lineHeight`,
raised to 1 when it is 0.  The quotient is an `int` division, which rounds
toward zero; there is no result when `lineHeight` is 0. -/
def visibleLineCount (s : Ui) : Option Nat :=
  (lineHeight s).bind fun lh =>
    if lh = 0 then none
    else
      some (if toUInt8 (Int.tdiv ((logWindowHeight s : Int) - 2 * (optionPadding : Int))
                (lh : Int)) = 0 then 1
        else toUInt8 (Int.tdiv ((logWindowHeight s : Int) - 2 * (optionPadding : Int))
                (lh : Int)))

/-- The display lines of one log line as the second pass wraps it (no line
when the pass does not return). -/
def entryLines (s : Ui) (availWidth : Nat) (line : List Char) : List (List Char) :=
  (wrapSegments s isLogBreak line availWidth).getD []

end showActivityLiveLog

/-- The member function `appendLogLine(line)`. -/
def appendLogLine (s : Ui) (line : List Char) : Ui :=
  { s with logLines := s.logLines ++ [line] }

/-- The member function `clearLog()`. -/
def clearLog (s : Ui) : Ui :=
  { s with logLines := [] }

/-! ## Calls to the display -/

/-- A call that paints on the display.  The text state set just before a
`print` (`setCursor`, `setTextColor`) is recorded with the `print`; `setFont`
and `setTextWrap` paint nothing and are not recorded.  The arguments are the
values of the argument expressions of the call. -/
inductive DrawCall where
  | fillScreen (color : Nat)
  | fillRect (x y w h : Int) (color : Nat)
  | drawRect (x y w h : Int) (color : Nat)
  | drawBitmap (x y : Int) (bitmap : Nat) (w h : Int) (color : Nat)
  | print (x y : Int) (color : Nat) (text : List Char)
  deriving DecidableEq

/-! ## The confirmation dialog (`showConfirm`) -/

namespace showConfirm

/-- The parameter `numOptions` after `if (numOptions == 0) numOptions = 1;
if (numOptions > 3) numOptions = 3;`. -/
def effectiveCount (numOptions : Nat) : Nat :=
  if numOptions = 0 then 1 else if numOptions > 3 then 3 else numOptions

/-- The parameter `selectedIndex` after
`if (selectedIndex >= numOptions) selectedIndex = numOptions - 1;`. -/
def effectiveIndex (numOptions selectedIndex : Nat) : Nat :=
  if selectedIndex ≥ effectiveCount numOptions then
    toUInt8 ((effectiveCount numOptions : Int) - 1)
  else selectedIndex

/-- The local `uint16_t contentBottom = contentTop + contentHeight`. -/
def contentBottom (s : Ui) : Nat :=
  toUInt16 ((contentTop s : Int) + (contentHeight s : Int))

/-- The locals `int16_t maxQWidth` and `int16_t availWidth`, both
`(int16_t)contentWidth - 2 * optionPadding`. -/
def availWidth (s : Ui) : Int :=
  toInt16 (toInt16 (contentWidth s : Int) - 2 * (optionPadding : Int))

/-- The lines of the question: the chunk loop over the whole question, with
`maxQWidth` converted to the `uint16_t` parameter of `findWrapPoint`. -/
def questionLines (s : Ui) (question : List Char) : Option (List (List Char)) :=
  wrapChunks s question (toUInt16 (availWidth s)) (question.length + 1) 0

/-- The local `uint16_t buttonHeight = contentFontHeight + 2 * optionPadding`. -/
def buttonHeight (s : Ui) : Nat :=
  toUInt16 ((s.contentFontHeight : Int) + 2 * (optionPadding : Int))

/-- The local `int16_t labelW = strWidth(options[i], contentFont, contentSize)`. -/
def labelWidth (s : Ui) (options : List (List Char)) (i : Nat) : Int :=
  strWidth s (options.getD i []) s.contentFont s.contentSize

/-- The entry `btnWidths[i] = labelW + 2 * hPadding`, an `int16_t`, with
`hPadding = 2 * optionPadding`. -/
def btnWidth (s : Ui) (options : List (List Char)) (i : Nat) : Int :=
  toInt16 (labelWidth s options i + 2 * toInt16 (2 * (optionPadding : Int)))

/-- The local `int16_t totalWidth` after the first `n` turns of the loop
`totalWidth += btnWidths[i]`. -/
def totalWidth (s : Ui) (options : List (List Char)) : Nat → Int
  | 0 => 0
  | n + 1 => toInt16 (totalWidth s options n + btnWidth s options n)

/-- The local `int16_t totalWidthWithSpacing = totalWidth + (numOptions - 1) * hSpacing`,
for `n` options. -/
def totalWidthWithSpacing (s : Ui) (options : List (List Char)) (n : Nat) : Int :=
  toInt16 (totalWidth s options n + ((n : Int) - 1) * (optionPadding : Int))

/-- The local `int16_t topTwoWidth = btnWidths[0] + hSpacing + btnWidths[1]`. -/
def topTwoWidth (s : Ui) (options : List (List Char)) : Int :=
  toInt16 (btnWidth s options 0 + (optionPadding : Int) + btnWidth s options 1)

/-- The local `bool allHorizontal`, for `n` options. -/
def allHorizontal (s : Ui) (options : List (List Char)) (n : Nat) : Bool :=
  decide (n ≤ 3) && decide (totalWidthWithSpacing s options n ≤ availWidth s)

/-- The local `bool twoTopOneBottom`, for `n` options. -/
def twoTopOneBottom (s : Ui) (options : List (List Char)) (n : Nat) : Bool :=
  !allHorizontal s options n && decide (n = 3) &&
    (decide (topTwoWidth s options ≤ availWidth s)
      && decide (btnWidth s options 2 ≤ availWidth s))

/-- The three arrangements of the buttons. -/
inductive Layout where
  | horizontal
  | twoPlusOne
  | vertical
  deriving DecidableEq

/-- The branch that `showConfirm` takes to draw the buttons. -/
def layout (s : Ui) (options : List (List Char)) (numOptions : Nat) : Layout :=
  if allHorizontal s options (effectiveCount numOptions) = true then Layout.horizontal
  else if twoTopOneBottom s options (effectiveCount numOptions) = true then Layout.twoPlusOne
  else Layout.vertical

/-- One drawn button: the rectangle passed to `drawRect` (and to `fillRect` when
the button is selected), and the label with the cursor and colour of its
`print`. -/
structure Button where
  x : Int
  y : Int
  w : Int
  h : Int
  selected : Bool
  textX : Int
  textY : Int
  label : List Char
  deriving DecidableEq

/-- The local `int16_t buttonsBlockBottom = (int16_t)contentBottom - (int16_t)optionPadding`. -/
def buttonsBlockBottom (s : Ui) : Int :=
  toInt16 (toInt16 (contentBottom s : Int) - toInt16 (optionPadding : Int))

/-- The expression `(int16_t)contentLeft + ((int16_t)contentWidth - width) / 2`
stored in an `int16_t`, which centres a row of the given width; the division is
an `int` division, which rounds toward zero. -/
def centredX (s : Ui) (width : Int) : Int :=
  toInt16 (toInt16 (contentBoxThickness : Int)
    + Int.tdiv (toInt16 (contentWidth s : Int) - width) 2)

/-- The button `i` drawn at `(x, y)`: its label is centred in the button and
its baseline is `y + (buttonHeight + contentFontHeight - 1) / 2 - 1`. -/
def buttonAt (s : Ui) (options : List (List Char)) (selectedIndex i : Nat) (x y : Int) :
    Button :=
  { x := x, y := y, w := btnWidth s options i, h := (buttonHeight s : Int),
    selected := decide (i = selectedIndex),
    textX := toInt16 (x + Int.tdiv (btnWidth s options i - labelWidth s options i) 2),
    textY := toInt16 (y + Int.tdiv ((buttonHeight s : Int) + (s.contentFontHeight : Int) - 1) 2
      - 1),
    label := options.getD i [] }

/-- The local `int16_t currentX` of the horizontal layout before button `i`:
`rowStartX`, then `currentX += btnWidths[i] + hSpacing` after each button. -/
def currentX (s : Ui) (options : List (List Char)) (n : Nat) : Nat → Int
  | 0 => centredX s (totalWidthWithSpacing s options n)
  | i + 1 => toInt16 (currentX s options n i + btnWidth s options i + (optionPadding : Int))

/-- The buttons of the horizontal layout, all at
`rowY = buttonsBlockBottom - buttonHeight`. -/
def horizontalButtons (s : Ui) (options : List (List Char)) (n selectedIndex : Nat) :
    List Button :=
  (List.range n).map fun i =>
    buttonAt s options selectedIndex i (currentX s options n i)
      (toInt16 (buttonsBlockBottom s - (buttonHeight s : Int)))

/-- The buttons of the two-plus-one layout: buttons 0 and 1 at
`topRowY = buttonsBlockBottom - (2 * buttonHeight + vSpacing)`, button 2 at
`bottomRowY = buttonsBlockBottom - buttonHeight`. -/
def twoPlusOneButtons (s : Ui) (options : List (List Char)) (selectedIndex : Nat) :
    List Button :=
  [ buttonAt s options selectedIndex 0
      (toInt16 (centredX s (topTwoWidth s options) + 0))
      (toInt16 (buttonsBlockBottom s - (2 * (buttonHeight s : Int) + (optionPadding : Int)))),
    buttonAt s options selectedIndex 1
      (toInt16 (centredX s (topTwoWidth s options)
        + (btnWidth s options 0 + (optionPadding : Int))))
      (toInt16 (buttonsBlockBottom s - (2 * (buttonHeight s : Int) + (optionPadding : Int)))),
    buttonAt s options selectedIndex 2
      (centredX s (btnWidth s options 2))
      (toInt16 (buttonsBlockBottom s - (buttonHeight s : Int))) ]

/-- The local `uint16_t totalButtonsHeight` of the vertical stack:
`numOptions * buttonHeight + (numOptions - 1) * vSpacing`. -/
def totalButtonsHeight (s : Ui) (n : Nat) : Nat :=
  toUInt16 ((toUInt16 (n : Int) : Int) * (buttonHeight s : Int)
    + (toUInt16 ((n : Int) - 1) : Int) * (optionPadding : Int))

/-- The local `int16_t buttonsBlockTop = buttonsBlockBottom - (int16_t)totalButtonsHeight`. -/
def buttonsBlockTop (s : Ui) (n : Nat) : Int :=
  toInt16 (buttonsBlockBottom s - toInt16 (totalButtonsHeight s n : Int))

/-- The buttons of the vertical stack: button `i` at
`btnY = buttonsBlockTop + i * (buttonHeight + vSpacing)`. -/
def verticalButtons (s : Ui) (options : List (List Char)) (n selectedIndex : Nat) :
    List Button :=
  (List.range n).map fun i =>
    buttonAt s options selectedIndex i (centredX s (btnWidth s options i))
      (toInt16 (buttonsBlockTop s n
        + (i : Int) * ((buttonHeight s : Int) + (optionPadding : Int))))

/-- The buttons that `showConfirm` draws for the labels `options`, in the order
in which it draws them, after the validation of `numOptions` and
`selectedIndex`.  A label that the array does not hold is read as empty. -/
def buttons (s : Ui) (options : List (List Char)) (numOptions selectedIndex : Nat) :
    List Button :=
  match layout s options numOptions with
  | Layout.horizontal =>
    horizontalButtons s options (effectiveCount numOptions)
      (effectiveIndex numOptions selectedIndex)
  | Layout.twoPlusOne => twoPlusOneButtons s options (effectiveIndex numOptions selectedIndex)
  | Layout.vertical =>
    verticalButtons s options (effectiveCount numOptions)
      (effectiveIndex numOptions selectedIndex)

/-- The calls that draw one button: filled and outlined with the label in the
background colour when it is selected, outlined only otherwise. -/
def buttonCalls (b : Button) : List DrawCall :=
  (if b.selected then [DrawCall.fillRect b.x b.y b.w b.h 1, DrawCall.drawRect b.x b.y b.w b.h 1]
    else [DrawCall.drawRect b.x b.y b.w b.h 1])
  ++ [DrawCall.print b.textX b.textY (if b.selected then 0 else 1) b.label]

/-- Whether the bitmap is drawn: `bitmap != nullptr && bitmapW > 0 && bitmapH > 0`. -/
def hasBitmap (bitmap : Option Nat) (bitmapW bitmapH : Nat) : Bool :=
  bitmap.isSome && decide (bitmapW > 0) && decide (bitmapH > 0)

/-- The local `int16_t bmpY`: `contentTop + optionPadding` with a bitmap, 0
without. -/
def bmpY (s : Ui) (bitmap : Option Nat) (bitmapW bitmapH : Nat) : Int :=
  if hasBitmap bitmap bitmapW bitmapH = true then
    toInt16 ((contentTop s : Int) + (optionPadding : Int))
  else 0

/-- The local `int16_t bmpX` when there is a bitmap. -/
def bmpX (s : Ui) (bitmapW : Nat) : Int :=
  if bitmapW ≥ contentWidth s then toInt16 (toInt16 (contentBoxThickness : Int))
  else toInt16 (toInt16 (contentBoxThickness : Int)
    + Int.tdiv (toInt16 (contentWidth s : Int) - toInt16 (bitmapW : Int)) 2)

/-- The calls that draw the bitmap, if any. -/
def bitmapCalls (s : Ui) (bitmap : Option Nat) (bitmapW bitmapH : Nat) : List DrawCall :=
  match bitmap with
  | none => []
  | some b =>
    if hasBitmap (some b) bitmapW bitmapH = true then
      [DrawCall.drawBitmap (bmpX s bitmapW) (bmpY s (some b) bitmapW bitmapH) b
        (bitmapW : Int) (bitmapH : Int) 1]
    else []

/-- The local `int16_t qStartY`. -/
def qStartY (s : Ui) (bitmap : Option Nat) (bitmapW bitmapH : Nat) : Int :=
  if hasBitmap bitmap bitmapW bitmapH = true then
    toInt16 (bmpY s bitmap bitmapW bitmapH + toInt16 (bitmapH : Int)
      + toInt16 ((s.contentFontHeight / 2 : Nat) : Int) + toInt16 (s.contentFontHeight : Int))
  else
    toInt16 ((contentTop s : Int) + (optionPadding : Int)
      + toInt16 (s.contentFontHeight : Int))

/-- The calls that print the lines of the question, from `currentY` on:
each line is centred, printed at `currentY - 1`, and `currentY` advances by
`contentFontHeight`. -/
def questionCalls (s : Ui) : List (List Char) → Int → List DrawCall
  | [], _ => []
  | line :: rest, currentY =>
    DrawCall.print (centredX s (strWidth s line s.contentFont s.contentSize)) (currentY - 1) 1
        line
      :: questionCalls s rest (toInt16 (currentY + (s.contentFontHeight : Int)))

end showConfirm

/-- The member function `showConfirm(bitmap, bitmapW, bitmapH, question, options,
numOptions, selectedIndex)`: the calls it makes, `none` when the loop over the
question does not end.  `bitmap` and `options` are `none` for a null pointer.
The function writes no data member. -/
def showConfirm (s : Ui) (bitmap : Option Nat) (bitmapW bitmapH : Nat) (question : List Char)
    (options : Option (List (List Char))) (numOptions selectedIndex : Nat) :
    Option (List DrawCall) :=
  if s.gfx = false ∨ s.contentFont.isSome = false then some []
  else
    (showConfirm.questionLines s question).bind fun lines =>
      some (showConfirm.bitmapCalls s bitmap bitmapW bitmapH
        ++ showConfirm.questionCalls s lines (showConfirm.qStartY s bitmap bitmapW bitmapH)
        ++ (match options with
            | none => []
            | some opts =>
              ((showConfirm.buttons s opts numOptions selectedIndex).map
                showConfirm.buttonCalls).flatten))

/-- The state that the constructor `s3ui::s3ui()` sets up: no display, no
fonts, text sizes 1, everything else 0, empty or false. -/
def init : Ui :=
  { gfx := false, displayWidth := 0, displayHeight := 0,
    animationActive := false, animationFrames := [], currentFrame := 0, totalFrames := 0,
    frameDelay := 0, lastFrameTime := 0, bitmapWidth := 0, bitmapHeight := 0,
    captionText := [], logActive := false, logLines := [],
    titleFont := none, contentFont := none, titleSize := 1, contentSize := 1,
    titleFontHeight := 0, contentFontHeight := 0 }

/-- The member function `setDisplay(display, width, height)` with a display
that is not null. -/
def setDisplay (s : Ui) (width height : Nat) : Ui :=
  { s with gfx := true, displayWidth := width, displayHeight := height }

/-- The member function `setTitleFont(font)`. -/
def setTitleFont (s : Ui) (font : GFXfont) : Ui :=
  { s with titleFont := some font, titleFontHeight := font.yAdvance }

/-- The member function `setContentFont(font)`. -/
def setContentFont (s : Ui) (font : GFXfont) : Ui :=
  { s with contentFont := some font, contentFontHeight := font.yAdvance }

/-- The member function `setTitleSize(size)`. -/
def setTitleSize (s : Ui) (size : Nat) : Ui :=
  { s with titleSize := size }

/-- The member function `setContentSize(size)`. -/
def setContentSize (s : Ui) (size : Nat) : Ui :=
  { s with contentSize := size }

/-! ## The title bar -/

/-- The member function `showTitleAndBorder(title, batteryPercentage)`: the
calls it makes.  It writes no data member. -/
def showTitleAndBorder (s : Ui) (title batteryPercentage : List Char) : List DrawCall :=
  if s.gfx = false then []
  else
    [ DrawCall.print ((s.titleFontHeight / 3 : Nat) : Int) ((s.titleFontHeight : Int) - 1) 1
        title,
      DrawCall.print
        ((s.displayWidth : Int) - strWidth s batteryPercentage s.titleFont s.titleSize
          - ((s.titleFontHeight / 3 : Nat) : Int))
        ((s.titleFontHeight : Int) - 1) 1 batteryPercentage,
      DrawCall.fillRect 0 ((s.titleFontHeight : Int) + (titleMargin : Int))
        (s.displayWidth : Int)
        ((s.displayHeight : Int) - ((s.titleFontHeight : Int) + (titleMargin : Int))) 1,
      DrawCall.fillRect (contentBoxThickness : Int)
        ((s.titleFontHeight : Int) + (titleMargin : Int) + (contentBoxThickness : Int))
        ((s.displayWidth : Int) - 2 * (contentBoxThickness : Int))
        ((s.displayHeight : Int) - ((s.titleFontHeight : Int) + (titleMargin : Int))
          - 2 * (contentBoxThickness : Int)) 0 ]

/-! ## The rows of the option list (`showOptionSelect`) -/

namespace showOptionSelect

/-- The expression `displayWidth - contentBoxThickness - sliderWidth - sliderPadding`,
the left edge of the slider box. -/
def sliderLeft (s : Ui) : Int :=
  (s.displayWidth : Int) - (contentBoxThickness : Int) - (sliderWidth : Int)
    - (sliderPadding : Int)

/-- The local `contentTop` when the rows are drawn: it is moved up by
`contentBoxThickness + (optionHeight - contentFontHeight) / 2 + optionPadding`
when the list does not fit and the cursor is on the last option. -/
def rowsTop (s : Ui) (numOptions cursorPos : Nat) : Nat :=
  if numOptions > fullyVisibleCount s ∧ (cursorPos : Int) = (numOptions : Int) - 1 then
    toUInt16 ((contentTop s : Int) - (contentBoxThickness : Int)
      - Int.tdiv ((optionHeight s : Int) - (s.contentFontHeight : Int)) 2
      - (optionPadding : Int))
  else contentTop s

/-- The local `uint16_t optionPos = contentTop + optionHeight * row`. -/
def optionPos (s : Ui) (numOptions cursorPos row : Nat) : Nat :=
  toUInt16 ((rowsTop s numOptions cursorPos : Int) + (optionHeight s : Int) * (row : Int))

/-- The width of the highlight of a row:
`displayWidth - 2 * contentBoxThickness - 2 * optionPadding - sliderWidth - sliderPadding`. -/
def rowWidth (s : Ui) : Int :=
  (s.displayWidth : Int) - 2 * (contentBoxThickness : Int) - 2 * (optionPadding : Int)
    - (sliderWidth : Int) - (sliderPadding : Int)

/-- The calls that draw the row `row` for the option `i`. -/
def rowCallsAt (s : Ui) (options : List (List Char)) (numOptions cursorPos row i : Nat) :
    List DrawCall :=
  (if i = cursorPos then
      [DrawCall.fillRect ((contentBoxThickness : Int) + (optionPadding : Int))
        ((optionPos s numOptions cursorPos row : Int) + (optionPadding : Int))
        (rowWidth s) (optionHeight s : Int) 1]
    else [])
  ++ [DrawCall.print
        ((contentBoxThickness : Int) + 2 * (optionPadding : Int)
          + (if i = cursorPos then 4 else 0))
        ((optionPos s numOptions cursorPos row : Int)
          + Int.tdiv ((optionHeight s : Int) + (s.contentFontHeight : Int)) 2 - 1)
        (if i = cursorPos then 0 else 1) (options.getD i [])]

/-- The loop `for (uint8_t row = 0; row < visibleCount; row++)` from `row` on,
the first argument being the number of turns left; it stops at the first
`i = topIndex + row` (a `uint8_t`) that is not below `numOptions`. -/
def rowCalls (s : Ui) (options : List (List Char)) (numOptions cursorPos : Nat) :
    Nat → Nat → List DrawCall
  | 0, _ => []
  | turns + 1, row =>
    if toUInt8 ((topIndex s numOptions cursorPos : Int) + (row : Int)) ≥ numOptions then []
    else
      rowCallsAt s options numOptions cursorPos row
          (toUInt8 ((topIndex s numOptions cursorPos : Int) + (row : Int)))
        ++ rowCalls s options numOptions cursorPos turns (row + 1)

end showOptionSelect

/-- The member function `showOptionSelect(options, numOptions, cursorPos)`: the
calls it makes.  It writes no data member.  A label that the array does not
hold is read as empty. -/
def showOptionSelect (s : Ui) (options : List (List Char)) (numOptions cursorPos : Nat) :
    List DrawCall :=
  if s.gfx = false then []
  else
    [ DrawCall.drawRect (showOptionSelect.sliderLeft s)
        ((contentTop s : Int) + (sliderPadding : Int)) (sliderWidth : Int)
        (showOptionSelect.sliderBoxHeight s : Int) 1,
      DrawCall.drawRect (showOptionSelect.sliderLeft s + 1)
        (showOptionSelect.sliderPos s numOptions cursorPos : Int) 1
        (showOptionSelect.sliderHeight s numOptions : Int) 1 ]
    ++ showOptionSelect.rowCalls s options numOptions cursorPos
        (showOptionSelect.visibleCount s numOptions) 0

/-! ## The list of options with values (`showOptionValueSet`) -/

namespace showOptionValueSet

/-- The local `uint8_t optionHeight = contentFontHeight + 4 * optionPadding`. -/
def optionHeight (s : Ui) : Nat :=
  toUInt8 ((s.contentFontHeight : Int) + 4 * (optionPadding : Int))

/-- The local `uint16_t sliderBoxHeight = contentHeight - 2 * sliderPadding`. -/
def sliderBoxHeight (s : Ui) : Nat :=
  toUInt16 ((contentHeight s : Int) - 2 * (sliderPadding : Int))

/-- The initial value of `uint8_t fullyVisibleCount`:
`(optionHeight == 0) ? 1 : (contentHeight / optionHeight)`. -/
def fullyVisibleCountInit (s : Ui) : Nat :=
  if optionHeight s = 0 then 1
  else toUInt8 ((contentHeight s / optionHeight s : Nat) : Int)

/-- The local `fullyVisibleCount` after `if (fullyVisibleCount == 0) fullyVisibleCount = 1`. -/
def fullyVisibleCount (s : Ui) : Nat :=
  if fullyVisibleCountInit s = 0 then 1 else fullyVisibleCountInit s

/-- The local `uint8_t visibleCount`. -/
def visibleCount (s : Ui) (numOptions : Nat) : Nat :=
  if numOptions > fullyVisibleCount s then toUInt8 ((fullyVisibleCount s : Int) + 1)
  else numOptions

/-- The local `uint8_t sliderHeight`. -/
def sliderHeight (s : Ui) (numOptions : Nat) : Nat :=
  if numOptions ≤ fullyVisibleCount s then toUInt8 (sliderBoxHeight s : Int)
  else if toUInt8 ((fullyVisibleCount s * sliderBoxHeight s / numOptions : Nat) : Int) < 4 then 4
  else toUInt8 ((fullyVisibleCount s * sliderBoxHeight s / numOptions : Nat) : Int)

/-- The local `uint16_t sliderPos`. -/
def sliderPos (s : Ui) (numOptions cursorPos : Nat) : Nat :=
  if numOptions ≤ 1 then
    toUInt16 ((s.titleFontHeight : Int) + (titleMargin : Int) + (contentBoxThickness : Int)
      + (sliderPadding : Int))
  else
    toUInt16 ((contentTop s : Int) + (sliderPadding : Int)
      + ((toUInt16 ((cursorPos : Int)
            * ((sliderBoxHeight s : Int) - (sliderHeight s numOptions : Int)))
          / (numOptions - 1) : Nat) : Int))

/-- The local `int16_t desiredTop` before it is clamped. -/
def desiredTop (s : Ui) (cursorPos : Nat) : Int :=
  toInt16 (toInt16 (cursorPos : Int) - toInt16 ((fullyVisibleCount s / 2 : Nat) : Int))

/-- The local `int16_t maxTop` after `if (maxTop < 0) maxTop = 0`. -/
def maxTop (s : Ui) (numOptions : Nat) : Int :=
  if toInt16 (toInt16 (numOptions : Int) - toInt16 (fullyVisibleCount s : Int) - 1) < 0 then 0
  else toInt16 (toInt16 (numOptions : Int) - toInt16 (fullyVisibleCount s : Int) - 1)

/-- The local `uint8_t topIndex`. -/
def topIndex (s : Ui) (numOptions cursorPos : Nat) : Nat :=
  if numOptions > fullyVisibleCount s then
    if desiredTop s cursorPos < 0 then
      (if 0 > maxTop s numOptions then toUInt8 (maxTop s numOptions) else 0)
    else if desiredTop s cursorPos > maxTop s numOptions then toUInt8 (maxTop s numOptions)
    else toUInt8 (desiredTop s cursorPos)
  else 0

/-- The local `contentTop` when the rows are drawn. -/
def rowsTop (s : Ui) (numOptions cursorPos : Nat) : Nat :=
  if numOptions > fullyVisibleCount s ∧ (cursorPos : Int) = (numOptions : Int) - 1 then
    toUInt16 ((contentTop s : Int) - (contentBoxThickness : Int)
      - Int.tdiv ((optionHeight s : Int) - (s.contentFontHeight : Int)) 2
      - (optionPadding : Int))
  else contentTop s

/-- The local `uint16_t optionPos = contentTop + optionHeight * row`. -/
def optionPos (s : Ui) (numOptions cursorPos row : Nat) : Nat :=
  toUInt16 ((rowsTop s numOptions cursorPos : Int) + (optionHeight s : Int) * (row : Int))

/-- The baseline of the texts of a row:
`optionPos + (optionHeight + contentFontHeight) / 2 - 1`. -/
def baseline (s : Ui) (numOptions cursorPos row : Nat) : Int :=
  (optionPos s numOptions cursorPos row : Int)
    + Int.tdiv ((optionHeight s : Int) + (s.contentFontHeight : Int)) 2 - 1

/-- The text `"<" + spacing + optionValues[i] + spacing + ">"` shown while a
value is edited, `spacing` being two spaces. -/
def editedValue (value : List Char) : List Char :=
  "<".toList ++ "  ".toList ++ value ++ "  ".toList ++ ">".toList

/-- The local `int16_t valueX`, which right-aligns the text `value` against the
slider. -/
def valueX (s : Ui) (value : List Char) : Int :=
  toInt16 (showOptionSelect.sliderLeft s - (optionPadding : Int)
    - strWidth s value s.contentFont s.contentSize)

/-- The calls that draw the row `row` for the option `i`: the highlight of the
selected row (filled while its value is edited, outlined otherwise), the name,
and the value. -/
def rowCallsAt (s : Ui) (optionNames optionValues : List (List Char))
    (numOptions cursorPos : Nat) (optionSelected : Bool) (row i : Nat) : List DrawCall :=
  (if i = cursorPos then
      (if optionSelected = true then
        [DrawCall.fillRect ((contentBoxThickness : Int) + (optionPadding : Int))
          ((optionPos s numOptions cursorPos row : Int) + (optionPadding : Int))
          (showOptionSelect.rowWidth s) (optionHeight s : Int) 1]
      else
        [DrawCall.drawRect ((contentBoxThickness : Int) + (optionPadding : Int))
          ((optionPos s numOptions cursorPos row : Int) + (optionPadding : Int))
          (showOptionSelect.rowWidth s) (optionHeight s : Int) 1])
    else [])
  ++ [DrawCall.print
        ((contentBoxThickness : Int) + 2 * (optionPadding : Int)
          + (if i = cursorPos then 4 else 0))
        (baseline s numOptions cursorPos row)
        (if i = cursorPos ∧ optionSelected = true then 0 else 1) (optionNames.getD i [])]
  ++ (if i = cursorPos ∧ optionSelected = true then
        [DrawCall.print (valueX s (editedValue (optionValues.getD i [])))
          (baseline s numOptions cursorPos row) 0 (editedValue (optionValues.getD i []))]
      else
        [DrawCall.print (valueX s (optionValues.getD i []))
          (baseline s numOptions cursorPos row) 1 (optionValues.getD i [])])

/-- The loop over the rows, as in `showOptionSelect`. -/
def rowCalls (s : Ui) (optionNames optionValues : List (List Char))
    (numOptions cursorPos : Nat) (optionSelected : Bool) : Nat → Nat → List DrawCall
  | 0, _ => []
  | turns + 1, row =>
    if toUInt8 ((topIndex s numOptions cursorPos : Int) + (row : Int)) ≥ numOptions then []
    else
      rowCallsAt s optionNames optionValues numOptions cursorPos optionSelected row
          (toUInt8 ((topIndex s numOptions cursorPos : Int) + (row : Int)))
        ++ rowCalls s optionNames optionValues numOptions cursorPos optionSelected turns
            (row + 1)

end showOptionValueSet

/-- The member function `showOptionValueSet(optionNames, optionValues,
numOptions, cursorPos, optionSelected)`: the calls it makes.  It writes no data
member. -/
def showOptionValueSet (s : Ui) (optionNames optionValues : List (List Char))
    (numOptions cursorPos : Nat) (optionSelected : Bool) : List DrawCall :=
  if s.gfx = false then []
  else
    [ DrawCall.drawRect (showOptionSelect.sliderLeft s)
        ((contentTop s : Int) + (sliderPadding : Int)) (sliderWidth : Int)
        (showOptionValueSet.sliderBoxHeight s : Int) 1,
      DrawCall.drawRect (showOptionSelect.sliderLeft s + 1)
        (showOptionValueSet.sliderPos s numOptions cursorPos : Int) 1
        (showOptionValueSet.sliderHeight s numOptions : Int) 1 ]
    ++ showOptionValueSet.rowCalls s optionNames optionValues numOptions cursorPos
        optionSelected (showOptionValueSet.visibleCount s numOptions) 0

/-! ## The activity screen (`showRunningActivity`) -/

namespace showRunningActivity

/-- The local `uint16_t lineHeight = contentFontHeight + contentFontHeight * 0.2`,
computed in `double` and cut to an integer, which gives `h + h / 5` (see
`showActivityLiveLog.lineHeight`); there is no result when the value does not
fit the `uint16_t`. -/
def lineHeight (s : Ui) : Option Nat :=
  if s.contentFontHeight + s.contentFontHeight / 5 ≤ 65535 then
    some (s.contentFontHeight + s.contentFontHeight / 5)
  else none

/-- The local `bool hasCaption = capText.length() > 0 && contentFont`. -/
def hasCaption (s : Ui) (caption : List Char) : Bool :=
  decide (caption.length > 0) && s.contentFont.isSome

/-- The local `uint16_t captionTotalHeight`:
`(uint16_t)captionLines.size() * lineHeight` with a caption, 0 without. -/
def captionTotalHeight (s : Ui) (caption : List Char) (lineCount lineHeight : Nat) : Nat :=
  if hasCaption s caption = true then
    toUInt16 ((toUInt16 (lineCount : Int) : Int) * (lineHeight : Int))
  else 0

/-- The local `uint16_t groupHeight = bitmapH + captionTotalHeight`. -/
def groupHeight (s : Ui) (caption : List Char) (bitmapH lineCount lineHeight : Nat) : Nat :=
  toUInt16 ((bitmapH : Int) + (captionTotalHeight s caption lineCount lineHeight : Int))

/-- The local `int16_t groupTop`: the group of bitmap and caption is centred in
the content box when it fits, and starts at its top otherwise. -/
def groupTop (s : Ui) (caption : List Char) (bitmapH lineCount lineHeight : Nat) : Int :=
  if groupHeight s caption bitmapH lineCount lineHeight ≤ contentHeight s then
    toInt16 (toInt16 (contentTop s : Int)
      + Int.tdiv (toInt16 (contentHeight s : Int)
          - toInt16 (groupHeight s caption bitmapH lineCount lineHeight : Int)) 2)
  else toInt16 (contentTop s : Int)

/-- The local `int16_t bmpX`. -/
def bmpX (s : Ui) (bitmapW : Nat) : Int :=
  if bitmapW ≥ contentWidth s then toInt16 (toInt16 (contentBoxThickness : Int))
  else toInt16 (toInt16 (contentBoxThickness : Int)
    + Int.tdiv (toInt16 (contentWidth s : Int) - toInt16 (bitmapW : Int)) 2)

/-- The local `int16_t maxBaseline = (int16_t)contentTop + (int16_t)contentHeight - 1`. -/
def maxBaseline (s : Ui) : Int :=
  toInt16 (toInt16 (contentTop s : Int) + toInt16 (contentHeight s : Int) - 1)

/-- The local `int16_t lineX`, which centres a line of the caption. -/
def lineX (s : Ui) (line : List Char) : Int :=
  toInt16 (toInt16 (contentBoxThickness : Int)
    + Int.tdiv (toInt16 (contentWidth s : Int)
        - strWidth s line s.contentFont s.contentSize) 2)

/-- The local `int16_t baselineY = drawY + (int16_t)contentFontHeight - 1`. -/
def baselineY (s : Ui) (drawY : Int) : Int :=
  toInt16 (drawY + toInt16 (s.contentFontHeight : Int) - 1)

/-- The loop that prints the caption lines from `drawY` on: it stops at the
first line whose baseline is below `maxBaseline`. -/
def captionCalls (s : Ui) (lineHeight : Nat) : List (List Char) → Int → List DrawCall
  | [], _ => []
  | line :: rest, drawY =>
    if baselineY s drawY > maxBaseline s then []
    else
      DrawCall.print (lineX s line) (baselineY s drawY) 1 line
        :: captionCalls s lineHeight rest (toInt16 (drawY + (lineHeight : Int)))

/-- The value of the local `int16_t drawY` of the loop over the caption lines
when line `i` is reached: it starts at `drawY` and `drawY += lineHeight` runs
after each printed line. -/
def drawYAt (lineHeight : Nat) : Nat → Int → Int
  | 0, drawY => drawY
  | i + 1, drawY => drawYAt lineHeight i (toInt16 (drawY + (lineHeight : Int)))

/-- The call of the loop over the caption lines for line `i`:
`setCursor(lineX, baselineY)` and `print(line)`. -/
def captionCallAt (s : Ui) (lineHeight : Nat) (lines : List (List Char)) (drawY : Int)
    (i : Nat) : DrawCall :=
  DrawCall.print (lineX s (lines.getD i [])) (baselineY s (drawYAt lineHeight i drawY)) 1
    (lines.getD i [])

end showRunningActivity

/-- The member function `showRunningActivity(bitmap, bitmapW, bitmapH, caption)`:
the calls it makes, `none` when it does not return.  It writes no data member.
The bitmap is drawn at `(bmpX, groupTop)` and the caption lines are printed
below it, from `drawY = bmpY + (int16_t)bitmapH`. -/
def showRunningActivity (s : Ui) (bitmap bitmapW bitmapH : Nat) (caption : List Char) :
    Option (List DrawCall) :=
  if s.gfx = false then some []
  else
    (showRunningActivity.lineHeight s).bind fun lh =>
      (captionLines s caption).bind fun lines =>
        some (DrawCall.drawBitmap (showRunningActivity.bmpX s bitmapW)
            (showRunningActivity.groupTop s caption bitmapH lines.length lh) bitmap
            (bitmapW : Int) (bitmapH : Int) 1
          :: (if showRunningActivity.hasCaption s caption = true then
                showRunningActivity.captionCalls s lh lines
                  (toInt16 (showRunningActivity.groupTop s caption bitmapH lines.length lh
                    + toInt16 (bitmapH : Int)))
              else []))

/-! ## The live log screen (`showActivityLiveLog`) -/

namespace showActivityLiveLog

/-- The prints of the second pass for the display lines `lines`, from `drawY`
on: each line is printed at
`(logWindowLeft + 2 * optionPadding, drawY + contentFontHeight - 1)` and `drawY`,
a `uint16_t`, advances by `lineHeight`. -/
def logCalls (s : Ui) (lineHeight : Nat) : List (List Char) → Nat → List DrawCall
  | [], _ => []
  | line :: rest, drawY =>
    DrawCall.print ((logWindowLeft : Int) + 2 * (optionPadding : Int))
        ((drawY : Int) + (s.contentFontHeight : Int) - 1) 1 line
      :: logCalls s lineHeight rest (toUInt16 ((drawY : Int) + (lineHeight : Int)))

/-- The baseline of the label "Log:":
`labelY + (labelHeight + contentFontHeight) / 2 - 1`, with `labelY = contentTop`
and `labelHeight = contentFontHeight`. -/
def labelBaseline (s : Ui) : Int :=
  (contentTop s : Int)
    + Int.tdiv ((toUInt16 (s.contentFontHeight : Int) : Int) + (s.contentFontHeight : Int)) 2
    - 1

end showActivityLiveLog

/-- The member function `showActivityLiveLog()`: the calls it makes, `none` when
it does not return.  It writes no data member. -/
def showActivityLiveLog (s : Ui) : Option (List DrawCall) :=
  if s.gfx = false ∨ s.contentFont.isSome = false then some []
  else
    (showActivityLiveLog.lineHeight s).bind fun lh =>
      (showActivityLiveLog.visibleLineCount s).bind fun k =>
        (showActivityLiveLog.drawnLines s (showActivityLiveLog.availWidth s) k).bind
          fun lines =>
            some (DrawCall.print (showActivityLiveLog.logWindowLeft : Int)
                (showActivityLiveLog.labelBaseline s) 1 "Log:".toList
              :: DrawCall.drawRect (showActivityLiveLog.logWindowLeft : Int)
                (showActivityLiveLog.logWindowTop s : Int)
                (showActivityLiveLog.logWindowWidth s : Int)
                (showActivityLiveLog.logWindowHeight s : Int) 1
              :: showActivityLiveLog.logCalls s lh lines
                  (toUInt16 ((showActivityLiveLog.logWindowTop s : Int)
                    + (optionPadding : Int))))

/-! ## Clearing, the periodic update and the screen wrappers -/

/-- Conversion of an `int` or `long` value to `unsigned long` (32 bits). -/
def toUInt32 (x : Int) : Nat := (x % 4294967296).toNat

/-- The member function `clearContentBox()`: the calls it makes. -/
def clearContentBox (s : Ui) : List DrawCall :=
  if s.gfx = false then []
  else
    [DrawCall.fillRect (contentBoxThickness : Int) (contentTop s : Int)
      ((s.displayWidth : Int) - 2 * (contentBoxThickness : Int)) (contentHeight s : Int) 0]

/-- The member function `clear()`: the state it leaves and the calls it
makes. -/
def clear (s : Ui) : Ui × List DrawCall :=
  if s.gfx = false then (s, [])
  else ({ s with animationActive := false }, [DrawCall.fillScreen 0])

namespace update

/-- The test `currentTime - lastFrameTime >= frameDelay` on `unsigned long`
values, `now` being the value of `millis()`. -/
def frameDue (s : Ui) (now : Nat) : Bool :=
  decide (toUInt32 ((now : Int) - (s.lastFrameTime : Int)) ≥ s.frameDelay)

/-- The member `currentFrame` after `currentFrame++` and the wrap to 0 at
`totalFrames`. -/
def nextFrame (s : Ui) : Nat :=
  if toUInt8 ((s.currentFrame : Int) + 1) ≥ s.totalFrames then 0
  else toUInt8 ((s.currentFrame : Int) + 1)

/-- The state after the frame counter and the time stamp are advanced. -/
def advanced (s : Ui) (now : Nat) : Ui :=
  { s with currentFrame := nextFrame s, lastFrameTime := now }

/-- The animation part of `update()`: nothing unless an animation is active
and its next frame is due; otherwise the frame is advanced, the content box
cleared and the new frame drawn.  There is no result when `animationFrames`
holds no frame at the index `currentFrame`. -/
def animationStep (s : Ui) (now : Nat) : Option (Ui × List DrawCall) :=
  if s.animationActive = true ∧ frameDue s now = true then
    ((advanced s now).animationFrames[(advanced s now).currentFrame]?).bind fun frame =>
      (showRunningActivity (advanced s now) frame (advanced s now).bitmapWidth
          (advanced s now).bitmapHeight (advanced s now).captionText).bind fun calls =>
        some (advanced s now, clearContentBox (advanced s now) ++ calls)
  else some (s, [])

end update

/-- The member function `update()`, `now` being the value that `millis()`
returns: the state it leaves and the calls it makes, `none` when it does not
return. -/
def update (s : Ui) (now : Nat) : Option (Ui × List DrawCall) :=
  if s.gfx = false then some (s, [])
  else
    (update.animationStep s now).bind fun r =>
      if r.1.logActive = true then
        (showActivityLiveLog r.1).bind fun calls =>
          some (r.1, r.2 ++ clearContentBox r.1 ++ calls)
      else some r

/-- The member function `optionSelectScreen(title, batteryPercentage, options,
numOptions, cursorPos)`.  It calls `gfx->fillScreen(0)` without a test of `gfx`:
there is no result when no display is bound. -/
def optionSelectScreen (s : Ui) (title batteryPercentage : List Char)
    (options : List (List Char)) (numOptions cursorPos : Nat) : Option (Ui × List DrawCall) :=
  if s.gfx = false then none
  else
    some ({ s with animationActive := false },
      DrawCall.fillScreen 0
        :: showTitleAndBorder { s with animationActive := false } title batteryPercentage
        ++ showOptionSelect { s with animationActive := false } options numOptions cursorPos)

/-- The member function `optionValueSetScreen(title, batteryPercentage,
optionNames, optionValues, numOptions, cursorPos, optionSelected)`; no result
when no display is bound. -/
def optionValueSetScreen (s : Ui) (title batteryPercentage : List Char)
    (optionNames optionValues : List (List Char)) (numOptions cursorPos : Nat)
    (optionSelected : Bool) : Option (Ui × List DrawCall) :=
  if s.gfx = false then none
  else
    some ({ s with animationActive := false },
      DrawCall.fillScreen 0
        :: showTitleAndBorder { s with animationActive := false } title batteryPercentage
        ++ showOptionValueSet { s with animationActive := false } optionNames optionValues
            numOptions cursorPos optionSelected)

/-- The member function `runningActivityScreen(title, batteryPercentage, bitmap,
bitmapW, bitmapH, caption)` (static bitmap); no result when no display is
bound. -/
def runningActivityScreen (s : Ui) (title batteryPercentage : List Char)
    (bitmap bitmapW bitmapH : Nat) (caption : List Char) : Option (Ui × List DrawCall) :=
  if s.gfx = false then none
  else
    (showRunningActivity { s with animationActive := false } bitmap bitmapW bitmapH
        caption).bind fun calls =>
      some ({ s with animationActive := false },
        DrawCall.fillScreen 0
          :: showTitleAndBorder { s with animationActive := false } title batteryPercentage
          ++ calls)

/-- The state that the animated `runningActivityScreen` sets up before it
draws, `now` being the value of `millis()`. -/
def animationSetup (s : Ui) (bitmaps : List Nat) (numFrames bitmapW bitmapH msPerFrame : Nat)
    (caption : List Char) (now : Nat) : Ui :=
  { s with animationActive := true, animationFrames := bitmaps, totalFrames := numFrames,
           currentFrame := 0, frameDelay := msPerFrame, lastFrameTime := now,
           bitmapWidth := bitmapW, bitmapHeight := bitmapH, captionText := caption }

/-- The member function `runningActivityScreen(title, batteryPercentage, bitmaps,
numFrames, bitmapW, bitmapH, msPerFrame, caption)` (animated bitmap); no result
when no display is bound or `bitmaps` holds no frame. -/
def runningActivityScreenAnimated (s : Ui) (title batteryPercentage : List Char)
    (bitmaps : List Nat) (numFrames bitmapW bitmapH msPerFrame : Nat) (caption : List Char)
    (now : Nat) : Option (Ui × List DrawCall) :=
  if s.gfx = false then none
  else
    (bitmaps[0]?).bind fun frame =>
      (showRunningActivity
          (animationSetup s bitmaps numFrames bitmapW bitmapH msPerFrame caption now)
          frame bitmapW bitmapH caption).bind fun calls =>
        some (animationSetup s bitmaps numFrames bitmapW bitmapH msPerFrame caption now,
          DrawCall.fillScreen 0
            :: showTitleAndBorder
                (animationSetup s bitmaps numFrames bitmapW bitmapH msPerFrame caption now)
                title batteryPercentage
            ++ calls)

/-- The member function `activityLiveLogScreen(title, batteryPercentage)`; no
result when no display is bound. -/
def activityLiveLogScreen (s : Ui) (title batteryPercentage : List Char) :
    Option (Ui × List DrawCall) :=
  if s.gfx = false then none
  else
    (showActivityLiveLog { s with logActive := true, animationActive := false }).bind
      fun calls =>
        some ({ s with logActive := true, animationActive := false },
          DrawCall.fillScreen 0
            :: showTitleAndBorder { s with logActive := true, animationActive := false }
                title batteryPercentage
            ++ calls)

/-- The member function `confirmScreen(title, batteryPercentage, bitmap, bitmapW,
bitmapH, question, options, numOptions, selectedIndex)`; the overload without a
bitmap is this one with `bitmap = none` and a size of 0 × 0.  No result when no
display is bound. -/
def confirmScreen (s : Ui) (title batteryPercentage : List Char) (bitmap : Option Nat)
    (bitmapW bitmapH : Nat) (question : List Char) (options : Option (List (List Char)))
    (numOptions selectedIndex : Nat) : Option (Ui × List DrawCall) :=
  if s.gfx = false then none
  else
    (showConfirm { s with animationActive := false, logActive := false } bitmap bitmapW
        bitmapH question options numOptions selectedIndex).bind fun calls =>
      some ({ s with animationActive := false, logActive := false },
        DrawCall.fillScreen 0
          :: showTitleAndBorder { s with animationActive := false, logActive := false }
              title batteryPercentage
          ++ calls)

/-- The texts that a list of calls prints, in order. -/
def DrawCall.texts : List DrawCall → List (List Char)
  | [] => []
  | DrawCall.print _ _ _ text :: rest => text :: DrawCall.texts rest
  | _ :: rest => DrawCall.texts rest

/-! ## Button geometry -/

/-- Two button rectangles have no pixel in common: one lies entirely to the
left of, or entirely above, the other.  The rectangle of a button covers the
columns `x ≤ px < x + w` and the rows `y ≤ py < y + h`. -/
def showConfirm.Button.disjoint (a b : showConfirm.Button) : Prop :=
  a.x + a.w ≤ b.x ∨ b.x + b.w ≤ a.x ∨ a.y + a.h ≤ b.y ∨ b.y + b.h ≤ a.y

instance (a b : showConfirm.Button) : Decidable (showConfirm.Button.disjoint a b) := by
  unfold showConfirm.Button.disjoint; exact inferInstance

/-- The widths of the first `n` buttons (each 4 px more than its label) added
up as integers, without any narrowing. -/
def showConfirm.sumOfWidths (s : Ui) (options : List (List Char)) : Nat → Int
  | 0 => 0
  | n + 1 => showConfirm.sumOfWidths s options n + (showConfirm.labelWidth s options n + 4)

/-! ## The list window as the specification words it -/

/-- Section 4.3: `visibleRowCount = totalItems` if `totalItems ≤ fullyVisibleCount`,
else `fullyVisibleCount + 1`. -/
def refVisibleRowCount (totalItems fullyVisibleCount : Nat) : Nat :=
  if totalItems ≤ fullyVisibleCount then totalItems else fullyVisibleCount + 1

/-- The value `x` clamped to `[lo, hi]`. -/
def clamp (x lo hi : Int) : Int :=
  if x < lo then lo else if x > hi then hi else x

/-- Section 4.3: `desiredTop = cursorIndex - fullyVisibleCount / 2`, clamped to
`[0, max(0, totalItems - fullyVisibleCount - 1)]`. -/
def refFirstVisibleIndex (totalItems cursorIndex fullyVisibleCount : Nat) : Int :=
  clamp ((cursorIndex : Int) - ((fullyVisibleCount / 2 : Nat) : Int)) 0
    (max 0 ((totalItems : Int) - (fullyVisibleCount : Int) - 1))

/-! ## The text width as the specification words it -/

/-- Section 4.1: the advance of one character, scaled by the size factor;
a character outside the font's range contributes 0. -/
def charAdvance (font : GFXfont) (size : Nat) (c : Char) : Nat :=
  if c.toNat < font.first ∨ c.toNat > font.last then 0
  else font.xAdvance (c.toNat - font.first) * size

/-- Section 4.1, `measureWidth`: the sum of the advances of the characters. -/
def refWidth (font : GFXfont) (size : Nat) (str : List Char) : Nat :=
  (str.map (charAdvance font size)).sum

/-! ## Test fixtures -/

/-- A font whose glyphs for the printable ASCII range all advance by `w`. -/
def fixedFont (w : Nat) : GFXfont :=
  { first := 32, last := 126, xAdvance := fun _ => w, yAdvance := 8 }

/-- A font like `fixedFont w` with the line advance `h`. -/
def fixedFontOfHeight (w h : Nat) : GFXfont :=
  { first := 32, last := 126, xAdvance := fun _ => w, yAdvance := h }

/-- An object with a bound display of `width × height` pixels, and title and
content font `font` at size 1. -/
def boundUi (font : GFXfont) (width height : Nat) : Ui :=
  { gfx := true, displayWidth := width, displayHeight := height,
    animationActive := false, animationFrames := [], currentFrame := 0, totalFrames := 0,
    frameDelay := 0, lastFrameTime := 0, bitmapWidth := 0, bitmapHeight := 0,
    captionText := [], logActive := false, logLines := [],
    titleFont := some font, contentFont := some font, titleSize := 1, contentSize := 1,
    titleFontHeight := font.yAdvance, contentFontHeight := font.yAdvance }

/-- The object `boundUi font width height` after `setTitleSize(size)` and
`setContentSize(size)`. -/
def sizedUi (font : GFXfont) (size width height : Nat) : Ui :=
  { boundUi font width height with titleSize := size, contentSize := size }

/-- The object `boundUi font width height` after the given lines have been
appended to its log, first to last, with `appendLogLine`. -/
def loggedUi (font : GFXfont) (width height : Nat) (lines : List (List Char)) : Ui :=
  lines.foldl appendLogLine (boundUi font width height)

/-- The object `boundUi font width height` with the log buffer `lines`. -/
def bufferedUi (font : GFXfont) (width height : Nat) (lines : List (List Char)) : Ui :=
  { boundUi font width height with logLines := lines }

/-! ## Predicates used in the statements -/

/-- The chunk of `k` characters that starts at `startIdx` is measured not wider
than `maxWidth` (the negation of the test `chunkWidth > maxWidth`). -/
def fitsWidth (s : Ui) (str : List Char) (startIdx maxWidth k : Nat) : Prop :=
  strWidth s (substring str startIdx (startIdx + k)) s.contentFont s.contentSize
    ≤ (maxWidth : Int)

instance (s : Ui) (str : List Char) (startIdx maxWidth k : Nat) :
    Decidable (fitsWidth s str startIdx maxWidth k) := by
  unfold fitsWidth; exact inferInstance

/-- What every emitted display line satisfies: it is not empty, and it is
measured not wider than `w` unless it is a single character. -/
def lineOk (s : Ui) (w : Nat) (c : List Char) : Prop :=
  1 ≤ c.length ∧ (strWidth s c s.contentFont s.contentSize ≤ (w : Int) ∨ c.length = 1)

instance (s : Ui) (w : Nat) (c : List Char) : Decidable (lineOk s w c) := by
  unfold lineOk; exact inferInstance

/-- The text without its line-break characters. -/
def withoutBreaks (isBreak : Char → Bool) (text : List Char) : List Char :=
  text.filter (fun c => !isBreak c)

/-! # Theorems -/

/-! ## Machine integers: values in range are kept -/

theorem toUInt16_natCast (n : Nat) (h : n < 65536) : toUInt16 (n : Int) = n := by
  unfold toUInt16; omega

theorem toUInt16_succ (n : Nat) (h : n + 1 < 65536) : toUInt16 ((n : Int) + 1) = n + 1 := by
  unfold toUInt16; omega

theorem toUInt16_sub (a b : Nat) (hb : b ≤ a) (ha : a < 65536) :
    toUInt16 ((a : Int) - (b : Int)) = a - b := by
  unfold toUInt16; omega

theorem toUInt16_add (a b : Nat) (h : a + b < 65536) :
    toUInt16 ((a : Int) + (b : Int)) = a + b := by
  unfold toUInt16; omega

theorem toUInt8_lt (x : Int) : toUInt8 x < 256 := by
  unfold toUInt8; omega

/-! ## `findWrapPoint` -/

theorem findWrapLoop_spec (s : Ui) (str : List Char) (startIdx maxWidth : Nat)
    (hlen : str.length < 65536) (hstart : startIdx < str.length) :
    ∀ (fuel endIdx : Nat) (lsi : Int),
      startIdx ≤ endIdx → endIdx ≤ str.length → str.length - endIdx < fuel →
      (startIdx < endIdx → fitsWidth s str startIdx maxWidth (endIdx - startIdx)) →
      ((startIdx : Int) < lsi →
        lsi < (endIdx : Int) ∧
          fitsWidth s str startIdx maxWidth (lsi - (startIdx : Int) + 1).toNat) →
      ∃ r, findWrapLoop s str startIdx maxWidth fuel endIdx lsi = some r ∧ 1 ≤ r ∧
        startIdx + r ≤ str.length ∧ (fitsWidth s str startIdx maxWidth r ∨ r = 1) := by
  intro fuel
  induction fuel with
  | zero => intro endIdx lsi _ _ hf; omega
  | succ fuel ih =>
    intro endIdx lsi hse hel hf hfit hsp
    unfold findWrapLoop
    by_cases hend : endIdx < str.length
    · rw [if_pos hend]
      by_cases hw : strWidth s (substring str startIdx (endIdx + 1)) s.contentFont s.contentSize
          > (maxWidth : Int)
      · rw [if_pos hw]
        by_cases hl : lsi > (startIdx : Int)
        · rw [if_pos hl]
          obtain ⟨h1, h2⟩ := hsp hl
          have hr : toUInt16 (lsi - (startIdx : Int) + 1) = (lsi - (startIdx : Int) + 1).toNat := by
            unfold toUInt16; omega
          refine ⟨_, rfl, ?_, ?_, ?_⟩
          · rw [hr]; omega
          · rw [hr]; omega
          · rw [hr]; exact Or.inl h2
        · rw [if_neg hl]
          by_cases hgt : endIdx > startIdx
          · rw [if_pos hgt, toUInt16_sub _ _ hse (by omega)]
            exact ⟨_, rfl, by omega, by omega, Or.inl (hfit hgt)⟩
          · rw [if_neg hgt]
            exact ⟨_, rfl, by omega, by omega, Or.inr rfl⟩
      · rw [if_neg hw, toUInt16_succ _ (by omega)]
        have hfits : fitsWidth s str startIdx maxWidth (endIdx + 1 - startIdx) := by
          unfold fitsWidth
          have : startIdx + (endIdx + 1 - startIdx) = endIdx + 1 := by omega
          rw [this]; exact not_lt.mp hw
        apply ih (endIdx + 1) _ (by omega) (by omega) (by omega) (fun _ => hfits)
        intro hlt
        by_cases hc : charAt str endIdx = ' '
        · rw [if_pos hc] at hlt ⊢
          unfold toInt16 at hlt ⊢
          have h32 : endIdx < 32768 := by omega
          have he : ((endIdx : Int) + 32768) % 65536 - 32768 = endIdx := by omega
          rw [he]
          refine ⟨by omega, ?_⟩
          have : ((endIdx : Int) - (startIdx : Int) + 1).toNat = endIdx + 1 - startIdx := by omega
          rw [this]; exact hfits
        · rw [if_neg hc] at hlt ⊢
          obtain ⟨h1, h2⟩ := hsp hlt
          exact ⟨by omega, h2⟩
    · rw [if_neg hend]
      have he : endIdx = str.length := by omega
      rw [toUInt16_sub _ _ hse (by omega)]
      exact ⟨_, rfl, by omega, by omega, Or.inl (hfit (by omega))⟩

/-- Inside a text of fewer than 65536 characters `findWrapPoint` returns, and
its result `r` is at least 1, stays inside the text, and the chunk of `r`
characters is measured not wider than `maxWidth` unless `r = 1`. -/
theorem findWrapPoint_spec (s : Ui) (str : List Char) (startIdx maxWidth : Nat)
    (hlen : str.length < 65536) (hstart : startIdx < str.length) :
    ∃ r, findWrapPoint s str startIdx maxWidth = some r ∧ 1 ≤ r ∧
      startIdx + r ≤ str.length ∧ (fitsWidth s str startIdx maxWidth r ∨ r = 1) := by
  unfold findWrapPoint
  rw [if_neg (by omega)]
  exact findWrapLoop_spec s str startIdx maxWidth hlen hstart _ _ _ (le_refl _) (by omega)
    (by omega) (fun h => absurd h (lt_irrefl _)) (fun h => by omega)

/-- One turn of the loop of `findWrapPoint` whose chunk is not too wide: the
loop goes on with the next `endIdx`, remembering a space. -/
theorem findWrapLoop_fit (s : Ui) (str : List Char) (startIdx maxWidth fuel endIdx : Nat)
    (lsi : Int) (hend : endIdx < str.length) (h16 : endIdx + 1 < 65536)
    (hfit : strWidth s (substring str startIdx (endIdx + 1)) s.contentFont s.contentSize
      ≤ (maxWidth : Int)) :
    findWrapLoop s str startIdx maxWidth (fuel + 1) endIdx lsi
      = findWrapLoop s str startIdx maxWidth fuel (endIdx + 1)
          (if charAt str endIdx = ' ' then toInt16 (endIdx : Int) else lsi) := by
  rw [findWrapLoop, if_pos hend, if_neg (not_lt.mpr hfit), toUInt16_succ _ h16]

/-- The turn of the loop of `findWrapPoint` whose chunk is too wide: the loop
returns. -/
theorem findWrapLoop_wide (s : Ui) (str : List Char) (startIdx maxWidth fuel endIdx : Nat)
    (lsi : Int) (hend : endIdx < str.length)
    (hwide : (maxWidth : Int)
      < strWidth s (substring str startIdx (endIdx + 1)) s.contentFont s.contentSize) :
    findWrapLoop s str startIdx maxWidth (fuel + 1) endIdx lsi
      = some (if lsi > (startIdx : Int) then toUInt16 (lsi - (startIdx : Int) + 1)
          else if endIdx > startIdx then toUInt16 ((endIdx : Int) - (startIdx : Int))
          else 1) := by
  rw [findWrapLoop, if_pos hend, if_pos hwide]
  split <;> rfl

theorem findWrapLoop_no_space (s : Ui) (str : List Char) (startIdx maxWidth k : Nat)
    (hk : 1 ≤ k) (hend : startIdx + k < str.length) (h16 : startIdx + k < 65536)
    (hnosp : ∀ i, startIdx ≤ i → i < startIdx + k → charAt str i ≠ ' ')
    (hfit : ∀ j, 1 ≤ j → j ≤ k → fitsWidth s str startIdx maxWidth j)
    (hnot : ¬ fitsWidth s str startIdx maxWidth (k + 1)) :
    ∀ (d fuel endIdx : Nat) (lsi : Int), endIdx + d = startIdx + k → startIdx ≤ endIdx →
      lsi ≤ (startIdx : Int) → d < fuel →
      findWrapLoop s str startIdx maxWidth fuel endIdx lsi = some k := by
  intro d
  induction d with
  | zero =>
    intro fuel endIdx lsi he hse hl hf
    obtain ⟨fuel, rfl⟩ : ∃ m, fuel = m + 1 := ⟨fuel - 1, by omega⟩
    have he2 : endIdx = startIdx + k := by omega
    subst he2
    unfold fitsWidth at hnot
    rw [findWrapLoop_wide s str startIdx maxWidth fuel _ lsi hend (not_le.mp hnot),
      if_neg (by omega), if_pos (by omega), toUInt16_sub _ _ (by omega) h16]
    congr 1; omega
  | succ d ih =>
    intro fuel endIdx lsi he hse hl hf
    obtain ⟨fuel, rfl⟩ : ∃ m, fuel = m + 1 := ⟨fuel - 1, by omega⟩
    have hf1 := hfit (endIdx + 1 - startIdx) (by omega) (by omega)
    unfold fitsWidth at hf1
    have hidx : startIdx + (endIdx + 1 - startIdx) = endIdx + 1 := by omega
    rw [hidx] at hf1
    rw [findWrapLoop_fit s str startIdx maxWidth fuel endIdx lsi (by omega) (by omega) hf1,
      if_neg (hnosp endIdx hse (by omega))]
    exact ih fuel (endIdx + 1) lsi (by omega) (by omega) hl (by omega)

/-! ## `substring` -/

theorem substring_of_le (str : List Char) (a b : Nat) (h : a ≤ b) :
    substring str a b = (str.take b).drop a := by
  unfold substring
  rw [max_eq_right h, min_eq_left h]

theorem length_substring (str : List Char) (a b : Nat) (h : a ≤ b) (hb : b ≤ str.length) :
    (substring str a b).length = b - a := by
  rw [substring_of_le str a b h]
  simp [List.length_drop, List.length_take, min_eq_left hb]

theorem substring_append_drop (str : List Char) (a b : Nat) (h : a ≤ b) :
    substring str a b ++ str.drop b = str.drop a := by
  rw [substring_of_le str a b h]
  conv_rhs => rw [← List.take_append_drop b str]
  rw [List.drop_append_eq_append_drop, List.length_take]
  have : a - min b str.length = 0 ∨ str.length ≤ b := by omega
  rcases this with h0 | h0
  · rw [h0, List.drop_zero]
  · rw [List.drop_eq_nil_of_le h0]; simp

/-! ## The chunk loop -/

theorem wrapChunks_spec (s : Ui) (segment : List Char) (w : Nat)
    (hlen : segment.length < 65536) :
    ∀ (fuel chunkStart : Nat), chunkStart ≤ segment.length →
      segment.length - chunkStart < fuel →
      ∃ chunks, wrapChunks s segment w fuel chunkStart = some chunks ∧
        chunks.flatten = segment.drop chunkStart ∧ ∀ c ∈ chunks, lineOk s w c := by
  intro fuel
  induction fuel with
  | zero => intro chunkStart _ hf; omega
  | succ fuel ih =>
    intro chunkStart hcs hf
    unfold wrapChunks
    by_cases hend : chunkStart < segment.length
    · rw [if_pos hend]
      obtain ⟨r, hr, h1, h2, h3⟩ := findWrapPoint_spec s segment chunkStart w hlen hend
      rw [hr]
      have hr0 : (if r = 0 then 1 else r) = r := by rw [if_neg (by omega)]
      simp only [hr0]
      rw [toUInt16_add _ _ (by omega)]
      obtain ⟨rest, hrest, hflat, hall⟩ := ih (chunkStart + r) h2 (by omega)
      rw [hrest]
      refine ⟨_, rfl, ?_, ?_⟩
      · rw [List.flatten_cons, hflat]
        exact substring_append_drop segment chunkStart (chunkStart + r) (by omega)
      · intro c hc
        rcases List.mem_cons.mp hc with hc | hc
        · subst hc
          have hl := length_substring segment chunkStart (chunkStart + r) (by omega) h2
          refine ⟨by omega, ?_⟩
          rcases h3 with h3 | h3
          · exact Or.inl h3
          · exact Or.inr (by omega)
        · exact hall c hc
    · rw [if_neg hend]
      refine ⟨[], rfl, ?_, by simp⟩
      rw [List.drop_eq_nil_of_le (by omega)]; rfl

theorem segmentLines_spec (s : Ui) (segment : List Char) (w : Nat)
    (hlen : segment.length < 65536) :
    ∃ ls, segmentLines s segment w = some ls ∧ ls.flatten = segment ∧
      ∀ c ∈ ls, lineOk s w c := by
  unfold segmentLines
  by_cases h0 : segment.length > 0
  · rw [if_pos h0]
    by_cases hw : strWidth s segment s.contentFont s.contentSize ≤ (w : Int)
    · rw [if_pos hw]
      refine ⟨_, rfl, by simp, ?_⟩
      intro c hc
      rw [List.mem_singleton] at hc
      subst hc
      exact ⟨h0, Or.inl hw⟩
    · rw [if_neg hw]
      obtain ⟨chunks, h1, h2, h3⟩ :=
        wrapChunks_spec s segment w hlen (segment.length + 1) 0 (Nat.zero_le _) (by omega)
      exact ⟨chunks, h1, by rw [h2, List.drop_zero], h3⟩
  · rw [if_neg h0]
    refine ⟨[], rfl, ?_, by simp⟩
    have : segment = [] := List.length_eq_zero.mp (by omega)
    rw [this]; rfl

/-! ## The caption wrapper -/

theorem charAt_eq_of_getElem? (str : List Char) (i : Nat) (a : Char)
    (h : str[i]? = some a) : charAt str i = a := by
  unfold charAt
  rw [List.getD_eq_getElem?_getD, h]; rfl

theorem withoutBreaks_substring (isBreak : Char → Bool) (text : List Char)
    (segStart pos : Nat)
    (hnb : ∀ i, segStart ≤ i → i < pos → isBreak (charAt text i) = false) :
    withoutBreaks isBreak ((text.take pos).drop segStart) = (text.take pos).drop segStart := by
  unfold withoutBreaks
  rw [List.filter_eq_self]
  intro a ha
  obtain ⟨j, hj⟩ := List.mem_iff_getElem?.mp ha
  rw [List.getElem?_drop, List.getElem?_take] at hj
  by_cases hlt : segStart + j < pos
  · rw [if_pos hlt] at hj
    have := hnb (segStart + j) (by omega) hlt
    rw [charAt_eq_of_getElem? _ _ _ hj] at this
    simp [this]
  · rw [if_neg hlt] at hj; cases hj

theorem segmentLoop_spec (s : Ui) (isBreak : Char → Bool) (text : List Char) (w n : Nat)
    (hn : n ≤ text.length) (hn16 : n < 65536) :
    ∀ (turns pos segStart : Nat), pos + turns = n + 1 → segStart ≤ pos →
      (pos ≤ n ∨ segStart = pos) →
      (∀ i, segStart ≤ i → i < pos → isBreak (charAt text i) = false) →
      ∃ lines, segmentLoop s isBreak text w n turns pos segStart = some lines ∧
        lines.flatten = withoutBreaks isBreak ((text.take n).drop segStart) ∧
        ∀ c ∈ lines, lineOk s w c := by
  intro turns
  induction turns with
  | zero =>
    intro pos segStart hp hsp hor _
    refine ⟨[], rfl, ?_, by simp⟩
    have : segStart = n + 1 := by omega
    rw [List.drop_eq_nil_of_le (by rw [List.length_take]; omega)]; rfl
  | succ turns ih =>
    intro pos segStart hp hsp _ hnb
    have hpn : pos ≤ n := by omega
    unfold segmentLoop
    simp only []
    by_cases hbr : (decide (pos < n) && isBreak (charAt text pos) || decide (pos = n))
        = true
    · rw [if_pos hbr]
      have hseg : substring text segStart pos = (text.take pos).drop segStart :=
        substring_of_le text segStart pos hsp
      have hseglen : (substring text segStart pos).length < 65536 := by
        rw [length_substring text segStart pos hsp (by omega)]; omega
      obtain ⟨ls, hls, hflat, hall⟩ := segmentLines_spec s _ w hseglen
      obtain ⟨rest, hrest, hrflat, hrall⟩ :=
        ih (pos + 1) (pos + 1) (by omega) (le_refl _) (Or.inr rfl) (fun i h1 h2 => by omega)
      rw [hls, hrest]
      refine ⟨_, rfl, ?_, ?_⟩
      · rw [List.flatten_append, hflat, hrflat, hseg]
        have hsplit : (text.take n).drop segStart
            = (text.take pos).drop segStart ++ (text.take n).drop pos := by
          have h := substring_append_drop (text.take n) segStart pos hsp
          rw [substring_of_le _ _ _ hsp, List.take_take, min_eq_left hpn] at h
          exact h.symm
        rw [hsplit]
        have h1 := withoutBreaks_substring isBreak text segStart pos hnb
        unfold withoutBreaks at *
        rw [List.filter_append, h1]
        congr 1
        by_cases hlt : pos < n
        · have hbk : isBreak (charAt text pos) = true := by
            have hne : ¬ pos = n := by omega
            simpa [hlt, hne] using hbr
          have hlen : pos < (text.take n).length := by rw [List.length_take]; omega
          rw [List.drop_eq_getElem_cons hlen]
          have hget : (text.take n)[pos] = charAt text pos := by
            symm
            apply charAt_eq_of_getElem?
            rw [List.getElem_take]
            exact List.getElem?_eq_getElem (by omega)
          rw [hget, List.filter_cons_of_neg (by simp [hbk])]
        · have : pos = n := by omega
          subst this
          rw [List.drop_eq_nil_of_le (by rw [List.length_take]; omega),
            List.drop_eq_nil_of_le (by rw [List.length_take]; omega)]
      · intro c hc
        rcases List.mem_append.mp hc with hc | hc
        · exact hall c hc
        · exact hrall c hc
    · rw [if_neg hbr]
      have hne : ¬ pos = n := by
        intro h; apply hbr; simp [h]
      have hlt : pos < n := by omega
      have hnbk : isBreak (charAt text pos) = false := by
        by_contra hb
        apply hbr
        simp only [Bool.not_eq_false] at hb
        simp [hlt, hb]
      apply ih (pos + 1) segStart (by omega) (by omega) (Or.inl (by omega))
      intro i h1 h2
      by_cases hi : i = pos
      · subst hi; exact hnbk
      · exact hnb i h1 (by omega)

theorem toInt16_natCast (n : Nat) (h : n < 32768) : toInt16 (n : Int) = n := by
  unfold toInt16; omega

/-- The segment loop on a text whose `(int16_t)` length is `n`, neither negative
nor `32767`: it returns, the lines put end to end are the first `n` characters
without the line breaks, and every line satisfies `lineOk`. -/
theorem wrapSegments_spec (s : Ui) (isBreak : Char → Bool) (text : List Char) (w n : Nat)
    (hn : toInt16 (text.length : Int) = (n : Int)) (hn1 : n ≠ 32767) :
    ∃ lines, wrapSegments s isBreak text w = some lines ∧
      lines.flatten = withoutBreaks isBreak (text.take n) ∧ ∀ c ∈ lines, lineOk s w c := by
  have hn16 : n < 32768 := by unfold toInt16 at hn; omega
  have hnlen : n ≤ text.length := by unfold toInt16 at hn; omega
  unfold wrapSegments
  simp only [hn]
  rw [if_neg (by omega), if_neg (by omega), Int.toNat_ofNat]
  obtain ⟨lines, h1, h2, h3⟩ := segmentLoop_spec s isBreak text w n hnlen (by omega) (n + 1) 0 0
    (by omega) (le_refl _) (Or.inl (Nat.zero_le _)) (fun i _ h => by omega)
  exact ⟨lines, h1, by rw [h2, List.drop_zero], h3⟩

/-- The segment loop on a text of at most 32766 characters. -/
theorem wrapSegments_short (s : Ui) (isBreak : Char → Bool) (text : List Char) (w : Nat)
    (hlen : text.length ≤ 32766) :
    ∃ lines, wrapSegments s isBreak text w = some lines ∧
      lines.flatten = withoutBreaks isBreak text ∧ ∀ c ∈ lines, lineOk s w c := by
  obtain ⟨lines, h1, h2, h3⟩ := wrapSegments_spec s isBreak text w text.length
    (toInt16_natCast _ (by omega)) (by omega)
  exact ⟨lines, h1, by rw [h2, List.take_of_length_le (le_refl _)], h3⟩

/-- Every line that the segment loop returns satisfies `lineOk`, whatever the
length of the text. -/
theorem wrapSegments_lineOk (s : Ui) (isBreak : Char → Bool) (text : List Char) (w : Nat)
    (lines : List (List Char)) (hl : wrapSegments s isBreak text w = some lines) :
    ∀ c ∈ lines, lineOk s w c := by
  by_cases hneg : toInt16 (text.length : Int) < 0
  · have hnil : wrapSegments s isBreak text w = some [] := by
      unfold wrapSegments; rw [if_pos hneg]
    rw [hnil] at hl; cases hl
    intro c hc; cases hc
  · by_cases h7 : toInt16 (text.length : Int) = 32767
    · have hnone : wrapSegments s isBreak text w = none := by
        unfold wrapSegments; rw [if_neg hneg, if_pos h7]
      rw [hnone] at hl; cases hl
    · have hn : toInt16 (text.length : Int)
          = ((toInt16 (text.length : Int)).toNat : Int) := by omega
      obtain ⟨lines2, h1, _, h3⟩ := wrapSegments_spec s isBreak text w _ hn (by omega)
      rw [h1] at hl; cases hl
      exact h3

theorem length_withoutBreaks (isBreak : Char → Bool) (text : List Char) :
    (withoutBreaks isBreak text).length + text.countP isBreak = text.length := by
  unfold withoutBreaks
  induction text with
  | nil => rfl
  | cons a t ih =>
    by_cases h : isBreak a = true
    · rw [List.filter_cons_of_neg (by simp [h]), List.countP_cons_of_pos _ _ h,
        List.length_cons]
      omega
    · rw [List.filter_cons_of_pos (by simpa using h), List.countP_cons_of_neg _ _ h,
        List.length_cons, List.length_cons]
      omega

theorem captionLinesFor_eq (s : Ui) (caption : List Char) (w : Nat)
    (hgfx : s.gfx = true) (hfont : s.contentFont.isSome = true) (h0 : caption.length > 0) :
    captionLinesFor s caption w = wrapSegments s isCaptionBreak caption w := by
  unfold captionLinesFor
  rw [if_neg (by simp [hgfx]), if_pos ⟨h0, hfont⟩]

theorem captionLinesFor_nil (s : Ui) (caption : List Char) (w : Nat)
    (h : s.gfx = false ∨ caption.length = 0 ∨ s.contentFont.isSome = false) :
    captionLinesFor s caption w = some [] := by
  unfold captionLinesFor
  by_cases hgfx : s.gfx = false
  · rw [if_pos hgfx]
  · rw [if_neg hgfx, if_neg]
    rintro ⟨h1, h2⟩
    rcases h with h | h | h
    · exact hgfx h
    · omega
    · rw [h2] at h; cases h

/-! ## The live log: the counting pass agrees with the drawing pass -/

theorem length_substring_le (str : List Char) (a b : Nat) :
    (substring str a b).length ≤ max a b := by
  unfold substring
  rw [List.length_drop, List.length_take]
  omega

theorem countChunks_eq (s : Ui) (segment : List Char) (w : Nat)
    (hlen : segment.length < 65536) :
    ∀ (fuel chunkStart displayLines : Nat) (chunks : List (List Char)),
      chunkStart ≤ segment.length → displayLines < 256 →
      wrapChunks s segment w fuel chunkStart = some chunks →
      showActivityLiveLog.countChunks s segment w fuel chunkStart displayLines
        = some ((displayLines + chunks.length) % 256) := by
  intro fuel
  induction fuel with
  | zero =>
    intro chunkStart displayLines chunks _ _ h
    unfold wrapChunks at h
    cases h
  | succ fuel ih =>
    intro chunkStart displayLines chunks hcs hd h
    unfold wrapChunks at h
    unfold showActivityLiveLog.countChunks
    by_cases hend : chunkStart < segment.length
    · rw [if_pos hend] at h
      rw [if_pos hend]
      obtain ⟨r, hr, h1, h2, _⟩ := findWrapPoint_spec s segment chunkStart w hlen hend
      rw [hr] at h
      rw [hr]
      have hr0 : (if r = 0 then 1 else r) = r := by rw [if_neg (by omega)]
      simp only [hr0] at h
      cases hrest : wrapChunks s segment w fuel (toUInt16 ((chunkStart : Int) + (r : Int))) with
      | none => rw [hrest] at h; cases h
      | some rest =>
        rw [hrest] at h
        cases h
        have hstep := ih (toUInt16 ((chunkStart : Int) + (r : Int)))
          (toUInt8 ((displayLines : Int) + 1)) rest
          (by rw [toUInt16_add _ _ (by omega)]; exact h2) (toUInt8_lt _) hrest
        simp only []
        rw [hstep, List.length_cons]
        congr 1
        unfold toUInt8
        omega
    · rw [if_neg hend] at h
      rw [if_neg hend]
      cases h
      congr 1
      simp only [List.length_nil]
      omega

theorem countSegment_eq (s : Ui) (segment : List Char) (w displayLines : Nat)
    (hlen : segment.length < 65536) (hd : displayLines < 256) (ls : List (List Char))
    (h : segmentLines s segment w = some ls) :
    showActivityLiveLog.countSegment s segment w displayLines
      = some ((displayLines + ls.length) % 256) := by
  unfold segmentLines at h
  unfold showActivityLiveLog.countSegment
  by_cases h0 : segment.length > 0
  · rw [if_pos h0] at h ⊢
    by_cases hw : strWidth s segment s.contentFont s.contentSize ≤ (w : Int)
    · rw [if_pos hw] at h ⊢
      cases h
      simp only [toUInt8, List.length_singleton, Option.some.injEq]
      omega
    · rw [if_neg hw] at h ⊢
      exact countChunks_eq s segment w hlen _ 0 displayLines ls (Nat.zero_le _) hd h
  · rw [if_neg h0] at h ⊢
    cases h
    congr 1
    simp only [List.length_nil]
    omega

theorem countLoop_eq (s : Ui) (line : List Char) (w n : Nat) (hn16 : n < 65536) :
    ∀ (turns pos segStart displayLines : Nat) (lines : List (List Char)),
      pos + turns = n + 1 → segStart ≤ pos → displayLines < 256 →
      segmentLoop s showActivityLiveLog.isLogBreak line w n turns pos segStart = some lines →
      showActivityLiveLog.countLoop s line w n turns pos segStart displayLines
        = some ((displayLines + lines.length) % 256) := by
  intro turns
  induction turns with
  | zero =>
    intro pos segStart displayLines lines _ _ hd h
    unfold segmentLoop at h
    cases h
    unfold showActivityLiveLog.countLoop
    congr 1
    simp only [List.length_nil]
    omega
  | succ turns ih =>
    intro pos segStart displayLines lines hp hsp hd h
    unfold segmentLoop at h
    unfold showActivityLiveLog.countLoop
    simp only [] at h ⊢
    by_cases hbr : (decide (pos < n) && showActivityLiveLog.isLogBreak (charAt line pos)
        || decide (pos = n)) = true
    · rw [if_pos hbr] at h ⊢
      have hseglen : (substring line segStart pos).length < 65536 := by
        have := length_substring_le line segStart pos
        omega
      cases hls : segmentLines s (substring line segStart pos) w with
      | none => rw [hls] at h; cases h
      | some ls =>
        rw [hls] at h
        cases hrest : segmentLoop s showActivityLiveLog.isLogBreak line w n turns (pos + 1)
            (pos + 1) with
        | none => rw [hrest] at h; cases h
        | some rest =>
          rw [hrest] at h
          cases h
          rw [countSegment_eq s _ w displayLines hseglen hd ls hls]
          simp only []
          rw [ih (pos + 1) (pos + 1) _ rest (by omega) (le_refl _)
            (Nat.mod_lt _ (by decide)) hrest, List.length_append]
          congr 1
          omega
    · rw [if_neg hbr] at h ⊢
      exact ih (pos + 1) segStart displayLines lines (by omega) (by omega) hd h

/-- The value that the counting pass stores for a log line is the number of
lines that the drawing pass prints for it, reduced to `uint8_t`. -/
theorem displayLineCount_eq (s : Ui) (line : List Char) (w : Nat) (lines : List (List Char))
    (h : wrapSegments s showActivityLiveLog.isLogBreak line w = some lines) :
    showActivityLiveLog.displayLineCount s line w = some (lines.length % 256) := by
  unfold wrapSegments at h
  unfold showActivityLiveLog.displayLineCount
  by_cases hneg : toInt16 (line.length : Int) < 0
  · rw [if_pos hneg] at h ⊢
    cases h; rfl
  · rw [if_neg hneg] at h ⊢
    by_cases h7 : toInt16 (line.length : Int) = 32767
    · rw [if_pos h7] at h; cases h
    · rw [if_neg h7] at h ⊢
      have hb : (toInt16 (line.length : Int)).toNat < 65536 := by unfold toInt16; omega
      have h256 : (0 : Nat) < 256 := by omega
      rw [countLoop_eq s line w _ hb _ 0 0 0 lines (by omega) (le_refl _) h256 h, Nat.zero_add]

theorem entryLines_eq (s : Ui) (w : Nat) (e : List Char) (hlen : e.length ≤ 32766) :
    wrapSegments s showActivityLiveLog.isLogBreak e w
      = some (showActivityLiveLog.entryLines s w e) := by
  obtain ⟨lines, h1, _⟩ := wrapSegments_short s showActivityLiveLog.isLogBreak e w hlen
  unfold showActivityLiveLog.entryLines
  rw [h1]; rfl

theorem drawEntries_eq (s : Ui) (w : Nat) (es : List (List Char))
    (hlen : ∀ e ∈ es, e.length ≤ 32766) :
    showActivityLiveLog.drawEntries s w es
      = some (es.map (showActivityLiveLog.entryLines s w)).flatten := by
  induction es with
  | nil => rfl
  | cons e rest ih =>
    rw [showActivityLiveLog.drawEntries,
      entryLines_eq s w e (hlen e (List.mem_cons_self _ _)),
      ih (fun x hx => hlen x (List.mem_cons_of_mem _ hx))]
    rfl

theorem lineDisplayCounts_eq (s : Ui) (w : Nat) (es : List (List Char))
    (hlen : ∀ e ∈ es, e.length ≤ 32766)
    (hcnt : ∀ e ∈ es, (showActivityLiveLog.entryLines s w e).length < 256) :
    showActivityLiveLog.lineDisplayCounts s w es
      = some (es.map (fun e => (showActivityLiveLog.entryLines s w e).length)) := by
  induction es with
  | nil => rfl
  | cons e rest ih =>
    rw [showActivityLiveLog.lineDisplayCounts,
      displayLineCount_eq s e w _ (entryLines_eq s w e (hlen e (List.mem_cons_self _ _))),
      ih (fun x hx => hlen x (List.mem_cons_of_mem _ hx))
        (fun x hx => hcnt x (List.mem_cons_of_mem _ hx)),
      Nat.mod_eq_of_lt (hcnt e (List.mem_cons_self _ _))]
    rfl

/-! ## The live log: the walk that finds the start index -/

theorem sum_drop_eq (counts : List Nat) (i : Nat) (hi : i < counts.length) :
    (counts.drop i).sum = counts.getD i 0 + (counts.drop (i + 1)).sum := by
  rw [List.drop_eq_getElem_cons hi, List.sum_cons, List.getD_eq_getElem _ _ hi]

/-- The walk stops at the least start index whose entries take at most
`visibleLineCount` display lines in all. -/
theorem tailWalk_spec (counts : List Nat) (K : Nat) (hK : K < 65536) :
    ∀ (i acc : Nat), i ≤ counts.length → acc = (counts.drop i).sum → acc ≤ K →
      showActivityLiveLog.tailWalk counts K i acc ≤ i ∧
      (counts.drop (showActivityLiveLog.tailWalk counts K i acc)).sum ≤ K ∧
      (0 < showActivityLiveLog.tailWalk counts K i acc →
        K < (counts.drop (showActivityLiveLog.tailWalk counts K i acc - 1)).sum) := by
  intro i
  induction i with
  | zero =>
    intro acc _ hacc hle
    unfold showActivityLiveLog.tailWalk
    refine ⟨le_refl _, by rw [← hacc]; exact hle, fun h => absurd h (lt_irrefl _)⟩
  | succ i ih =>
    intro acc hi hacc hle
    unfold showActivityLiveLog.tailWalk
    have hsum := sum_drop_eq counts i (by omega)
    by_cases hgt : acc + counts.getD i 0 > K
    · rw [if_pos hgt]
      refine ⟨le_refl _, by rw [← hacc]; exact hle, fun _ => ?_⟩
      rw [Nat.add_sub_cancel, hsum, ← hacc]
      omega
    · rw [if_neg hgt, toUInt16_add _ _ (by omega)]
      obtain ⟨h1, h2, h3⟩ := ih (acc + counts.getD i 0) (by omega) (by rw [hsum, hacc]; omega)
        (by omega)
      exact ⟨by omega, h2, h3⟩

theorem walkStart_eq (n : Nat) (h1 : 1 ≤ n) (hN : n ≤ 32768) :
    showActivityLiveLog.walkStart n = (n : Int) - 1 := by
  unfold showActivityLiveLog.walkStart toInt16
  omega

/-- For a buffer of at most 32768 lines the second pass starts at the index
that the walk has found. -/
theorem firstDrawn_eq (counts : List Nat) (K : Nat) (hK : K < 65536)
    (hN : counts.length ≤ 32768) :
    showActivityLiveLog.firstDrawn counts K counts.length
      = showActivityLiveLog.tailWalk counts K counts.length 0 := by
  unfold showActivityLiveLog.firstDrawn showActivityLiveLog.startIndex
  by_cases h0 : counts.length = 0
  · rw [h0]
    rfl
  · rw [walkStart_eq _ (by omega) hN, if_neg (by omega)]
    have hi : ((counts.length : Int) - 1).toNat + 1 = counts.length := by omega
    rw [hi]
    have hle := (tailWalk_spec counts K hK counts.length 0 (le_refl _)
      (by rw [List.drop_length]; rfl) (Nat.zero_le _)).1
    unfold toUInt16 toInt16
    omega

/-- For a buffer of fewer than 32768 lines the `int16_t startIndex` holds the
index at which the second pass starts. -/
theorem startIndex_eq (counts : List Nat) (K : Nat) (hK : K < 65536)
    (hN : counts.length < 32768) :
    showActivityLiveLog.startIndex counts K counts.length
      = (showActivityLiveLog.firstDrawn counts K counts.length : Int) := by
  rw [firstDrawn_eq counts K hK (by omega)]
  unfold showActivityLiveLog.startIndex
  by_cases h0 : counts.length = 0
  · rw [h0]
    rfl
  · rw [walkStart_eq _ (by omega) (by omega), if_neg (by omega)]
    have hi : ((counts.length : Int) - 1).toNat + 1 = counts.length := by omega
    rw [hi]
    have hle := (tailWalk_spec counts K hK counts.length 0 (le_refl _)
      (by rw [List.drop_length]; rfl) (Nat.zero_le _)).1
    unfold toInt16
    omega

/-- The `int16_t startIndex` is the index at which the second pass starts,
reduced to `int16_t`. -/
theorem startIndex_toInt16 (counts : List Nat) (K n : Nat) :
    showActivityLiveLog.startIndex counts K n
      = toInt16 (showActivityLiveLog.firstDrawn counts K n : Int) := by
  unfold showActivityLiveLog.firstDrawn showActivityLiveLog.startIndex
  split_ifs
  · rfl
  · generalize (showActivityLiveLog.tailWalk counts K
      ((showActivityLiveLog.walkStart n).toNat + 1) 0 : Int) = x
    unfold toUInt16 toInt16
    omega

theorem firstDrawn_spec (counts : List Nat) (K : Nat) (hK : K < 65536)
    (hN : counts.length ≤ 32768) :
    showActivityLiveLog.firstDrawn counts K counts.length ≤ counts.length ∧
    (counts.drop (showActivityLiveLog.firstDrawn counts K counts.length)).sum ≤ K ∧
    (0 < showActivityLiveLog.firstDrawn counts K counts.length →
      K < (counts.drop (showActivityLiveLog.firstDrawn counts K counts.length - 1)).sum) := by
  rw [firstDrawn_eq counts K hK hN]
  exact tailWalk_spec counts K hK counts.length 0 (le_refl _)
    (by rw [List.drop_length]; rfl) (Nat.zero_le _)

theorem sum_drop_counts (s : Ui) (w : Nat) (es : List (List Char)) (r : Nat) :
    ((es.map (fun e => (showActivityLiveLog.entryLines s w e).length)).drop r).sum
      = ((es.drop r).map (showActivityLiveLog.entryLines s w)).flatten.length := by
  rw [List.length_flatten, List.map_map, ← List.map_drop, Function.comp_def]

theorem flatten_drop_suffix (s : Ui) (w : Nat) (es : List (List Char)) (r : Nat) :
    ((es.drop r).map (showActivityLiveLog.entryLines s w)).flatten
      <:+ (es.map (showActivityLiveLog.entryLines s w)).flatten := by
  refine ⟨((es.take r).map (showActivityLiveLog.entryLines s w)).flatten, ?_⟩
  rw [← List.flatten_append, ← List.map_append, List.take_append_drop]

theorem flatten_drop_of_singletons (f : List Char → List (List Char)) :
    ∀ (es : List (List Char)) (k : Nat), (∀ e ∈ es, (f e).length = 1) →
      ((es.drop k).map f).flatten = ((es.map f).flatten).drop k := by
  intro es
  induction es with
  | nil => intro k _; simp
  | cons e rest ih =>
    intro k h
    cases k with
    | zero => rfl
    | succ k =>
      obtain ⟨x, hx⟩ := List.length_eq_one.mp (h e (List.mem_cons_self _ _))
      rw [List.drop_succ_cons, ih k (fun y hy => h y (List.mem_cons_of_mem _ hy)),
        List.map_cons, List.flatten_cons, hx]
      rfl

theorem length_flatten_of_singletons (f : List Char → List (List Char)) :
    ∀ (es : List (List Char)), (∀ e ∈ es, (f e).length = 1) →
      ((es.map f).flatten).length = es.length := by
  intro es
  induction es with
  | nil => intro _; rfl
  | cons e rest ih =>
    intro h
    rw [List.map_cons, List.flatten_cons, List.length_append,
      ih (fun y hy => h y (List.mem_cons_of_mem _ hy)), h e (List.mem_cons_self _ _),
      List.length_cons]
    omega

/-! ## Claims on the caption wrapper -/

/-- C1, as amended: with a display and a content font bound, for every caption
of at most 32766 characters and every width, the caption wrapper returns a list
of display lines, and their character counts plus the number of line-break
characters of the caption add up to the length of the caption; put end to end,
the lines are the caption without its line-break characters. -/
theorem captionLines_conserves_characters (s : Ui) (caption : List Char) (w : Nat)
    (hgfx : s.gfx = true) (hfont : s.contentFont.isSome = true)
    (hlen : caption.length ≤ 32766) :
    ∃ lines, captionLinesFor s caption w = some lines ∧
      (lines.map List.length).sum + caption.countP isCaptionBreak = caption.length ∧
      lines.flatten = withoutBreaks isCaptionBreak caption := by
  by_cases h0 : caption.length > 0
  · obtain ⟨lines, h1, h2, _⟩ := wrapSegments_short s isCaptionBreak caption w hlen
    refine ⟨lines, by rw [captionLinesFor_eq s caption w hgfx hfont h0, h1], ?_, h2⟩
    rw [← List.length_flatten, h2]
    exact length_withoutBreaks isCaptionBreak caption
  · refine ⟨[], captionLinesFor_nil s caption w (Or.inr (Or.inl (by omega))), ?_, ?_⟩
    · have hnil : caption = [] := List.length_eq_zero.mp (by omega)
      rw [hnil]; rfl
    · have hnil : caption = [] := List.length_eq_zero.mp (by omega)
      rw [hnil]; rfl

theorem captionLines_conserves_characters_witness :
    (boundUi (fixedFont 6) 128 64).gfx = true ∧
    (boundUi (fixedFont 6) 128 64).contentFont.isSome = true ∧
    "The quick\nbrown fox".toList.length ≤ 32766 ∧
    ∃ lines, captionLinesFor (boundUi (fixedFont 6) 128 64) "The quick\nbrown fox".toList 30
        = some lines ∧
      (lines.map List.length).sum + "The quick\nbrown fox".toList.countP isCaptionBreak
        = "The quick\nbrown fox".toList.length ∧
      lines.flatten = withoutBreaks isCaptionBreak "The quick\nbrown fox".toList :=
  ⟨rfl, rfl, by decide,
    captionLines_conserves_characters (boundUi (fixedFont 6) 128 64)
      "The quick\nbrown fox".toList 30 rfl rfl (by decide)⟩

/-- C1 as stated fails on a caption of 32768 characters: `(int16_t)32768` is
negative, the loop over `pos` never runs and no line is produced, so the
character counts add up to 0 and not to 32768. -/
theorem captionLines_conserves_characters_counterexample :
    captionLines (boundUi (fixedFont 6) 128 64) (List.replicate 32768 'a') = some [] ∧
    ¬ ∃ lines, captionLines (boundUi (fixedFont 6) 128 64) (List.replicate 32768 'a')
          = some lines ∧
        (lines.map List.length).sum + (List.replicate 32768 'a').countP isCaptionBreak
          = (List.replicate 32768 'a').length := by
  have hval : captionLines (boundUi (fixedFont 6) 128 64) (List.replicate 32768 'a')
      = some [] := by
    unfold captionLines captionLinesFor wrapSegments
    rw [List.length_replicate]
    rfl
  refine ⟨hval, ?_⟩
  rintro ⟨lines, h1, h2⟩
  rw [hval] at h1
  cases h1
  rw [List.length_replicate, List.countP_replicate] at h2
  revert h2
  decide

/-- C2: for every caption and every width, every display line that the caption
wrapper produces (a whole segment or a chunk cut by `findWrapPoint`) is measured
by `strWidth` not wider than the width, or consists of exactly one character;
and the wrapper does produce its lines for every caption of at most 32766
characters. -/
theorem captionLines_line_fits_or_single (s : Ui) (caption : List Char) (w : Nat) :
    (caption.length ≤ 32766 → ∃ lines, captionLinesFor s caption w = some lines) ∧
    ∀ lines, captionLinesFor s caption w = some lines →
      ∀ l ∈ lines, strWidth s l s.contentFont s.contentSize ≤ (w : Int) ∨ l.length = 1 := by
  by_cases h : s.gfx = true ∧ s.contentFont.isSome = true ∧ caption.length > 0
  · obtain ⟨hgfx, hfont, h0⟩ := h
    rw [captionLinesFor_eq s caption w hgfx hfont h0]
    constructor
    · intro hlen
      obtain ⟨lines, h1, _⟩ := wrapSegments_short s isCaptionBreak caption w hlen
      exact ⟨lines, h1⟩
    · intro lines hl l hmem
      exact (wrapSegments_lineOk s isCaptionBreak caption w lines hl l hmem).2
  · have hnil : captionLinesFor s caption w = some [] := by
      apply captionLinesFor_nil
      by_cases hgfx : s.gfx = true
      · by_cases hfont : s.contentFont.isSome = true
        · exact Or.inr (Or.inl (by
            by_contra h0
            exact h ⟨hgfx, hfont, by omega⟩))
        · exact Or.inr (Or.inr (by simpa using hfont))
      · exact Or.inl (by simpa using hgfx)
    exact ⟨fun _ => ⟨[], hnil⟩, fun lines hl l hmem => by
      rw [hnil] at hl; cases hl; cases hmem⟩

set_option maxRecDepth 100000 in
theorem captionLines_line_fits_or_single_witness :
    (∃ lines, captionLinesFor (boundUi (fixedFont 6) 128 64) "The quick brown fox".toList 60
      = some lines) ∧
    (strWidth (boundUi (fixedFont 6) 128 64) "The quick ".toList
        (boundUi (fixedFont 6) 128 64).contentFont (boundUi (fixedFont 6) 128 64).contentSize
        ≤ ((60 : Nat) : Int) ∨ "The quick ".toList.length = 1) :=
  ⟨(captionLines_line_fits_or_single (boundUi (fixedFont 6) 128 64)
      "The quick brown fox".toList 60).1 (by decide),
   (captionLines_line_fits_or_single (boundUi (fixedFont 6) 128 64)
      "The quick brown fox".toList 60).2 ["The quick ".toList, "brown fox".toList]
      (by decide) "The quick ".toList (by decide)⟩

/-! ## Claims on `findWrapPoint` -/

/-- C3, as amended: for every font, size and `maxWidth` such that "hello" and
each of its prefixes is measured not wider than `maxWidth` while "hello w" is
wider, `findWrapPoint("hello world", 0, maxWidth)` returns 6 when "hello " is
not wider than `maxWidth` either (the chunk then ends with the space) and 5 when
"hello " is wider. -/
theorem findWrapPoint_hello_world (s : Ui) (maxWidth : Nat)
    (hpre : ∀ p ∈ ["h", "he", "hel", "hell", "hello"],
      strWidth s (String.toList p) s.contentFont s.contentSize ≤ (maxWidth : Int))
    (hwide : (maxWidth : Int) < strWidth s "hello w".toList s.contentFont s.contentSize) :
    (strWidth s "hello ".toList s.contentFont s.contentSize ≤ (maxWidth : Int) →
      findWrapPoint s "hello world".toList 0 maxWidth = some 6) ∧
    ((maxWidth : Int) < strWidth s "hello ".toList s.contentFont s.contentSize →
      findWrapPoint s "hello world".toList 0 maxWidth = some 5) := by
  have h1 := hpre "h" (by simp)
  have h2 := hpre "he" (by simp)
  have h3 := hpre "hel" (by simp)
  have h4 := hpre "hell" (by simp)
  have h5 := hpre "hello" (by simp)
  have hlen : "hello world".toList.length = 11 := rfl
  have hstart : findWrapPoint s "hello world".toList 0 maxWidth
      = findWrapLoop s "hello world".toList 0 maxWidth 7 5 (-1) := by
    unfold findWrapPoint
    rw [if_neg (by rw [hlen]; omega), hlen]
    rw [findWrapLoop_fit s "hello world".toList 0 maxWidth 11 0 _ (by rw [hlen]; omega)
        (by omega) h1, if_neg (by decide),
      findWrapLoop_fit s "hello world".toList 0 maxWidth 10 1 _ (by rw [hlen]; omega)
        (by omega) h2, if_neg (by decide),
      findWrapLoop_fit s "hello world".toList 0 maxWidth 9 2 _ (by rw [hlen]; omega)
        (by omega) h3, if_neg (by decide),
      findWrapLoop_fit s "hello world".toList 0 maxWidth 8 3 _ (by rw [hlen]; omega)
        (by omega) h4, if_neg (by decide),
      findWrapLoop_fit s "hello world".toList 0 maxWidth 7 4 _ (by rw [hlen]; omega)
        (by omega) h5, if_neg (by decide)]
  rw [hstart]
  constructor
  · intro h6
    rw [findWrapLoop_fit s "hello world".toList 0 maxWidth 6 5 _ (by rw [hlen]; omega)
        (by omega) h6, if_pos (by decide),
      findWrapLoop_wide s "hello world".toList 0 maxWidth 5 6 _ (by rw [hlen]; omega) hwide]
    rfl
  · intro h6
    rw [findWrapLoop_wide s "hello world".toList 0 maxWidth 6 5 _ (by rw [hlen]; omega) h6]
    rfl

theorem findWrapPoint_hello_world_witness :
    findWrapPoint (boundUi (fixedFont 6) 128 64) "hello world".toList 0 36 = some 6 ∧
    findWrapPoint (boundUi (fixedFont 6) 128 64) "hello world".toList 0 35 = some 5 :=
  ⟨(findWrapPoint_hello_world (boundUi (fixedFont 6) 128 64) 36 (by decide) (by decide)).1
      (by decide),
   (findWrapPoint_hello_world (boundUi (fixedFont 6) 128 64) 35 (by decide) (by decide)).2
      (by decide)⟩

/-- C3 as stated fails.  With 6 px per character and `maxWidth = 36`, "hello"
(30 px) fits and "hello w" (42 px) does not, and `findWrapPoint` returns 6, not
5: the space is counted into the chunk.  With an advance of 130 at size 100
the `int16_t` width of "hello" has wrapped to -536, so "hello" fits `maxWidth =
100` and "hello w" (25464) does not, yet "h" alone (13000) is too wide and the
result is 1. -/
theorem findWrapPoint_hello_world_counterexample :
    (strWidth (boundUi (fixedFont 6) 128 64) "hello".toList (some (fixedFont 6)) 1 ≤ 36 ∧
      36 < strWidth (boundUi (fixedFont 6) 128 64) "hello w".toList (some (fixedFont 6)) 1 ∧
      findWrapPoint (boundUi (fixedFont 6) 128 64) "hello world".toList 0 36 = some 6) ∧
    (strWidth (sizedUi (fixedFont 130) 100 128 64) "hello".toList (some (fixedFont 130)) 100
        ≤ 100 ∧
      100 < strWidth (sizedUi (fixedFont 130) 100 128 64) "hello w".toList
        (some (fixedFont 130)) 100 ∧
      findWrapPoint (sizedUi (fixedFont 130) 100 128 64) "hello world".toList 0 100
        = some 1) := by
  decide

set_option maxRecDepth 100000 in
/-- C4, as amended: with a fixed-width font of 6 px per character and a width
budget of 60 px (a display 66 px wide), the caption "The quick brown fox" is
wrapped into exactly the two display lines "The quick " and "brown fox"; the
first line ends with the space at which it was broken. -/
theorem captionLines_quick_brown_fox :
    captionAvailWidth (boundUi (fixedFont 6) 66 64) = 60 ∧
    captionLines (boundUi (fixedFont 6) 66 64) "The quick brown fox".toList
      = some ["The quick ".toList, "brown fox".toList] := by
  decide

set_option maxRecDepth 100000 in
/-- C4 as stated fails: the two lines are not "The quick" and "brown fox". -/
theorem captionLines_quick_brown_fox_counterexample :
    captionLines (boundUi (fixedFont 6) 66 64) "The quick brown fox".toList
      ≠ some ["The quick".toList, "brown fox".toList] := by
  decide

/-! ## Claims on the option list -/

theorem fullyVisibleCount_pos (s : Ui) : 1 ≤ showOptionSelect.fullyVisibleCount s := by
  unfold showOptionSelect.fullyVisibleCount
  split_ifs <;> omega

theorem fullyVisibleCount_le (s : Ui) : showOptionSelect.fullyVisibleCount s ≤ 255 := by
  unfold showOptionSelect.fullyVisibleCount showOptionSelect.fullyVisibleCountInit
  have h := toUInt8_lt ((contentHeight s / showOptionSelect.optionHeight s : Nat) : Int)
  split_ifs <;> omega

/-- C6: for every object (so every content height and option height), every
`numOptions > 0` and every `cursorPos < numOptions`, the window computed by
`showOptionSelect` satisfies `topIndex ≤ cursorPos < topIndex + visibleCount`. -/
theorem window_contains_cursor (s : Ui) (numOptions cursorPos : Nat)
    (hpos : 0 < numOptions) (hn : numOptions < 256) (hc : cursorPos < numOptions) :
    showOptionSelect.topIndex s numOptions cursorPos ≤ cursorPos ∧
    cursorPos < showOptionSelect.topIndex s numOptions cursorPos
      + showOptionSelect.visibleCount s numOptions := by
  have h1 := fullyVisibleCount_pos s
  have h2 := fullyVisibleCount_le s
  unfold showOptionSelect.topIndex showOptionSelect.visibleCount
  generalize showOptionSelect.fullyVisibleCount s = f at h1 h2 ⊢
  by_cases hgt : numOptions > f
  · rw [if_pos hgt, if_pos hgt]
    simp only [toInt16, toUInt8]
    split_ifs <;> omega
  · rw [if_neg hgt, if_neg hgt]
    omega

theorem window_contains_cursor_witness :
    0 < 10 ∧ 10 < 256 ∧ 9 < 10 ∧
    showOptionSelect.topIndex (boundUi (fixedFont 6) 128 46) 10 9 ≤ 9 ∧
    9 < showOptionSelect.topIndex (boundUi (fixedFont 6) 128 46) 10 9
      + showOptionSelect.visibleCount (boundUi (fixedFont 6) 128 46) 10 :=
  ⟨by decide, by decide, by decide,
    window_contains_cursor (boundUi (fixedFont 6) 128 46) 10 9
      (by decide) (by decide) (by decide)⟩

/-- C7: for every object and all `uint8_t` values `numOptions`, `cursorPos`, the
window of `showOptionSelect` equals the reference formula: `visibleCount` is
`numOptions` if `numOptions ≤ fullyVisibleCount` and `fullyVisibleCount + 1`
otherwise, and `topIndex` is `cursorPos - fullyVisibleCount / 2` clamped to
`[0, max(0, numOptions - fullyVisibleCount - 1)]`; in particular 10 items with
capacity 3 and the cursor on 9 give `topIndex = 6` and `visibleCount = 4`. -/
theorem window_matches_reference (s : Ui) (numOptions cursorPos : Nat)
    (hn : numOptions < 256) (hc : cursorPos < 256) :
    showOptionSelect.visibleCount s numOptions
      = refVisibleRowCount numOptions (showOptionSelect.fullyVisibleCount s) ∧
    (showOptionSelect.topIndex s numOptions cursorPos : Int)
      = refFirstVisibleIndex numOptions cursorPos (showOptionSelect.fullyVisibleCount s) ∧
    (showOptionSelect.fullyVisibleCount s = 3 →
      showOptionSelect.topIndex s 10 9 = 6 ∧ showOptionSelect.visibleCount s 10 = 4) := by
  have h1 := fullyVisibleCount_pos s
  have h2 := fullyVisibleCount_le s
  unfold showOptionSelect.topIndex showOptionSelect.visibleCount refVisibleRowCount
    refFirstVisibleIndex clamp
  generalize showOptionSelect.fullyVisibleCount s = f at h1 h2 ⊢
  refine ⟨?_, ?_, ?_⟩
  · simp only [toUInt8]
    split_ifs <;> omega
  · simp only [toInt16, toUInt8]
    split_ifs <;> omega
  · intro h3
    subst h3
    decide

theorem window_matches_reference_witness :
    showOptionSelect.fullyVisibleCount (boundUi (fixedFont 6) 128 46) = 3 ∧
    showOptionSelect.topIndex (boundUi (fixedFont 6) 128 46) 10 9 = 6 ∧
    showOptionSelect.visibleCount (boundUi (fixedFont 6) 128 46) 10 = 4 :=
  ⟨by decide,
    (window_matches_reference (boundUi (fixedFont 6) 128 46) 10 9
      (by decide) (by decide)).2.2 (by decide)⟩

theorem toUInt16_le_self (n : Nat) : toUInt16 (n : Int) ≤ n := by
  unfold toUInt16; omega

/-- When the slider box is 4 to 255 px high, the thumb is 4 px to the box
height high, whatever `numOptions` is. -/
theorem sliderHeight_bounds (s : Ui) (numOptions : Nat)
    (h4 : 4 ≤ showOptionSelect.sliderBoxHeight s)
    (h255 : showOptionSelect.sliderBoxHeight s ≤ 255) :
    4 ≤ showOptionSelect.sliderHeight s numOptions ∧
    showOptionSelect.sliderHeight s numOptions ≤ showOptionSelect.sliderBoxHeight s := by
  unfold showOptionSelect.sliderHeight
  generalize showOptionSelect.sliderBoxHeight s = B at h4 h255 ⊢
  generalize showOptionSelect.fullyVisibleCount s = f
  by_cases hfit : numOptions ≤ f
  · rw [if_pos hfit]
    unfold toUInt8; omega
  · rw [if_neg hfit]
    have hq : f * B / numOptions ≤ B := by
      apply Nat.div_le_of_le_mul
      exact Nat.mul_le_mul_right B (by omega)
    generalize f * B / numOptions = q at hq ⊢
    have hq2 : toUInt8 (q : Int) = q := by
      unfold toUInt8; omega
    simp only [hq2]
    split_ifs <;> omega

/-- C8, as amended: for every object whose slider box is 4 to 255 px high, and
every `numOptions < 256` and `cursorPos < numOptions`, the thumb height computed
by `showOptionSelect` lies in `[4, sliderBoxHeight]`, and thumb offset plus thumb
height does not exceed the box top plus `sliderBoxHeight`. -/
theorem thumb_bounds (s : Ui) (numOptions cursorPos : Nat)
    (hn : numOptions < 256) (hc : cursorPos < numOptions)
    (h4 : 4 ≤ showOptionSelect.sliderBoxHeight s)
    (h255 : showOptionSelect.sliderBoxHeight s ≤ 255) :
    4 ≤ showOptionSelect.sliderHeight s numOptions ∧
    showOptionSelect.sliderHeight s numOptions ≤ showOptionSelect.sliderBoxHeight s ∧
    showOptionSelect.sliderPos s numOptions cursorPos
        + showOptionSelect.sliderHeight s numOptions
      ≤ showOptionSelect.sliderBoxTop s + showOptionSelect.sliderBoxHeight s := by
  obtain ⟨hlo, hhi⟩ := sliderHeight_bounds s numOptions h4 h255
  refine ⟨hlo, hhi, ?_⟩
  unfold showOptionSelect.sliderPos showOptionSelect.sliderBoxTop
  generalize showOptionSelect.sliderHeight s numOptions = H at hlo hhi ⊢
  generalize showOptionSelect.sliderBoxHeight s = B at h4 h255 hhi ⊢
  by_cases h1 : numOptions ≤ 1
  · rw [if_pos h1]
    unfold contentTop toUInt16 titleMargin contentBoxThickness sliderPadding
    omega
  · rw [if_neg h1]
    have hprod : (cursorPos : Int) * ((B : Int) - (H : Int)) = ((cursorPos * (B - H) : Nat) : Int) := by
      rw [Nat.cast_mul, Nat.cast_sub hhi]
    rw [hprod]
    have hoff : toUInt16 ((cursorPos * (B - H) : Nat) : Int) / (numOptions - 1) ≤ B - H := by
      apply Nat.div_le_of_le_mul
      calc toUInt16 ((cursorPos * (B - H) : Nat) : Int) ≤ cursorPos * (B - H) :=
            toUInt16_le_self _
        _ ≤ (numOptions - 1) * (B - H) := Nat.mul_le_mul_right _ (by omega)
    generalize toUInt16 ((cursorPos * (B - H) : Nat) : Int) / (numOptions - 1) = off at hoff
    unfold toUInt16 sliderPadding
    omega

theorem thumb_bounds_witness :
    4 ≤ showOptionSelect.sliderHeight (boundUi (fixedFont 6) 128 64) 20 ∧
    showOptionSelect.sliderHeight (boundUi (fixedFont 6) 128 64) 20
      ≤ showOptionSelect.sliderBoxHeight (boundUi (fixedFont 6) 128 64) ∧
    showOptionSelect.sliderPos (boundUi (fixedFont 6) 128 64) 20 19
        + showOptionSelect.sliderHeight (boundUi (fixedFont 6) 128 64) 20
      ≤ showOptionSelect.sliderBoxTop (boundUi (fixedFont 6) 128 64)
        + showOptionSelect.sliderBoxHeight (boundUi (fixedFont 6) 128 64) :=
  thumb_bounds (boundUi (fixedFont 6) 128 64) 20 19 (by decide) (by decide) (by decide)
    (by decide)

/-- C8 as stated fails on both sides of the range of box heights.  On a display
19 px high (font height 8) the slider box is 3 px high and, with one option, so
is the thumb: less than 4.  On a display 272 px high the box is 256 px high and
the `uint8_t` thumb height of a list that fits is 0. -/
theorem thumb_bounds_counterexample :
    (showOptionSelect.sliderBoxHeight (boundUi (fixedFont 6) 128 19) = 3 ∧
      showOptionSelect.sliderHeight (boundUi (fixedFont 6) 128 19) 1 = 3 ∧
      ¬ 4 ≤ showOptionSelect.sliderHeight (boundUi (fixedFont 6) 128 19) 1) ∧
    (showOptionSelect.sliderBoxHeight (boundUi (fixedFont 6) 128 272) = 256 ∧
      showOptionSelect.sliderHeight (boundUi (fixedFont 6) 128 272) 1 = 0 ∧
      ¬ 4 ≤ showOptionSelect.sliderHeight (boundUi (fixedFont 6) 128 272) 1) := by
  decide

/-- C9, as amended: for every object with fonts at most 255 px high whose slider
box is 4 to 255 px high, and every `numOptions ≥ 2`, with the cursor on the last
option the bottom edge of the thumb is exactly on the bottom of the box:
`sliderPos + sliderHeight = boxTop + sliderBoxHeight`; and for `numOptions ≤ 1`
the thumb is at the box top. -/
theorem thumb_reaches_bottom (s : Ui) (numOptions cursorPos : Nat)
    (hn : numOptions < 256) (htfh : s.titleFontHeight ≤ 255)
    (h4 : 4 ≤ showOptionSelect.sliderBoxHeight s)
    (h255 : showOptionSelect.sliderBoxHeight s ≤ 255) :
    (2 ≤ numOptions →
      showOptionSelect.sliderPos s numOptions (numOptions - 1)
          + showOptionSelect.sliderHeight s numOptions
        = showOptionSelect.sliderBoxTop s + showOptionSelect.sliderBoxHeight s) ∧
    (numOptions ≤ 1 →
      showOptionSelect.sliderPos s numOptions cursorPos = showOptionSelect.sliderBoxTop s) := by
  obtain ⟨hlo, hhi⟩ := sliderHeight_bounds s numOptions h4 h255
  unfold showOptionSelect.sliderPos showOptionSelect.sliderBoxTop
  generalize showOptionSelect.sliderHeight s numOptions = H at hlo hhi ⊢
  generalize showOptionSelect.sliderBoxHeight s = B at h4 h255 hhi ⊢
  constructor
  · intro h2
    rw [if_neg (by omega)]
    have hprod : ((numOptions - 1 : Nat) : Int) * ((B : Int) - (H : Int))
        = (((numOptions - 1) * (B - H) : Nat) : Int) := by
      rw [Nat.cast_mul, Nat.cast_sub hhi]
    have hsmall : (numOptions - 1) * (B - H) < 65536 := by
      calc (numOptions - 1) * (B - H) ≤ 254 * 255 :=
            Nat.mul_le_mul (by omega) (by omega)
        _ < 65536 := by decide
    rw [hprod, toUInt16_natCast _ hsmall, Nat.mul_div_cancel_left _ (by omega)]
    unfold contentTop toUInt16 titleMargin contentBoxThickness sliderPadding
    omega
  · intro h1
    rw [if_pos h1]
    unfold contentTop toUInt16 titleMargin contentBoxThickness sliderPadding
    omega

theorem thumb_reaches_bottom_witness :
    showOptionSelect.sliderPos (boundUi (fixedFont 6) 128 64) 20 (20 - 1)
        + showOptionSelect.sliderHeight (boundUi (fixedFont 6) 128 64) 20
      = showOptionSelect.sliderBoxTop (boundUi (fixedFont 6) 128 64)
        + showOptionSelect.sliderBoxHeight (boundUi (fixedFont 6) 128 64) :=
  (thumb_reaches_bottom (boundUi (fixedFont 6) 128 64) 20 0 (by decide) (by decide)
    (by decide) (by decide)).1 (by decide)

/-- C9 as stated fails on both sides of the range of box heights.  On a display
19 px high (font height 8) the slider box is 3 px high and the thumb of a list
of 3 options has the minimum height 4: with the cursor on the last option the
product `cursorPos * (sliderBoxHeight - sliderHeight)` is -2 and its `uint16_t`
value 65534 puts the thumb at 32780.  On a display 320 px high with 255 options
the product 254 * 269 does not fit `uint16_t` and the thumb stops at offset 10,
far above the bottom of the box. -/
theorem thumb_reaches_bottom_counterexample :
    (showOptionSelect.sliderPos (boundUi (fixedFont 6) 128 19) 3 (3 - 1) = 32780 ∧
      showOptionSelect.sliderHeight (boundUi (fixedFont 6) 128 19) 3 = 4 ∧
      showOptionSelect.sliderBoxTop (boundUi (fixedFont 6) 128 19) = 13 ∧
      showOptionSelect.sliderBoxHeight (boundUi (fixedFont 6) 128 19) = 3 ∧
      showOptionSelect.sliderPos (boundUi (fixedFont 6) 128 19) 3 (3 - 1)
          + showOptionSelect.sliderHeight (boundUi (fixedFont 6) 128 19) 3
        ≠ showOptionSelect.sliderBoxTop (boundUi (fixedFont 6) 128 19)
          + showOptionSelect.sliderBoxHeight (boundUi (fixedFont 6) 128 19)) ∧
    (showOptionSelect.sliderPos (boundUi (fixedFont 6) 128 320) 255 (255 - 1) = 23 ∧
      showOptionSelect.sliderHeight (boundUi (fixedFont 6) 128 320) 255 = 35 ∧
      showOptionSelect.sliderBoxTop (boundUi (fixedFont 6) 128 320) = 13 ∧
      showOptionSelect.sliderBoxHeight (boundUi (fixedFont 6) 128 320) = 304 ∧
      showOptionSelect.sliderPos (boundUi (fixedFont 6) 128 320) 255 (255 - 1)
          + showOptionSelect.sliderHeight (boundUi (fixedFont 6) 128 320) 255
        ≠ showOptionSelect.sliderBoxTop (boundUi (fixedFont 6) 128 320)
          + showOptionSelect.sliderBoxHeight (boundUi (fixedFont 6) 128 320)) := by
  decide

theorem lineDisplayCounts_mod (s : Ui) (w : Nat) (es : List (List Char))
    (hlen : ∀ e ∈ es, e.length ≤ 32766) :
    showActivityLiveLog.lineDisplayCounts s w es
      = some (es.map (fun e => (showActivityLiveLog.entryLines s w e).length % 256)) := by
  induction es with
  | nil => rfl
  | cons e rest ih =>
    rw [showActivityLiveLog.lineDisplayCounts,
      displayLineCount_eq s e w _ (entryLines_eq s w e (hlen e (List.mem_cons_self _ _))),
      ih (fun x hx => hlen x (List.mem_cons_of_mem _ hx))]
    rfl

theorem drawnLines_eq (s : Ui) (w K : Nat) (counts : List Nat)
    (hgfx : s.gfx = true) (hfont : s.contentFont.isSome = true)
    (hN : s.logLines.length < 65536)
    (hcounts : showActivityLiveLog.lineDisplayCounts s w s.logLines = some counts) :
    showActivityLiveLog.drawnLines s w K
      = showActivityLiveLog.drawEntries s w
          (s.logLines.drop (showActivityLiveLog.firstDrawn counts K s.logLines.length)) := by
  unfold showActivityLiveLog.drawnLines
  rw [if_neg (by simp [hgfx, hfont]), toUInt16_natCast _ hN,
    List.take_of_length_le (le_refl _), hcounts]

/-! ## Claims on the live log -/

/-- C10, as amended: for every buffer of at most 32768 log lines, each of at
most 32766 characters and wrapping to at most 255 display lines, and every
capacity `K ≤ 255`, the render pass of `showActivityLiveLog` draws the display
lines of the most recent whole entries that together take at most `K` display
lines (entry `start - 1` would not fit any more): a suffix of the wrapped
buffer, in original order, of at most `K` lines and with nothing older.  When
every entry wraps to a single display line, these are exactly the `K` most
recent display lines (all of them when there are fewer than `K`). -/
theorem log_tail_shows_most_recent (s : Ui) (w K : Nat)
    (hgfx : s.gfx = true) (hfont : s.contentFont.isSome = true)
    (hN : s.logLines.length ≤ 32768) (hK : K ≤ 255)
    (hlen : ∀ e ∈ s.logLines, e.length ≤ 32766)
    (hcnt : ∀ e ∈ s.logLines, (showActivityLiveLog.entryLines s w e).length < 256) :
    ∃ drawn all start,
      showActivityLiveLog.drawnLines s w K = some drawn ∧
      showActivityLiveLog.drawEntries s w s.logLines = some all ∧
      drawn <:+ all ∧ drawn.length ≤ K ∧
      showActivityLiveLog.drawEntries s w (s.logLines.drop start) = some drawn ∧
      (0 < start → ∃ more,
        showActivityLiveLog.drawEntries s w (s.logLines.drop (start - 1)) = some more ∧
        K < more.length) ∧
      ((∀ e ∈ s.logLines, (showActivityLiveLog.entryLines s w e).length = 1) →
        drawn = all.drop (all.length - K)) := by
  have hcounts := lineDisplayCounts_eq s w s.logLines hlen hcnt
  have hclen : (s.logLines.map
      (fun e => (showActivityLiveLog.entryLines s w e).length)).length = s.logLines.length :=
    List.length_map _ _
  have hspec := firstDrawn_spec
    (s.logLines.map (fun e => (showActivityLiveLog.entryLines s w e).length)) K (by omega)
    (by rw [hclen]; exact hN)
  rw [hclen] at hspec
  obtain ⟨hle, hsum, hmax⟩ := hspec
  generalize hst : showActivityLiveLog.firstDrawn
    (s.logLines.map (fun e => (showActivityLiveLog.entryLines s w e).length)) K
    s.logLines.length = start at hle hsum hmax
  have hdrop : ∀ r, showActivityLiveLog.drawEntries s w (s.logLines.drop r)
      = some ((s.logLines.drop r).map (showActivityLiveLog.entryLines s w)).flatten :=
    fun r => drawEntries_eq s w _ (fun e he => hlen e (List.mem_of_mem_drop he))
  have hdrawn : showActivityLiveLog.drawnLines s w K
      = some ((s.logLines.drop start).map (showActivityLiveLog.entryLines s w)).flatten := by
    unfold showActivityLiveLog.drawnLines
    rw [if_neg (by simp [hgfx, hfont]), toUInt16_natCast _ (by omega),
      List.take_of_length_le (le_refl _), hcounts]
    simp only [hst]
    exact hdrop start
  rw [sum_drop_counts] at hsum
  refine ⟨_, _, start, hdrawn, drawEntries_eq s w _ hlen, flatten_drop_suffix s w _ start,
    hsum, hdrop start, ?_, ?_⟩
  · intro hpos
    have := hmax hpos
    rw [sum_drop_counts] at this
    exact ⟨_, hdrop (start - 1), this⟩
  · intro hone
    have hflat := flatten_drop_of_singletons (showActivityLiveLog.entryLines s w) s.logLines
    have hall : ((s.logLines.map (showActivityLiveLog.entryLines s w)).flatten).length
        = s.logLines.length :=
      length_flatten_of_singletons (showActivityLiveLog.entryLines s w) s.logLines hone
    rw [hflat start hone, hall]
    rw [hflat start hone, List.length_drop, hall] at hsum
    have hm : 0 < start → K < s.logLines.length - (start - 1) := by
      intro hpos
      have := hmax hpos
      rw [sum_drop_counts, hflat (start - 1) hone, List.length_drop, hall] at this
      exact this
    have hs : s.logLines.length - K = start := by
      by_cases hpos : 0 < start
      · have := hm hpos
        omega
      · omega
    rw [hs]

set_option maxRecDepth 100000 in
theorem log_tail_shows_most_recent_witness :
    ∃ drawn all start,
      showActivityLiveLog.drawnLines
        (loggedUi (fixedFont 6) 128 64 ["one".toList, "two".toList, "three".toList]) 100 2
        = some drawn ∧
      showActivityLiveLog.drawEntries
        (loggedUi (fixedFont 6) 128 64 ["one".toList, "two".toList, "three".toList]) 100
        (loggedUi (fixedFont 6) 128 64 ["one".toList, "two".toList, "three".toList]).logLines
        = some all ∧
      drawn <:+ all ∧ drawn.length ≤ 2 ∧
      showActivityLiveLog.drawEntries
        (loggedUi (fixedFont 6) 128 64 ["one".toList, "two".toList, "three".toList]) 100
        ((loggedUi (fixedFont 6) 128 64
          ["one".toList, "two".toList, "three".toList]).logLines.drop start) = some drawn ∧
      (0 < start → ∃ more,
        showActivityLiveLog.drawEntries
          (loggedUi (fixedFont 6) 128 64 ["one".toList, "two".toList, "three".toList]) 100
          ((loggedUi (fixedFont 6) 128 64
            ["one".toList, "two".toList, "three".toList]).logLines.drop (start - 1))
          = some more ∧
        2 < more.length) ∧
      ((∀ e ∈ (loggedUi (fixedFont 6) 128 64
          ["one".toList, "two".toList, "three".toList]).logLines,
          (showActivityLiveLog.entryLines
            (loggedUi (fixedFont 6) 128 64 ["one".toList, "two".toList, "three".toList])
            100 e).length = 1) →
        drawn = all.drop (all.length - 2)) :=
  log_tail_shows_most_recent
    (loggedUi (fixedFont 6) 128 64 ["one".toList, "two".toList, "three".toList]) 100 2
    rfl rfl (by decide) (by decide) (by decide) (by decide)

theorem flatten_replicate_singleton (x : List Char) :
    ∀ n, (List.replicate n [x]).flatten = List.replicate n x := by
  intro n
  induction n with
  | zero => rfl
  | succ n ih => rw [List.replicate_succ, List.flatten_cons, ih, List.replicate_succ]; rfl

/-! ## The live log: start boundary -/

theorem sum_drop_mono (counts : List Nat) (j k : Nat) (hjk : j ≤ k) :
    (counts.drop k).sum ≤ (counts.drop j).sum := by
  obtain ⟨d, rfl⟩ : ∃ d, k = j + d := ⟨k - j, by omega⟩
  rw [← List.drop_drop]
  generalize counts.drop j = l
  have h := List.take_append_drop d l
  conv_rhs => rw [← h, List.sum_append]
  omega

theorem visibleLineCount_lt (s : Ui) (K : Nat)
    (hK : showActivityLiveLog.visibleLineCount s = some K) : 1 ≤ K ∧ K ≤ 255 := by
  unfold showActivityLiveLog.visibleLineCount at hK
  cases hlh : showActivityLiveLog.lineHeight s with
  | none => rw [hlh] at hK; cases hK
  | some lh =>
    rw [hlh] at hK
    simp only [Option.some_bind] at hK
    by_cases h0 : lh = 0
    · rw [if_pos h0] at hK; cases hK
    · rw [if_neg h0] at hK
      have hlt := toUInt8_lt (Int.tdiv ((showActivityLiveLog.logWindowHeight s : Int)
        - 2 * (optionPadding : Int)) (lh : Int))
      generalize toUInt8 (Int.tdiv ((showActivityLiveLog.logWindowHeight s : Int)
        - 2 * (optionPadding : Int)) (lh : Int)) = v at hK hlt
      cases hK
      split_ifs <;> omega

theorem tdiv_natCast (a b : Nat) : Int.tdiv (a : Int) (b : Int) = ((a / b : Nat) : Int) := by
  rw [Int.tdiv_eq_ediv (Int.ofNat_nonneg a) (Int.ofNat_nonneg b), Int.natCast_div]

/-- C11, as amended: for every buffer of at most 32768 log lines (each of at
most 32766 characters), `showActivityLiveLog` draws the entries from
`startIndex` on, and `startIndex` bounds the longest suffix of entries whose
stored display-line counts sum to at most `visibleLineCount`: the sum over the
entries `startIndex..end` is at most `visibleLineCount`, and every longer suffix
(so, if `startIndex > 0`, the one with entry `startIndex - 1` added) exceeds it.
The index is the one that the drawing loop starts at, `uint16_t i = startIndex`
(`firstDrawn`); the `int16_t startIndex` holds the same value reduced to
`int16_t`, so the value itself for fewer than 32768 lines.
Here `visibleLineCount` is the `uint8_t` value of
`(logWindowHeight - 2 * optionPadding) / lineHeight` raised to 1 when it is 0; it
equals `max(1, (logWindowHeight - 2 * optionPadding) / lineHeight)` whenever
`logWindowHeight ≥ 2` and the quotient is at most 255. -/
theorem log_start_boundary (s : Ui) (K : Nat)
    (hgfx : s.gfx = true) (hfont : s.contentFont.isSome = true)
    (hN : s.logLines.length ≤ 32768) (hlen : ∀ e ∈ s.logLines, e.length ≤ 32766)
    (hK : showActivityLiveLog.visibleLineCount s = some K) :
    (∀ lh, showActivityLiveLog.lineHeight s = some lh →
      2 ≤ showActivityLiveLog.logWindowHeight s →
      (showActivityLiveLog.logWindowHeight s - 2 * optionPadding) / lh ≤ 255 →
      K = max 1 ((showActivityLiveLog.logWindowHeight s - 2 * optionPadding) / lh)) ∧
    ∃ counts,
      showActivityLiveLog.lineDisplayCounts s (showActivityLiveLog.availWidth s) s.logLines
        = some counts ∧
      counts.length = s.logLines.length ∧
      showActivityLiveLog.drawnLines s (showActivityLiveLog.availWidth s) K
        = showActivityLiveLog.drawEntries s (showActivityLiveLog.availWidth s)
            (s.logLines.drop (showActivityLiveLog.firstDrawn counts K s.logLines.length)) ∧
      showActivityLiveLog.startIndex counts K s.logLines.length
        = toInt16 (showActivityLiveLog.firstDrawn counts K s.logLines.length : Int) ∧
      (s.logLines.length < 32768 →
        showActivityLiveLog.startIndex counts K s.logLines.length
          = (showActivityLiveLog.firstDrawn counts K s.logLines.length : Int)) ∧
      showActivityLiveLog.firstDrawn counts K s.logLines.length ≤ s.logLines.length ∧
      (counts.drop (showActivityLiveLog.firstDrawn counts K s.logLines.length)).sum ≤ K ∧
      (∀ j, j < showActivityLiveLog.firstDrawn counts K s.logLines.length →
        K < (counts.drop j).sum) := by
  constructor
  · intro lh hlh h2 hq
    unfold showActivityLiveLog.visibleLineCount at hK
    rw [hlh] at hK
    simp only [Option.some_bind] at hK
    by_cases h0 : lh = 0
    · rw [if_pos h0] at hK; cases hK
    · rw [if_neg h0] at hK
      have hnum : (showActivityLiveLog.logWindowHeight s : Int) - 2 * (optionPadding : Int)
          = ((showActivityLiveLog.logWindowHeight s - 2 * optionPadding : Nat) : Int) := by
        unfold optionPadding
        omega
      rw [hnum, tdiv_natCast] at hK
      generalize (showActivityLiveLog.logWindowHeight s - 2 * optionPadding) / lh = q at hK hq ⊢
      have hq8 : toUInt8 (q : Int) = q := by unfold toUInt8; omega
      rw [hq8] at hK
      cases hK
      split_ifs <;> omega
  · have hcounts := lineDisplayCounts_mod s (showActivityLiveLog.availWidth s) s.logLines hlen
    have hclen : (s.logLines.map (fun e =>
        (showActivityLiveLog.entryLines s (showActivityLiveLog.availWidth s) e).length
          % 256)).length = s.logLines.length := List.length_map _ _
    have hK255 := visibleLineCount_lt s K hK
    have hspec := firstDrawn_spec (s.logLines.map (fun e =>
        (showActivityLiveLog.entryLines s (showActivityLiveLog.availWidth s) e).length % 256))
      K (by omega) (by rw [hclen]; exact hN)
    have hint16 := startIndex_toInt16 (s.logLines.map (fun e =>
        (showActivityLiveLog.entryLines s (showActivityLiveLog.availWidth s) e).length % 256))
      K s.logLines.length
    have hsame : s.logLines.length < 32768 →
        showActivityLiveLog.startIndex (s.logLines.map (fun e =>
          (showActivityLiveLog.entryLines s (showActivityLiveLog.availWidth s) e).length
            % 256)) K s.logLines.length
        = (showActivityLiveLog.firstDrawn (s.logLines.map (fun e =>
          (showActivityLiveLog.entryLines s (showActivityLiveLog.availWidth s) e).length
            % 256)) K s.logLines.length : Int) := by
      intro hlt
      have h := startIndex_eq (s.logLines.map (fun e =>
        (showActivityLiveLog.entryLines s (showActivityLiveLog.availWidth s) e).length % 256))
        K (by omega) (by rw [hclen]; exact hlt)
      rw [hclen] at h
      exact h
    rw [hclen] at hspec
    obtain ⟨hle, hsum, hmax⟩ := hspec
    refine ⟨_, hcounts, hclen,
      drawnLines_eq s _ K _ hgfx hfont (by omega) hcounts, hint16, hsame, hle, hsum, ?_⟩
    intro j hj
    have h1 := hmax (by omega)
    have h2 := sum_drop_mono (s.logLines.map (fun e =>
        (showActivityLiveLog.entryLines s (showActivityLiveLog.availWidth s) e).length % 256))
      j (showActivityLiveLog.firstDrawn (s.logLines.map (fun e =>
        (showActivityLiveLog.entryLines s (showActivityLiveLog.availWidth s) e).length % 256))
        K s.logLines.length - 1) (by omega)
    omega

set_option maxRecDepth 100000 in
theorem log_start_boundary_witness :
    ((bufferedUi (fixedFont 6) 128 64 ["one".toList, "two\nthree".toList, "four".toList]).logLines.length ≤ 32768 ∧
      showActivityLiveLog.visibleLineCount
        (bufferedUi (fixedFont 6) 128 64 ["one".toList, "two\nthree".toList, "four".toList]) = some 4) ∧
    showActivityLiveLog.lineDisplayCounts
      (bufferedUi (fixedFont 6) 128 64 ["one".toList, "two\nthree".toList, "four".toList])
      (showActivityLiveLog.availWidth
        (bufferedUi (fixedFont 6) 128 64 ["one".toList, "two\nthree".toList, "four".toList]))
      (bufferedUi (fixedFont 6) 128 64 ["one".toList, "two\nthree".toList, "four".toList]).logLines
      = some [1, 2, 1] ∧
    showActivityLiveLog.startIndex [1, 2, 1] 4 3 = 0 ∧
    showActivityLiveLog.firstDrawn [1, 2, 1] 4 3 = 0 ∧
    showActivityLiveLog.drawnLines
      (bufferedUi (fixedFont 6) 128 64 ["one".toList, "two\nthree".toList, "four".toList])
      (showActivityLiveLog.availWidth
        (bufferedUi (fixedFont 6) 128 64 ["one".toList, "two\nthree".toList, "four".toList])) 4
      = some ["one".toList, "two".toList, "three".toList, "four".toList] ∧
    ∃ counts,
      showActivityLiveLog.lineDisplayCounts
        (bufferedUi (fixedFont 6) 128 64 ["one".toList, "two\nthree".toList, "four".toList])
        (showActivityLiveLog.availWidth
          (bufferedUi (fixedFont 6) 128 64 ["one".toList, "two\nthree".toList, "four".toList]))
        (bufferedUi (fixedFont 6) 128 64 ["one".toList, "two\nthree".toList, "four".toList]).logLines
        = some counts ∧
      counts.length
        = (bufferedUi (fixedFont 6) 128 64 ["one".toList, "two\nthree".toList, "four".toList]).logLines.length ∧
      showActivityLiveLog.drawnLines
        (bufferedUi (fixedFont 6) 128 64 ["one".toList, "two\nthree".toList, "four".toList])
        (showActivityLiveLog.availWidth
          (bufferedUi (fixedFont 6) 128 64 ["one".toList, "two\nthree".toList, "four".toList])) 4
        = showActivityLiveLog.drawEntries
            (bufferedUi (fixedFont 6) 128 64 ["one".toList, "two\nthree".toList, "four".toList])
            (showActivityLiveLog.availWidth
              (bufferedUi (fixedFont 6) 128 64 ["one".toList, "two\nthree".toList, "four".toList]))
            ((bufferedUi (fixedFont 6) 128 64 ["one".toList, "two\nthree".toList, "four".toList]).logLines.drop
              (showActivityLiveLog.firstDrawn counts 4
                (bufferedUi (fixedFont 6) 128 64 ["one".toList, "two\nthree".toList, "four".toList]).logLines.length)) ∧
      showActivityLiveLog.startIndex counts 4
          (bufferedUi (fixedFont 6) 128 64 ["one".toList, "two\nthree".toList, "four".toList]).logLines.length
        = toInt16 (showActivityLiveLog.firstDrawn counts 4
          (bufferedUi (fixedFont 6) 128 64 ["one".toList, "two\nthree".toList, "four".toList]).logLines.length : Int) ∧
      ((bufferedUi (fixedFont 6) 128 64 ["one".toList, "two\nthree".toList, "four".toList]).logLines.length < 32768 →
        showActivityLiveLog.startIndex counts 4
            (bufferedUi (fixedFont 6) 128 64 ["one".toList, "two\nthree".toList, "four".toList]).logLines.length
          = (showActivityLiveLog.firstDrawn counts 4
            (bufferedUi (fixedFont 6) 128 64 ["one".toList, "two\nthree".toList, "four".toList]).logLines.length : Int)) ∧
      showActivityLiveLog.firstDrawn counts 4
          (bufferedUi (fixedFont 6) 128 64 ["one".toList, "two\nthree".toList, "four".toList]).logLines.length
        ≤ (bufferedUi (fixedFont 6) 128 64 ["one".toList, "two\nthree".toList, "four".toList]).logLines.length ∧
      (counts.drop (showActivityLiveLog.firstDrawn counts 4
        (bufferedUi (fixedFont 6) 128 64 ["one".toList, "two\nthree".toList, "four".toList]).logLines.length)).sum ≤ 4 ∧
      (∀ j, j < showActivityLiveLog.firstDrawn counts 4
          (bufferedUi (fixedFont 6) 128 64 ["one".toList, "two\nthree".toList, "four".toList]).logLines.length →
        4 < (counts.drop j).sum) :=
  ⟨by decide, by decide, by decide, by decide, by decide,
    (log_start_boundary
      (bufferedUi (fixedFont 6) 128 64 ["one".toList, "two\nthree".toList, "four".toList])
      4 rfl rfl (by decide) (by decide) (by decide)).2⟩

/-- C11 as stated fails in two ways.  On a 128 x 32 display with fonts 22 px
high, `contentHeight` is 4 and the `uint16_t logWindowHeight = 4 - 22 - 2` is
65516, so `visibleLineCount` is the `uint8_t` value 215 of 65514 / 26 = 2519 and
not `max(1, 2519)`.  With 32769 one-line entries in the buffer,
`(int16_t)totalLines` is -32767 and the initial index `(int16_t)totalLines - 1`
of the walk is -32768: the walk does not run and `startIndex` stays 0, so the
counts of the entries `0..end` sum to 32769, far above the `visibleLineCount`
4. -/
theorem log_start_boundary_counterexample :
    (showActivityLiveLog.logWindowHeight (boundUi (fixedFontOfHeight 6 22) 128 32) = 65516 ∧
      showActivityLiveLog.lineHeight (boundUi (fixedFontOfHeight 6 22) 128 32) = some 26 ∧
      showActivityLiveLog.visibleLineCount (boundUi (fixedFontOfHeight 6 22) 128 32)
        = some 215 ∧
      215 ≠ max 1 ((65516 - 2 * optionPadding) / 26)) ∧
    (showActivityLiveLog.visibleLineCount
        (bufferedUi (fixedFont 6) 128 64 (List.replicate 32769 "a".toList)) = some 4 ∧
      showActivityLiveLog.lineDisplayCounts
        (bufferedUi (fixedFont 6) 128 64 (List.replicate 32769 "a".toList))
        (showActivityLiveLog.availWidth
          (bufferedUi (fixedFont 6) 128 64 (List.replicate 32769 "a".toList)))
        (bufferedUi (fixedFont 6) 128 64 (List.replicate 32769 "a".toList)).logLines
        = some (List.replicate 32769 1) ∧
      showActivityLiveLog.walkStart 32769 = -32768 ∧
      showActivityLiveLog.startIndex (List.replicate 32769 1) 4
        (bufferedUi (fixedFont 6) 128 64 (List.replicate 32769 "a".toList)).logLines.length
        = 0 ∧
      showActivityLiveLog.firstDrawn (List.replicate 32769 1) 4
        (bufferedUi (fixedFont 6) 128 64 (List.replicate 32769 "a".toList)).logLines.length
        = 0 ∧
      ¬ ((List.replicate 32769 1).drop 0).sum ≤ 4) := by
  have hl : (bufferedUi (fixedFont 6) 128 64
      (List.replicate 32769 "a".toList)).logLines.length = 32769 :=
    List.length_replicate _ _
  have hs : showActivityLiveLog.startIndex (List.replicate 32769 1) 4 32769 = 0 := by
    unfold showActivityLiveLog.startIndex
    rw [if_pos (by decide)]
  refine ⟨by decide, by decide, ?_, by decide, ?_, ?_, ?_⟩
  · have h := lineDisplayCounts_mod
      (bufferedUi (fixedFont 6) 128 64 (List.replicate 32769 "a".toList))
        (showActivityLiveLog.availWidth
          (bufferedUi (fixedFont 6) 128 64 (List.replicate 32769 "a".toList)))
      (List.replicate 32769 "a".toList)
      (fun e he => by rw [List.eq_of_mem_replicate he]; decide)
    have h1 : (showActivityLiveLog.entryLines
        (bufferedUi (fixedFont 6) 128 64 (List.replicate 32769 "a".toList))
        (showActivityLiveLog.availWidth
          (bufferedUi (fixedFont 6) 128 64 (List.replicate 32769 "a".toList)))
        "a".toList).length % 256 = 1 := by decide
    rw [List.map_replicate, h1] at h
    exact h
  · rw [hl]
    exact hs
  · rw [hl]
    unfold showActivityLiveLog.firstDrawn
    rw [hs]
    rfl
  · rw [List.drop_zero, List.sum_replicate]
    decide

/-! ## Claims on `strWidth` -/

theorem toInt16_range (x : Int) : -32768 ≤ toInt16 x ∧ toInt16 x ≤ 32767 := by
  unfold toInt16; omega

theorem foldl_strWidthStep (font : GFXfont) (size : Nat) :
    ∀ (str : List Char) (acc : Int), -32768 ≤ acc → acc ≤ 32767 →
      str.foldl (strWidthStep font size) acc = toInt16 (acc + (refWidth font size str : Int)) := by
  intro str
  induction str with
  | nil =>
    intro acc h1 h2
    simp only [List.foldl_nil, refWidth, List.map_nil, List.sum_nil]
    unfold toInt16; omega
  | cons c t ih =>
    intro acc h1 h2
    have hsum : refWidth font size (c :: t) = charAdvance font size c + refWidth font size t := by
      simp only [refWidth, List.map_cons, List.sum_cons]
    rw [List.foldl_cons, hsum]
    by_cases hout : c.toNat < font.first ∨ c.toNat > font.last
    · have hstep : strWidthStep font size acc c = acc := by
        unfold strWidthStep; rw [if_pos hout]
      have hadv : charAdvance font size c = 0 := by
        unfold charAdvance; rw [if_pos hout]
      rw [hstep, hadv, ih acc h1 h2, Nat.zero_add]
    · have hstep : strWidthStep font size acc c
          = toInt16 (acc + ((font.xAdvance (c.toNat - font.first) * size : Nat) : Int)) := by
        unfold strWidthStep; rw [if_neg hout]
      have hadv : charAdvance font size c = font.xAdvance (c.toNat - font.first) * size := by
        unfold charAdvance; rw [if_neg hout]
      have hr := toInt16_range (acc + ((font.xAdvance (c.toNat - font.first) * size : Nat) : Int))
      rw [hstep, hadv, ih _ hr.1 hr.2]
      generalize font.xAdvance (c.toNat - font.first) * size = a
      generalize refWidth font size t = r
      unfold toInt16
      push_cast
      omega

/-- With a display bound, `strWidth` is the sum of the advances stored in an
`int16_t`. -/
theorem strWidth_eq_toInt16 (s : Ui) (str : List Char) (font : GFXfont) (size : Nat)
    (hgfx : s.gfx = true) :
    strWidth s str (some font) size = toInt16 (refWidth font size str : Int) := by
  unfold strWidth
  rw [if_neg (by simp [hgfx])]
  simp only []
  rw [foldl_strWidthStep font size str 0 (by omega) (by omega), Int.zero_add]

theorem strWidth_range (s : Ui) (str : List Char) (font : Option GFXfont) (size : Nat) :
    -32768 ≤ strWidth s str font size ∧ strWidth s str font size ≤ 32767 := by
  by_cases hgfx : s.gfx = true
  · cases font with
    | none =>
      have h : strWidth s str none size = 0 := by
        unfold strWidth; rw [if_neg (by simp [hgfx])]
      rw [h]; omega
    | some f =>
      rw [strWidth_eq_toInt16 s str f size hgfx]
      exact toInt16_range _
  · have h : strWidth s str font size = 0 := by
      unfold strWidth; rw [if_pos (by simpa using hgfx)]
    rw [h]; omega

theorem refWidth_append (font : GFXfont) (size : Nat) (a b : List Char) :
    refWidth font size (a ++ b) = refWidth font size a + refWidth font size b := by
  simp only [refWidth, List.map_append, List.sum_append]

/-- C15, as amended: with a display and a font bound, `strWidth(str, font,
size)` is the sum over the characters of `str` of `xAdvance(c) * size` for the
characters within `[font.first, font.last]` (the others contributing 0), stored
in an `int16_t`; it equals that sum whenever the sum is at most 32767.  The
width of the empty string is 0, and inserting a character outside the range
does not change the width. -/
theorem strWidth_is_sum_of_advances (s : Ui) (font : GFXfont) (size : Nat)
    (str pre post : List Char) (c : Char) (hgfx : s.gfx = true) :
    strWidth s str (some font) size = toInt16 (refWidth font size str : Int) ∧
    (refWidth font size str ≤ 32767 →
      strWidth s str (some font) size = (refWidth font size str : Int)) ∧
    strWidth s [] (some font) size = 0 ∧
    (c.toNat < font.first ∨ c.toNat > font.last →
      strWidth s (pre ++ c :: post) (some font) size
        = strWidth s (pre ++ post) (some font) size) := by
  refine ⟨strWidth_eq_toInt16 s str font size hgfx, ?_, ?_, ?_⟩
  · intro h
    rw [strWidth_eq_toInt16 s str font size hgfx]
    unfold toInt16; omega
  · rw [strWidth_eq_toInt16 s [] font size hgfx]
    simp only [refWidth, List.map_nil, List.sum_nil]
    unfold toInt16; omega
  · intro hout
    rw [strWidth_eq_toInt16 s _ font size hgfx, strWidth_eq_toInt16 s _ font size hgfx,
      refWidth_append, refWidth_append]
    have hc : refWidth font size (c :: post) = refWidth font size post := by
      simp only [refWidth, List.map_cons, List.sum_cons, charAdvance, if_pos hout,
        Nat.zero_add]
    rw [hc]

theorem strWidth_is_sum_of_advances_witness :
    strWidth (boundUi (fixedFont 6) 128 64) "h\tllo".toList (some (fixedFont 6)) 1
      = toInt16 (refWidth (fixedFont 6) 1 "h\tllo".toList : Int) ∧
    (refWidth (fixedFont 6) 1 "h\tllo".toList ≤ 32767 →
      strWidth (boundUi (fixedFont 6) 128 64) "h\tllo".toList (some (fixedFont 6)) 1
        = (refWidth (fixedFont 6) 1 "h\tllo".toList : Int)) ∧
    strWidth (boundUi (fixedFont 6) 128 64) [] (some (fixedFont 6)) 1 = 0 ∧
    (('\t' : Char).toNat < (fixedFont 6).first ∨ ('\t' : Char).toNat > (fixedFont 6).last →
      strWidth (boundUi (fixedFont 6) 128 64) ("h".toList ++ '\t' :: "llo".toList)
          (some (fixedFont 6)) 1
        = strWidth (boundUi (fixedFont 6) 128 64) ("h".toList ++ "llo".toList)
          (some (fixedFont 6)) 1) :=
  strWidth_is_sum_of_advances (boundUi (fixedFont 6) 128 64) (fixedFont 6) 1
    "h\tllo".toList "h".toList "llo".toList '\t' rfl

/-- C15 as stated fails when the sum does not fit an `int16_t`: with an advance
of 200 at size 100 the two characters of "aa" add up to 40000, and `strWidth`
returns -25536. -/
theorem strWidth_is_sum_of_advances_counterexample :
    refWidth (fixedFont 200) 100 "aa".toList = 40000 ∧
    strWidth (sizedUi (fixedFont 200) 100 128 64) "aa".toList (some (fixedFont 200)) 100
      = -25536 := by
  decide

/-! ## The no-space fallback of `findWrapPoint` -/

theorem substring_eq_of_length_le (str : List Char) (l r r2 : Nat) (hl : l ≤ r)
    (hr : str.length ≤ r) (hr2 : r ≤ r2) :
    substring str l r2 = substring str l r := by
  unfold substring
  rw [max_eq_right hl, max_eq_right (le_trans hl hr2), min_eq_left hl,
    min_eq_left (le_trans hl hr2), List.take_of_length_le hr,
    List.take_of_length_le (le_trans hr hr2)]

theorem substring_replicate (c : Char) (n l r : Nat) :
    substring (List.replicate n c) l r = List.replicate (min (max l r) n - min l r) c := by
  unfold substring
  rw [List.take_replicate, List.drop_replicate]

theorem refWidth_replicate (font : GFXfont) (size : Nat) (c : Char) (n : Nat) :
    refWidth font size (List.replicate n c) = n * charAdvance font size c := by
  unfold refWidth
  rw [List.map_replicate, List.sum_replicate, smul_eq_mul]

theorem charAt_replicate (c : Char) (n i : Nat) (h : i < n) :
    charAt (List.replicate n c) i = c := by
  unfold charAt
  rw [List.getD_eq_getElem?_getD, List.getElem?_replicate, if_pos h]
  rfl

theorem strWidth_replicate_a (n : Nat) :
    strWidth (sizedUi (fixedFont 100) 100 128 64) (List.replicate n 'a')
      (sizedUi (fixedFont 100) 100 128 64).contentFont
      (sizedUi (fixedFont 100) 100 128 64).contentSize
      = toInt16 ((n * 10000 : Nat) : Int) := by
  show strWidth _ _ (some (fixedFont 100)) 100 = _
  rw [strWidth_eq_toInt16 _ _ _ _ rfl, refWidth_replicate]
  rfl

theorem findWrapLoop_wraps (fuel : Nat) :
    findWrapLoop (sizedUi (fixedFont 100) 100 128 64) (List.replicate 65537 'a') 65534 20000
      (fuel + 4) 65534 (-1) = some 1 := by
  have hsp : ¬ 'a' = ' ' := by decide
  have e1 : toUInt16 (((65534 : Nat) : Int) + 1) = 65535 := by decide
  have e2 : toUInt16 (((65535 : Nat) : Int) + 1) = 0 := by decide
  have e3 : toUInt16 (((0 : Nat) : Int) + 1) = 1 := by decide
  rw [findWrapLoop, List.length_replicate, if_pos (by decide), substring_replicate,
    strWidth_replicate_a, if_neg (by decide), charAt_replicate _ _ _ (by decide),
    if_neg hsp, e1]
  rw [findWrapLoop, List.length_replicate, if_pos (by decide), substring_replicate,
    strWidth_replicate_a, if_neg (by decide), charAt_replicate _ _ _ (by decide),
    if_neg hsp, e2]
  rw [findWrapLoop, List.length_replicate, if_pos (by decide), substring_replicate,
    strWidth_replicate_a, if_neg (by decide), charAt_replicate _ _ _ (by decide),
    if_neg hsp, e3]
  rw [findWrapLoop, List.length_replicate, if_pos (by decide), substring_replicate,
    strWidth_replicate_a, if_pos (by decide), if_neg (by decide), if_neg (by decide)]

/-- C5, as amended: for every text with no space at the positions `startIdx ≤ i
< startIdx + k`, with `k ≥ 1` and `startIdx + k < 65536` (the scan index `endIdx`
is a `uint16_t`), if every run of 1 to `k` characters from `startIdx` is measured
by `strWidth` not wider than `maxWidth` and the run of `k + 1` characters is
measured wider, `findWrapPoint` returns `k`. -/
theorem findWrapPoint_no_space (s : Ui) (str : List Char) (startIdx maxWidth k : Nat)
    (hk : 1 ≤ k) (h16 : startIdx + k < 65536)
    (hnosp : ∀ i, startIdx ≤ i → i < startIdx + k → charAt str i ≠ ' ')
    (hfit : ∀ j, 1 ≤ j → j ≤ k →
      strWidth s (substring str startIdx (startIdx + j)) s.contentFont s.contentSize
        ≤ (maxWidth : Int))
    (hnot : (maxWidth : Int) <
      strWidth s (substring str startIdx (startIdx + (k + 1))) s.contentFont s.contentSize) :
    findWrapPoint s str startIdx maxWidth = some k := by
  have hend : startIdx + k < str.length := by
    by_contra hge
    have hsub := substring_eq_of_length_le str startIdx (startIdx + k) (startIdx + (k + 1))
      (by omega) (by omega) (by omega)
    rw [hsub] at hnot
    have hk2 := hfit k hk (le_refl _)
    omega
  unfold findWrapPoint
  rw [if_neg (by omega)]
  exact findWrapLoop_no_space s str startIdx maxWidth k hk hend h16 hnosp hfit
    (not_le.mpr hnot) k (str.length + 1) startIdx (-1) rfl (le_refl _) (by omega) (by omega)

theorem findWrapPoint_no_space_witness :
    findWrapPoint (boundUi (fixedFont 6) 128 64) "abcdefgh".toList 0 24 = some 4 :=
  findWrapPoint_no_space (boundUi (fixedFont 6) 128 64) "abcdefgh".toList 0 24 4
    (by decide) (by decide)
    (fun i _ h => by
      have h4 : i < 4 := by omega
      interval_cases i <;> decide)
    (fun j h1 h2 => by
      interval_cases j <;> decide)
    (by decide)

/-- C5 as stated fails when widths wrap around in `int16_t`.  With an advance
of 100 at size 200 and `maxWidth = 100`, the 3 characters "aaa" fit (their
width 60000 is stored as -5536) and the 4 characters "aaaa" do not (80000 is
stored as 14464), but "a" alone (20000) is too wide, so `findWrapPoint` returns
1 and not 3.  It also fails when the scan index `endIdx`, a `uint16_t`, wraps
around: in a text of 65537 characters 'a' (10000 px each) with `startIdx = 65534`
and `maxWidth = 20000`, the runs of 1 and 2 characters fit and the run of 3 does
not, but after the second character `endIdx` is 0, the chunk
`substring(65534, 1)` of 65533 characters measures -30000 and fits, the chunk
`substring(65534, 2)` measures 25536, and `findWrapPoint` returns 1 and not 2. -/
theorem findWrapPoint_no_space_counterexample :
    (strWidth (sizedUi (fixedFont 100) 200 128 64)
        (substring "aaaaaa".toList 0 3) (some (fixedFont 100)) 200 ≤ 100 ∧
      100 < strWidth (sizedUi (fixedFont 100) 200 128 64)
        (substring "aaaaaa".toList 0 4) (some (fixedFont 100)) 200 ∧
      findWrapPoint (sizedUi (fixedFont 100) 200 128 64) "aaaaaa".toList 0 100 = some 1) ∧
    (strWidth (sizedUi (fixedFont 100) 100 128 64)
        (substring (List.replicate 65537 'a') 65534 (65534 + 1))
        (sizedUi (fixedFont 100) 100 128 64).contentFont
        (sizedUi (fixedFont 100) 100 128 64).contentSize = 10000 ∧
      strWidth (sizedUi (fixedFont 100) 100 128 64)
        (substring (List.replicate 65537 'a') 65534 (65534 + 2))
        (sizedUi (fixedFont 100) 100 128 64).contentFont
        (sizedUi (fixedFont 100) 100 128 64).contentSize = 20000 ∧
      strWidth (sizedUi (fixedFont 100) 100 128 64)
        (substring (List.replicate 65537 'a') 65534 (65534 + 3))
        (sizedUi (fixedFont 100) 100 128 64).contentFont
        (sizedUi (fixedFont 100) 100 128 64).contentSize = 30000 ∧
      (∀ i, charAt (List.replicate 65537 'a') i ≠ ' ') ∧
      findWrapPoint (sizedUi (fixedFont 100) 100 128 64) (List.replicate 65537 'a')
        65534 20000 = some 1) := by
  refine ⟨by decide, ?_, ?_, ?_, ?_, ?_⟩
  · rw [substring_replicate, strWidth_replicate_a]
    decide
  · rw [substring_replicate, strWidth_replicate_a]
    decide
  · rw [substring_replicate, strWidth_replicate_a]
    decide
  · intro i
    unfold charAt
    rw [List.getD_eq_getElem?_getD, List.getElem?_replicate]
    split_ifs <;> decide
  · unfold findWrapPoint
    rw [List.length_replicate, if_neg (by decide)]
    exact findWrapLoop_wraps 65534

/-! ## Claims on the result of `findWrapPoint` -/

theorem refWidth_zero_font (size : Nat) (str : List Char) :
    refWidth (fixedFont 0) size str = 0 := by
  induction str with
  | nil => rfl
  | cons c t ih =>
    have hc : charAdvance (fixedFont 0) size c = 0 := by
      unfold charAdvance fixedFont
      split_ifs
      · rfl
      · exact Nat.zero_mul size
    simp only [refWidth, List.map_cons, List.sum_cons] at ih ⊢
    rw [hc, ih]

theorem strWidth_zero_font (width height : Nat) (str : List Char) :
    strWidth (boundUi (fixedFont 0) width height) str
      (boundUi (fixedFont 0) width height).contentFont
      (boundUi (fixedFont 0) width height).contentSize = 0 := by
  have h := strWidth_eq_toInt16 (boundUi (fixedFont 0) width height) str (fixedFont 0) 1 rfl
  rw [refWidth_zero_font] at h
  exact h.trans (by unfold toInt16; omega)

/-- In a text of 65536 characters or more in which no chunk is measured wider
than `maxWidth`, the loop of `findWrapPoint` never returns: `endIdx` is a
`uint16_t` and stays below the length. -/
theorem findWrapLoop_never_returns (s : Ui) (str : List Char) (startIdx maxWidth : Nat)
    (hlen : 65536 ≤ str.length)
    (hall : ∀ a b, strWidth s (substring str a b) s.contentFont s.contentSize
      ≤ (maxWidth : Int)) :
    ∀ (fuel endIdx : Nat) (lsi : Int), endIdx < 65536 →
      findWrapLoop s str startIdx maxWidth fuel endIdx lsi = none := by
  intro fuel
  induction fuel with
  | zero => intro endIdx lsi _; rfl
  | succ fuel ih =>
    intro endIdx lsi he
    rw [findWrapLoop, if_pos (by omega), if_neg (not_lt.mpr (hall _ _))]
    exact ih _ _ (by unfold toUInt16; omega)

/-- C18, as amended: in a text of fewer than 65536 characters, `findWrapPoint`
returns 0 if and only if `startIdx` is not below the length of the text, and for
every `startIdx` below the length and every `maxWidth` it returns a result `r`
with `1 ≤ r ≤ length - startIdx`. -/
theorem findWrapPoint_progress (s : Ui) (str : List Char) (startIdx maxWidth : Nat)
    (hlen : str.length < 65536) :
    (findWrapPoint s str startIdx maxWidth = some 0 ↔ startIdx ≥ str.length) ∧
    (startIdx < str.length →
      ∃ r, findWrapPoint s str startIdx maxWidth = some r ∧ 1 ≤ r ∧
        r ≤ str.length - startIdx) := by
  constructor
  · constructor
    · intro h0
      by_contra hlt
      obtain ⟨r, hr, h1, _⟩ := findWrapPoint_spec s str startIdx maxWidth hlen (by omega)
      rw [hr] at h0
      cases h0
      omega
    · intro hge
      unfold findWrapPoint
      rw [if_pos hge]
  · intro hlt
    obtain ⟨r, hr, h1, h2, _⟩ := findWrapPoint_spec s str startIdx maxWidth hlen hlt
    exact ⟨r, hr, h1, by omega⟩

theorem findWrapPoint_progress_witness :
    (findWrapPoint (boundUi (fixedFont 6) 128 64) "abcdefgh".toList 3 0 = some 0
        ↔ 3 ≥ "abcdefgh".toList.length) ∧
    (3 < "abcdefgh".toList.length →
      ∃ r, findWrapPoint (boundUi (fixedFont 6) 128 64) "abcdefgh".toList 3 0 = some r ∧
        1 ≤ r ∧ r ≤ "abcdefgh".toList.length - 3) :=
  findWrapPoint_progress (boundUi (fixedFont 6) 128 64) "abcdefgh".toList 3 0 (by decide)

/-- C18 as stated fails on a text of 65536 characters: with a font whose
advances are all 0 every chunk fits `maxWidth = 0`, `endIdx` goes from 65535
back to 0 and never reaches the length, so `findWrapPoint(text, 0, 0)` does not
return, whatever the number of turns. -/
theorem findWrapPoint_progress_counterexample :
    0 < (List.replicate 65536 'a').length ∧
    findWrapPoint (boundUi (fixedFont 0) 128 64) (List.replicate 65536 'a') 0 0 = none ∧
    ¬ ∃ fuel r, findWrapLoop (boundUi (fixedFont 0) 128 64) (List.replicate 65536 'a') 0 0
        fuel 0 (-1) = some r := by
  have hnever := findWrapLoop_never_returns (boundUi (fixedFont 0) 128 64)
    (List.replicate 65536 'a') 0 0 (by rw [List.length_replicate])
    (fun a b => by rw [strWidth_zero_font]; decide)
  refine ⟨by rw [List.length_replicate]; decide, ?_, ?_⟩
  · unfold findWrapPoint
    rw [if_neg (by rw [List.length_replicate]; decide)]
    exact hnever _ 0 (-1) (by decide)
  · rintro ⟨fuel, r, h⟩
    rw [hnever fuel 0 (-1) (by decide)] at h
    cases h

theorem findWrapLoop_all_fit (s : Ui) (str : List Char) (startIdx maxWidth : Nat)
    (hlen : str.length < 65536)
    (hfit : ∀ k, 1 ≤ k → startIdx + k ≤ str.length →
      strWidth s (substring str startIdx (startIdx + k)) s.contentFont s.contentSize
        ≤ (maxWidth : Int)) :
    ∀ (d fuel endIdx : Nat) (lsi : Int), endIdx + d = str.length → startIdx ≤ endIdx →
      d < fuel →
      findWrapLoop s str startIdx maxWidth fuel endIdx lsi
        = some (str.length - startIdx) := by
  intro d
  induction d with
  | zero =>
    intro fuel endIdx lsi he hse hf
    obtain ⟨fuel, rfl⟩ : ∃ m, fuel = m + 1 := ⟨fuel - 1, by omega⟩
    rw [findWrapLoop, if_neg (by omega), toUInt16_sub _ _ hse (by omega)]
    congr 1; omega
  | succ d ih =>
    intro fuel endIdx lsi he hse hf
    obtain ⟨fuel, rfl⟩ : ∃ m, fuel = m + 1 := ⟨fuel - 1, by omega⟩
    have h1 := hfit (endIdx + 1 - startIdx) (by omega) (by omega)
    have hidx : startIdx + (endIdx + 1 - startIdx) = endIdx + 1 := by omega
    rw [hidx] at h1
    rw [findWrapLoop_fit s str startIdx maxWidth fuel endIdx lsi (by omega) (by omega) h1]
    exact ih fuel (endIdx + 1) _ (by omega) (by omega) (by omega)

theorem refWidth_take_le (font : GFXfont) (size : Nat) (str : List Char) (k : Nat) :
    refWidth font size (str.take k) ≤ refWidth font size str := by
  conv_rhs => rw [← List.take_append_drop k str, refWidth_append]
  omega

theorem substring_eq_take_drop (str : List Char) (a k : Nat) :
    substring str a (a + k) = (str.drop a).take k := by
  rw [substring_of_le str a (a + k) (by omega), List.take_drop]

/-- C20, as amended: in a text of fewer than 65536 characters, if the whole
remainder from `startIdx` fits within `maxWidth` (the sum of its advances is at
most `maxWidth`), `findWrapPoint` returns `length - startIdx`, the entire
remainder, wherever its spaces are, a trailing space included.  More generally
it does so whenever every chunk that starts at `startIdx` (the remainder and
each of its prefixes) is measured not wider than `maxWidth`. -/
theorem findWrapPoint_whole_remainder (s : Ui) (str : List Char) (startIdx maxWidth : Nat)
    (hlen : str.length < 65536) (hstart : startIdx < str.length) :
    ((∀ k, 1 ≤ k → startIdx + k ≤ str.length →
        strWidth s (substring str startIdx (startIdx + k)) s.contentFont s.contentSize
          ≤ (maxWidth : Int)) →
      findWrapPoint s str startIdx maxWidth = some (str.length - startIdx)) ∧
    (∀ font, s.gfx = true → s.contentFont = some font →
      refWidth font s.contentSize (str.drop startIdx) ≤ maxWidth →
      findWrapPoint s str startIdx maxWidth = some (str.length - startIdx)) := by
  have hmain : (∀ k, 1 ≤ k → startIdx + k ≤ str.length →
        strWidth s (substring str startIdx (startIdx + k)) s.contentFont s.contentSize
          ≤ (maxWidth : Int)) →
      findWrapPoint s str startIdx maxWidth = some (str.length - startIdx) := by
    intro hfit
    unfold findWrapPoint
    rw [if_neg (by omega)]
    exact findWrapLoop_all_fit s str startIdx maxWidth hlen hfit (str.length - startIdx)
      (str.length + 1) startIdx (-1) (by omega) (le_refl _) (by omega)
  refine ⟨hmain, ?_⟩
  intro font hgfx hfont hsum
  apply hmain
  intro k _ _
  rw [hfont, strWidth_eq_toInt16 s _ font _ hgfx, substring_eq_take_drop]
  have hle := refWidth_take_le font s.contentSize (str.drop startIdx) k
  unfold toInt16
  omega

theorem findWrapPoint_whole_remainder_witness :
    ("a b c ".toList.length < 65536 ∧ 2 < "a b c ".toList.length ∧
      refWidth (fixedFont 6) 1 ("a b c ".toList.drop 2) ≤ 24) ∧
    findWrapPoint (boundUi (fixedFont 6) 128 64) "a b c ".toList 2 24 = some 4 :=
  ⟨by decide,
    (findWrapPoint_whole_remainder (boundUi (fixedFont 6) 128 64) "a b c ".toList 2 24
      (by decide) (by decide)).2 (fixedFont 6) rfl rfl (by decide)⟩

/-- C20 as stated fails on a text of 65536 characters: with a font whose
advances are all 0 the whole text is 0 px wide and fits `maxWidth = 0`, yet
`findWrapPoint(text, 0, 0)` does not return the length: its `uint16_t endIdx`
wraps from 65535 to 0, stays below the length, and the loop never ends. -/
theorem findWrapPoint_whole_remainder_counterexample :
    refWidth (fixedFont 0) 1 (List.replicate 65536 'a') ≤ 0 ∧
    strWidth (boundUi (fixedFont 0) 128 64) (List.replicate 65536 'a')
      (boundUi (fixedFont 0) 128 64).contentFont (boundUi (fixedFont 0) 128 64).contentSize
      ≤ 0 ∧
    (∀ fuel, findWrapLoop (boundUi (fixedFont 0) 128 64) (List.replicate 65536 'a') 0 0
      fuel 0 (-1) = none) ∧
    findWrapPoint (boundUi (fixedFont 0) 128 64) (List.replicate 65536 'a') 0 0
      ≠ some ((List.replicate 65536 'a').length - 0) := by
  have hnever := findWrapLoop_never_returns (boundUi (fixedFont 0) 128 64)
    (List.replicate 65536 'a') 0 0 (by rw [List.length_replicate])
    (fun a b => by rw [strWidth_zero_font]; decide)
  refine ⟨?_, ?_, fun fuel => hnever fuel 0 (-1) (by decide), ?_⟩
  · rw [refWidth_zero_font]
  · rw [strWidth_zero_font]
  · unfold findWrapPoint
    rw [if_neg (by rw [List.length_replicate]; decide), hnever _ 0 (-1) (by decide)]
    exact fun h => Option.noConfusion h

/-! ## Claims on the confirmation dialog -/

theorem effectiveCount_cases (numOptions : Nat) :
    showConfirm.effectiveCount numOptions = 1 ∨ showConfirm.effectiveCount numOptions = 2 ∨
      showConfirm.effectiveCount numOptions = 3 := by
  unfold showConfirm.effectiveCount
  split_ifs <;> omega

theorem twoTopOneBottom_count (s : Ui) (options : List (List Char)) (n : Nat)
    (h : showConfirm.twoTopOneBottom s options n = true) : n = 3 := by
  unfold showConfirm.twoTopOneBottom at h
  simp only [Bool.and_eq_true, decide_eq_true_eq] at h
  exact h.1.2

theorem confirm_widths (s : Ui) (options : List (List Char))
    (hnonneg : ∀ i, i < 3 → 0 ≤ showConfirm.labelWidth s options i)
    (hsum : showConfirm.labelWidth s options 0 + showConfirm.labelWidth s options 1
      + showConfirm.labelWidth s options 2 + 14 ≤ 32767) :
    (∀ i, i < 3 → showConfirm.btnWidth s options i = showConfirm.labelWidth s options i + 4) ∧
    showConfirm.totalWidthWithSpacing s options 3
      = showConfirm.labelWidth s options 0 + showConfirm.labelWidth s options 1
        + showConfirm.labelWidth s options 2 + 14 ∧
    showConfirm.topTwoWidth s options
      = showConfirm.labelWidth s options 0 + showConfirm.labelWidth s options 1 + 9 := by
  have h0 := hnonneg 0 (by omega)
  have h1 := hnonneg 1 (by omega)
  have h2 := hnonneg 2 (by omega)
  have hb : ∀ i, i < 3 →
      showConfirm.btnWidth s options i = showConfirm.labelWidth s options i + 4 := by
    intro i hi
    have hi0 := hnonneg i hi
    have hile : showConfirm.labelWidth s options i ≤ 32753 := by
      have : i = 0 ∨ i = 1 ∨ i = 2 := by omega
      rcases this with h | h | h <;> subst h <;> omega
    unfold showConfirm.btnWidth toInt16 optionPadding
    omega
  refine ⟨hb, ?_, ?_⟩
  · unfold showConfirm.totalWidthWithSpacing
    simp only [showConfirm.totalWidth]
    rw [hb 0 (by omega), hb 1 (by omega), hb 2 (by omega)]
    unfold toInt16 optionPadding
    push_cast
    omega
  · unfold showConfirm.topTwoWidth
    rw [hb 0 (by omega), hb 1 (by omega)]
    unfold toInt16 optionPadding
    push_cast
    omega

/-- C12, as amended: in `showConfirm`, the two labels "Yes" and "No" at ample
width (6 px per character on a display 128 px wide) get the horizontal layout.
For every 3 labels of non-negative widths whose buttons and spacing add up to at
most 32767 px: if no two of the buttons fit in one row, the vertical stack is
chosen; and if the three do not fit in one row but the first two (buttons 0 and
1) fit a row together and the third (button 2) fits alone, the two-plus-one
layout is chosen.  A button is 4 px wider than its label and two buttons in a
row are 1 px apart. -/
theorem confirm_layout_selection (s : Ui) (options : List (List Char))
    (hnonneg : ∀ i, i < 3 → 0 ≤ showConfirm.labelWidth s options i)
    (hsum : showConfirm.labelWidth s options 0 + showConfirm.labelWidth s options 1
      + showConfirm.labelWidth s options 2 + 14 ≤ 32767) :
    showConfirm.layout (boundUi (fixedFont 6) 128 64) ["Yes".toList, "No".toList] 2
      = showConfirm.Layout.horizontal ∧
    ((∀ i j, i < j → j < 3 →
        showConfirm.availWidth s
          < (showConfirm.labelWidth s options i + 4) + 1
            + (showConfirm.labelWidth s options j + 4)) →
      showConfirm.layout s options 3 = showConfirm.Layout.vertical) ∧
    (showConfirm.availWidth s
        < (showConfirm.labelWidth s options 0 + 4) + 1
          + (showConfirm.labelWidth s options 1 + 4) + 1
          + (showConfirm.labelWidth s options 2 + 4) →
      (showConfirm.labelWidth s options 0 + 4) + 1 + (showConfirm.labelWidth s options 1 + 4)
        ≤ showConfirm.availWidth s →
      showConfirm.labelWidth s options 2 + 4 ≤ showConfirm.availWidth s →
      showConfirm.layout s options 3 = showConfirm.Layout.twoPlusOne) := by
  obtain ⟨hb, htot, htop⟩ := confirm_widths s options hnonneg hsum
  have h2 := hnonneg 2 (by omega)
  have hcount : showConfirm.effectiveCount 3 = 3 := by decide
  refine ⟨by decide, ?_, ?_⟩
  · intro hpair
    have h01 := hpair 0 1 (by omega) (by omega)
    unfold showConfirm.layout showConfirm.allHorizontal showConfirm.twoTopOneBottom
      showConfirm.allHorizontal
    rw [hcount, htot, htop]
    have hA : ¬ (showConfirm.labelWidth s options 0 + showConfirm.labelWidth s options 1
        + showConfirm.labelWidth s options 2 + 14 ≤ showConfirm.availWidth s) := by omega
    have hT : ¬ (showConfirm.labelWidth s options 0 + showConfirm.labelWidth s options 1 + 9
        ≤ showConfirm.availWidth s) := by omega
    simp [hA, hT]
  · intro hall htwo hthird
    unfold showConfirm.layout showConfirm.allHorizontal showConfirm.twoTopOneBottom
      showConfirm.allHorizontal
    rw [hcount, htot, htop, hb 2 (by omega)]
    have hA : ¬ (showConfirm.labelWidth s options 0 + showConfirm.labelWidth s options 1
        + showConfirm.labelWidth s options 2 + 14 ≤ showConfirm.availWidth s) := by omega
    have hT : showConfirm.labelWidth s options 0 + showConfirm.labelWidth s options 1 + 9
        ≤ showConfirm.availWidth s := by omega
    simp [hA, hT, hthird]

theorem confirm_layout_selection_witness :
    showConfirm.layout (boundUi (fixedFont 6) 128 64) ["Yes".toList, "No".toList] 2
      = showConfirm.Layout.horizontal ∧
    showConfirm.layout (boundUi (fixedFont 6) 70 64)
      ["Abort now".toList, "Try again".toList, "Ignore it".toList] 3
      = showConfirm.Layout.vertical ∧
    showConfirm.layout (boundUi (fixedFont 6) 70 64)
      ["Yes".toList, "No".toList, "Cancel".toList] 3 = showConfirm.Layout.twoPlusOne :=
  ⟨(confirm_layout_selection (boundUi (fixedFont 6) 70 64)
      ["Yes".toList, "No".toList, "Cancel".toList]
      (fun i hi => by interval_cases i <;> decide) (by decide)).1,
   (confirm_layout_selection (boundUi (fixedFont 6) 70 64)
      ["Abort now".toList, "Try again".toList, "Ignore it".toList]
      (fun i hi => by interval_cases i <;> decide) (by decide)).2.1
      (fun i j hij hj => by
        have hi : i < 3 := by omega
        interval_cases j <;> interval_cases i <;> first | omega | decide),
   (confirm_layout_selection (boundUi (fixedFont 6) 70 64)
      ["Yes".toList, "No".toList, "Cancel".toList]
      (fun i hi => by interval_cases i <;> decide) (by decide)).2.2
      (by decide) (by decide) (by decide)⟩

/-- C12 as stated fails when the two buttons that fit a row together are not
the first two.  With 6 px per character on a display 70 px wide (64 px for the
buttons), "Cancel", "Delete" and "OK" make buttons of 40, 40 and 16 px: the
three do not fit a row (98 px), "Delete" and "OK" fit a row together (57 px)
and "Cancel" fits alone, but "Cancel" and "Delete" (81 px) do not fit, and the
vertical stack is chosen. -/
theorem confirm_layout_selection_counterexample :
    showConfirm.availWidth (boundUi (fixedFont 6) 70 64) = 64 ∧
    showConfirm.btnWidth (boundUi (fixedFont 6) 70 64)
      ["Cancel".toList, "Delete".toList, "OK".toList] 0 = 40 ∧
    showConfirm.btnWidth (boundUi (fixedFont 6) 70 64)
      ["Cancel".toList, "Delete".toList, "OK".toList] 1 = 40 ∧
    showConfirm.btnWidth (boundUi (fixedFont 6) 70 64)
      ["Cancel".toList, "Delete".toList, "OK".toList] 2 = 16 ∧
    showConfirm.layout (boundUi (fixedFont 6) 70 64)
      ["Cancel".toList, "Delete".toList, "OK".toList] 3 = showConfirm.Layout.vertical := by
  decide

/-! ## Button geometry -/

theorem confirm_metrics (s : Ui)
    (hdw : s.displayWidth ≤ 32767) (hdh : 2 ≤ s.displayHeight)
    (hdh2 : s.displayHeight ≤ 32767) (htfh : s.titleFontHeight ≤ 255)
    (hcfh : s.contentFontHeight ≤ 255) :
    (showConfirm.contentBottom s : Int) = (s.displayHeight : Int) - 2 ∧
    showConfirm.buttonsBlockBottom s = (s.displayHeight : Int) - 3 ∧
    (showConfirm.buttonHeight s : Int) = (s.contentFontHeight : Int) + 2 ∧
    toInt16 (contentWidth s : Int) = (s.displayWidth : Int) - 4 ∧
    showConfirm.availWidth s = (s.displayWidth : Int) - 6 := by
  have hcb : (showConfirm.contentBottom s : Int) = (s.displayHeight : Int) - 2 := by
    unfold showConfirm.contentBottom contentTop contentHeight toUInt16 titleMargin
      contentBoxThickness
    omega
  have hcw : toInt16 (contentWidth s : Int) = (s.displayWidth : Int) - 4 := by
    unfold contentWidth toUInt16 toInt16 contentBoxThickness
    omega
  refine ⟨hcb, ?_, ?_, hcw, ?_⟩
  · unfold showConfirm.buttonsBlockBottom
    rw [hcb]
    unfold toInt16 optionPadding
    omega
  · unfold showConfirm.buttonHeight toUInt16 optionPadding
    omega
  · unfold showConfirm.availWidth
    rw [hcw]
    unfold toInt16 optionPadding
    omega

theorem sumOfWidths_mono (s : Ui) (options : List (List Char)) (n : Nat)
    (hnonneg : ∀ i, i < n → 0 ≤ showConfirm.labelWidth s options i) :
    ∀ m, m ≤ n → 0 ≤ showConfirm.sumOfWidths s options m ∧
      showConfirm.sumOfWidths s options m ≤ showConfirm.sumOfWidths s options n := by
  induction n with
  | zero =>
    intro m hm
    have : m = 0 := by omega
    subst this
    exact ⟨le_refl _, le_refl _⟩
  | succ n ih =>
    intro m hm
    have hn := hnonneg n (by omega)
    have hstep : showConfirm.sumOfWidths s options (n + 1)
        = showConfirm.sumOfWidths s options n + (showConfirm.labelWidth s options n + 4) := rfl
    have ih2 := ih (fun i hi => hnonneg i (by omega))
    by_cases hmn : m = n + 1
    · subst hmn
      have := ih2 n (le_refl _)
      omega
    · have := ih2 m (by omega)
      omega

theorem btnWidth_eq (s : Ui) (options : List (List Char)) (i : Nat)
    (h0 : 0 ≤ showConfirm.labelWidth s options i)
    (h1 : showConfirm.labelWidth s options i + 4 ≤ 32767) :
    showConfirm.btnWidth s options i = showConfirm.labelWidth s options i + 4 := by
  unfold showConfirm.btnWidth toInt16 optionPadding
  omega

theorem totalWidth_eq (s : Ui) (options : List (List Char)) (n : Nat)
    (hnonneg : ∀ i, i < n → 0 ≤ showConfirm.labelWidth s options i)
    (hsum : showConfirm.sumOfWidths s options n ≤ 32767) :
    (∀ i, i < n →
      showConfirm.btnWidth s options i = showConfirm.labelWidth s options i + 4) ∧
    ∀ m, m ≤ n → showConfirm.totalWidth s options m = showConfirm.sumOfWidths s options m := by
  have hmono := sumOfWidths_mono s options n hnonneg
  have hb : ∀ i, i < n →
      showConfirm.btnWidth s options i = showConfirm.labelWidth s options i + 4 := by
    intro i hi
    have h0 := hnonneg i hi
    have hs1 := hmono (i + 1) (by omega)
    have hs0 := hmono i (by omega)
    have hstep : showConfirm.sumOfWidths s options (i + 1)
        = showConfirm.sumOfWidths s options i + (showConfirm.labelWidth s options i + 4) := rfl
    exact btnWidth_eq s options i h0 (by omega)
  refine ⟨hb, ?_⟩
  intro m
  induction m with
  | zero => intro _; rfl
  | succ m ih =>
    intro hm
    have hs1 := hmono (m + 1) hm
    have hstep : showConfirm.sumOfWidths s options (m + 1)
        = showConfirm.sumOfWidths s options m + (showConfirm.labelWidth s options m + 4) := rfl
    rw [showConfirm.totalWidth, ih (by omega), hb m (by omega), hstep]
    rw [hstep] at hs1
    unfold toInt16
    omega

theorem pairwise_map_range {α : Type} (R : α → α → Prop) (f : Nat → α) (n : Nat)
    (h : ∀ i j, i < j → j < n → R (f i) (f j)) : ((List.range n).map f).Pairwise R := by
  rw [List.pairwise_map]
  exact (List.pairwise_lt_range n).imp_of_mem
    (fun _ hb hlt => h _ _ hlt (List.mem_range.1 hb))

theorem centredX_eq (s : Ui) (width : Int)
    (hdw : s.displayWidth ≤ 32767) (h0 : 0 ≤ width)
    (hfit : width ≤ showConfirm.availWidth s)
    (hcw : toInt16 (contentWidth s : Int) = (s.displayWidth : Int) - 4)
    (hav : showConfirm.availWidth s = (s.displayWidth : Int) - 6) :
    showConfirm.centredX s width = 2 + ((s.displayWidth : Int) - 4 - width) / 2 := by
  unfold showConfirm.centredX
  rw [hcw, Int.tdiv_eq_ediv (by omega) (by omega)]
  unfold toInt16 contentBoxThickness
  omega

theorem currentX_eq (s : Ui) (options : List (List Char)) (n : Nat)
    (hdw : s.displayWidth ≤ 32767) (hn : 1 ≤ n)
    (hnonneg : ∀ i, i < n → 0 ≤ showConfirm.labelWidth s options i)
    (hsum : showConfirm.sumOfWidths s options n + ((n : Int) - 1) ≤ 32767)
    (hfit : showConfirm.totalWidthWithSpacing s options n ≤ showConfirm.availWidth s)
    (hcw : toInt16 (contentWidth s : Int) = (s.displayWidth : Int) - 4)
    (hav : showConfirm.availWidth s = (s.displayWidth : Int) - 6) :
    ∀ i, i < n → showConfirm.currentX s options n i
      = 2 + ((s.displayWidth : Int) - 4 - (showConfirm.sumOfWidths s options n + ((n : Int) - 1))) / 2
        + showConfirm.sumOfWidths s options i + (i : Int) := by
  have htw := totalWidth_eq s options n hnonneg (by omega)
  have hmono := sumOfWidths_mono s options n hnonneg
  have hn0 := hmono n (le_refl _)
  have htws : showConfirm.totalWidthWithSpacing s options n
      = showConfirm.sumOfWidths s options n + ((n : Int) - 1) := by
    unfold showConfirm.totalWidthWithSpacing
    rw [htw.2 n (le_refl _)]
    unfold toInt16 optionPadding
    push_cast
    omega
  intro i
  induction i with
  | zero =>
    intro _
    rw [showConfirm.currentX, centredX_eq s _ hdw (by omega) hfit hcw hav, htws]
    simp only [showConfirm.sumOfWidths, Nat.cast_zero, add_zero]
  | succ i ih =>
    intro hi
    have h1 := hmono (i + 1) (by omega)
    have hstep : showConfirm.sumOfWidths s options (i + 1)
        = showConfirm.sumOfWidths s options i + (showConfirm.labelWidth s options i + 4) := rfl
    have hli := hnonneg i (by omega)
    have h0 := hmono i (by omega)
    rw [showConfirm.currentX, ih (by omega), htw.1 i (by omega), hstep]
    rw [htws, hav] at hfit
    rw [hstep] at h1
    unfold toInt16 optionPadding
    push_cast
    omega

theorem horizontal_geometry (s : Ui) (options : List (List Char)) (n sel : Nat)
    (hdw : s.displayWidth ≤ 32767) (hdh : 2 ≤ s.displayHeight)
    (hdh2 : s.displayHeight ≤ 32767) (htfh : s.titleFontHeight ≤ 255)
    (hcfh : s.contentFontHeight ≤ 255) (hn : 1 ≤ n)
    (hnonneg : ∀ i, i < n → 0 ≤ showConfirm.labelWidth s options i)
    (hsum : showConfirm.sumOfWidths s options n + ((n : Int) - 1) ≤ 32767)
    (hfit : showConfirm.totalWidthWithSpacing s options n ≤ showConfirm.availWidth s) :
    (showConfirm.horizontalButtons s options n sel).Pairwise showConfirm.Button.disjoint ∧
    ∀ b ∈ showConfirm.horizontalButtons s options n sel,
      b.y + b.h = (showConfirm.contentBottom s : Int) - (optionPadding : Int) := by
  obtain ⟨hcb, hbbb, hbh, hcw, hav⟩ := confirm_metrics s hdw hdh hdh2 htfh hcfh
  have hx := currentX_eq s options n hdw hn hnonneg hsum hfit hcw hav
  have htw := totalWidth_eq s options n hnonneg (by omega)
  constructor
  · unfold showConfirm.horizontalButtons
    apply pairwise_map_range
    intro i j hij hj
    left
    simp only [showConfirm.buttonAt]
    rw [hx i (by omega), hx j hj, htw.1 i (by omega)]
    have hm := sumOfWidths_mono s options j (fun k hk => hnonneg k (by omega)) (i + 1) (by omega)
    have hstep : showConfirm.sumOfWidths s options (i + 1)
        = showConfirm.sumOfWidths s options i + (showConfirm.labelWidth s options i + 4) := rfl
    rw [hstep] at hm
    omega
  · intro b hb
    unfold showConfirm.horizontalButtons at hb
    obtain ⟨i, _, rfl⟩ := List.mem_map.1 hb
    simp only [showConfirm.buttonAt]
    rw [hbbb, hbh, hcb]
    unfold toInt16 optionPadding
    push_cast
    omega

theorem vertical_y (s : Ui) (n i : Nat)
    (hdw : s.displayWidth ≤ 32767) (hdh : 2 ≤ s.displayHeight)
    (hdh2 : s.displayHeight ≤ 32767) (htfh : s.titleFontHeight ≤ 255)
    (hcfh : s.contentFontHeight ≤ 255) (hn : n = 1 ∨ n = 2 ∨ n = 3) (hi : i < n) :
    toInt16 (showConfirm.buttonsBlockTop s n
        + (i : Int) * ((showConfirm.buttonHeight s : Int) + (optionPadding : Int)))
      = (s.displayHeight : Int) - 3
        - ((n : Int) - (i : Int)) * ((s.contentFontHeight : Int) + 3) + 1 := by
  obtain ⟨_, hbbb, hbh, _, _⟩ := confirm_metrics s hdw hdh hdh2 htfh hcfh
  unfold showConfirm.buttonsBlockTop showConfirm.totalButtonsHeight
  rw [hbbb, hbh]
  have hi3 : i = 0 ∨ i = 1 ∨ i = 2 := by omega
  rcases hn with h | h | h <;> subst h <;> rcases hi3 with h | h | h <;> subst h <;>
    first
    | omega
    | (unfold toInt16 toUInt16 optionPadding
       push_cast
       omega)

theorem vertical_geometry (s : Ui) (options : List (List Char)) (n sel : Nat)
    (hdw : s.displayWidth ≤ 32767) (hdh : 2 ≤ s.displayHeight)
    (hdh2 : s.displayHeight ≤ 32767) (htfh : s.titleFontHeight ≤ 255)
    (hcfh : s.contentFontHeight ≤ 255) (hn : n = 1 ∨ n = 2 ∨ n = 3) :
    (showConfirm.verticalButtons s options n sel).Pairwise showConfirm.Button.disjoint ∧
    (∀ b ∈ showConfirm.verticalButtons s options n sel,
      b.y + b.h ≤ (showConfirm.contentBottom s : Int) - (optionPadding : Int)) ∧
    ∃ b ∈ showConfirm.verticalButtons s options n sel,
      b.y + b.h = (showConfirm.contentBottom s : Int) - (optionPadding : Int) := by
  obtain ⟨hcb, _, hbh, _, _⟩ := confirm_metrics s hdw hdh hdh2 htfh hcfh
  have hy := fun i hi => vertical_y s n i hdw hdh hdh2 htfh hcfh hn hi
  refine ⟨?_, ?_, ?_⟩
  · unfold showConfirm.verticalButtons
    apply pairwise_map_range
    intro i j hij hj
    right; right; left
    simp only [showConfirm.buttonAt]
    rw [hy i (by omega), hy j hj, hbh]
    have hi3 : i = 0 ∨ i = 1 ∨ i = 2 := by omega
    have hj3 : j = 0 ∨ j = 1 ∨ j = 2 := by omega
    rcases hn with h | h | h <;> subst h <;> rcases hi3 with h | h | h <;> subst h <;>
      rcases hj3 with h | h | h <;> subst h <;> omega
  · intro b hb
    unfold showConfirm.verticalButtons at hb
    obtain ⟨i, hi, rfl⟩ := List.mem_map.1 hb
    have hi := List.mem_range.1 hi
    simp only [showConfirm.buttonAt]
    rw [hy i hi, hbh, hcb]
    have hi3 : i = 0 ∨ i = 1 ∨ i = 2 := by omega
    rcases hn with h | h | h <;> subst h <;> rcases hi3 with h | h | h <;> subst h <;>
      first
      | omega
      | (unfold optionPadding
         push_cast
         omega)
  · refine ⟨_, List.mem_map.2 ⟨n - 1, List.mem_range.2 (by omega), rfl⟩, ?_⟩
    simp only [showConfirm.buttonAt]
    rw [hy (n - 1) (by omega), hbh, hcb]
    rcases hn with h | h | h <;> subst h <;>
      (unfold optionPadding
       push_cast
       omega)

theorem twoPlusOne_geometry (s : Ui) (options : List (List Char)) (sel : Nat)
    (hdw : s.displayWidth ≤ 32767) (hdh : 2 ≤ s.displayHeight)
    (hdh2 : s.displayHeight ≤ 32767) (htfh : s.titleFontHeight ≤ 255)
    (hcfh : s.contentFontHeight ≤ 255)
    (hnonneg : ∀ i, i < 3 → 0 ≤ showConfirm.labelWidth s options i)
    (hsum : showConfirm.sumOfWidths s options 3 + 2 ≤ 32767)
    (hfit : showConfirm.topTwoWidth s options ≤ showConfirm.availWidth s) :
    (showConfirm.twoPlusOneButtons s options sel).Pairwise showConfirm.Button.disjoint ∧
    (∀ b ∈ showConfirm.twoPlusOneButtons s options sel,
      b.y + b.h ≤ (showConfirm.contentBottom s : Int) - (optionPadding : Int)) ∧
    ∃ b ∈ showConfirm.twoPlusOneButtons s options sel,
      b.y + b.h = (showConfirm.contentBottom s : Int) - (optionPadding : Int) := by
  obtain ⟨hcb, hbbb, hbh, hcw, hav⟩ := confirm_metrics s hdw hdh hdh2 htfh hcfh
  have h0 := hnonneg 0 (by omega)
  have h1 := hnonneg 1 (by omega)
  have h2 := hnonneg 2 (by omega)
  have hs : showConfirm.sumOfWidths s options 3
      = 0 + (showConfirm.labelWidth s options 0 + 4) + (showConfirm.labelWidth s options 1 + 4)
        + (showConfirm.labelWidth s options 2 + 4) := rfl
  have hb0 := btnWidth_eq s options 0 h0 (by omega)
  have hb1 := btnWidth_eq s options 1 h1 (by omega)
  have htt : showConfirm.topTwoWidth s options
      = showConfirm.labelWidth s options 0 + showConfirm.labelWidth s options 1 + 9 := by
    unfold showConfirm.topTwoWidth
    rw [hb0, hb1]
    unfold toInt16 optionPadding
    push_cast
    omega
  have hX := centredX_eq s _ hdw (by omega) hfit hcw hav
  rw [htt, hav] at hfit
  have hyTop : toInt16 (showConfirm.buttonsBlockBottom s
      - (2 * (showConfirm.buttonHeight s : Int) + (optionPadding : Int)))
      = (s.displayHeight : Int) - 3 - (2 * ((s.contentFontHeight : Int) + 2) + 1) := by
    rw [hbbb, hbh]
    unfold toInt16 optionPadding
    push_cast
    omega
  have hyBottom : toInt16 (showConfirm.buttonsBlockBottom s - (showConfirm.buttonHeight s : Int))
      = (s.displayHeight : Int) - 3 - ((s.contentFontHeight : Int) + 2) := by
    rw [hbbb, hbh]
    unfold toInt16
    omega
  have hx0 : toInt16 (showConfirm.centredX s (showConfirm.topTwoWidth s options) + 0)
      = showConfirm.centredX s (showConfirm.topTwoWidth s options) := by
    rw [hX, htt]
    unfold toInt16
    omega
  have hx1 : toInt16 (showConfirm.centredX s (showConfirm.topTwoWidth s options)
        + (showConfirm.btnWidth s options 0 + (optionPadding : Int)))
      = showConfirm.centredX s (showConfirm.topTwoWidth s options)
        + (showConfirm.labelWidth s options 0 + 4) + 1 := by
    rw [hX, htt, hb0]
    unfold toInt16 optionPadding
    push_cast
    omega
  unfold showConfirm.twoPlusOneButtons
  rw [hx0, hx1, hyTop, hyBottom]
  refine ⟨?_, ?_, ?_⟩
  · simp only [List.pairwise_cons, List.mem_cons, List.mem_singleton, List.not_mem_nil,
      forall_eq_or_imp, forall_eq, false_implies, implies_true, List.Pairwise.nil, and_true,
      showConfirm.Button.disjoint, showConfirm.buttonAt]
    rw [hb0, hbh]
    refine ⟨⟨?_, ?_⟩, ?_⟩
    · left; omega
    · right; right; left; omega
    · right; right; left; omega
  · intro b hb
    simp only [List.mem_cons, List.mem_singleton, List.not_mem_nil, or_false] at hb
    rcases hb with h | h | h <;> subst h <;> simp only [showConfirm.buttonAt] <;>
      rw [hbh, hcb] <;> unfold optionPadding <;> push_cast <;> omega
  · refine ⟨_, List.mem_cons_of_mem _ (List.mem_cons_of_mem _ (List.mem_singleton.2 rfl)), ?_⟩
    simp only [showConfirm.buttonAt]
    rw [hbh, hcb]
    unfold optionPadding
    push_cast
    omega

/-- C13, as amended: on a display of at most 32767 × 32767 pixels (at least 2
rows) with font heights of at most 255, for every 1 to 3 labels of non-negative
widths whose buttons (4 px wider than the label) and the 1 px gaps between them
add up to at most 32767 px, in whichever of the three layouts `showConfirm`
chooses: no two button rectangles overlap, no button reaches below
`contentBottom - optionPadding`, and the bottom edge of the lowest button is at
`contentBottom - optionPadding`. -/
theorem confirm_button_geometry (s : Ui) (options : List (List Char))
    (numOptions selectedIndex : Nat)
    (hdw : s.displayWidth ≤ 32767) (hdh : 2 ≤ s.displayHeight)
    (hdh2 : s.displayHeight ≤ 32767) (htfh : s.titleFontHeight ≤ 255)
    (hcfh : s.contentFontHeight ≤ 255)
    (hnonneg : ∀ i, i < showConfirm.effectiveCount numOptions →
      0 ≤ showConfirm.labelWidth s options i)
    (hsum : showConfirm.sumOfWidths s options (showConfirm.effectiveCount numOptions)
      + ((showConfirm.effectiveCount numOptions : Int) - 1) ≤ 32767) :
    (showConfirm.buttons s options numOptions selectedIndex).Pairwise
      showConfirm.Button.disjoint ∧
    (∀ b ∈ showConfirm.buttons s options numOptions selectedIndex,
      b.y + b.h ≤ (showConfirm.contentBottom s : Int) - (optionPadding : Int)) ∧
    ∃ b ∈ showConfirm.buttons s options numOptions selectedIndex,
      b.y + b.h = (showConfirm.contentBottom s : Int) - (optionPadding : Int) := by
  have hn := effectiveCount_cases numOptions
  unfold showConfirm.buttons showConfirm.layout
  split_ifs with h1 h2
  · simp only []
    unfold showConfirm.allHorizontal at h1
    simp only [Bool.and_eq_true, decide_eq_true_eq] at h1
    have hg := horizontal_geometry s options (showConfirm.effectiveCount numOptions)
      (showConfirm.effectiveIndex numOptions selectedIndex) hdw hdh hdh2 htfh hcfh (by omega)
      hnonneg hsum h1.2
    refine ⟨hg.1, fun b hb => le_of_eq (hg.2 b hb), ?_⟩
    refine ⟨_, List.mem_map.2 ⟨0, List.mem_range.2 (by omega), rfl⟩, ?_⟩
    exact hg.2 _ (List.mem_map.2 ⟨0, List.mem_range.2 (by omega), rfl⟩)
  · simp only []
    have h3 := twoTopOneBottom_count s options _ h2
    unfold showConfirm.twoTopOneBottom at h2
    simp only [Bool.and_eq_true, decide_eq_true_eq] at h2
    rw [h3] at hnonneg hsum
    exact twoPlusOne_geometry s options _ hdw hdh hdh2 htfh hcfh hnonneg
      (by push_cast at hsum; omega) h2.2.1
  · simp only []
    exact vertical_geometry s options _ _ hdw hdh hdh2 htfh hcfh hn

set_option maxRecDepth 100000 in
theorem confirm_button_geometry_witness :
    ((boundUi (fixedFont 6) 70 64).displayWidth ≤ 32767 ∧
      2 ≤ (boundUi (fixedFont 6) 70 64).displayHeight ∧
      (boundUi (fixedFont 6) 70 64).displayHeight ≤ 32767 ∧
      (boundUi (fixedFont 6) 70 64).titleFontHeight ≤ 255 ∧
      (boundUi (fixedFont 6) 70 64).contentFontHeight ≤ 255) ∧
    (∀ i, i < showConfirm.effectiveCount 3 →
      0 ≤ showConfirm.labelWidth (boundUi (fixedFont 6) 70 64)
        ["Yes".toList, "No".toList, "Cancel".toList] i) ∧
    showConfirm.sumOfWidths (boundUi (fixedFont 6) 70 64)
        ["Yes".toList, "No".toList, "Cancel".toList] (showConfirm.effectiveCount 3)
      + ((showConfirm.effectiveCount 3 : Int) - 1) ≤ 32767 ∧
    showConfirm.layout (boundUi (fixedFont 6) 70 64)
        ["Yes".toList, "No".toList, "Cancel".toList] 3 = showConfirm.Layout.twoPlusOne ∧
    ((showConfirm.buttons (boundUi (fixedFont 6) 70 64)
        ["Yes".toList, "No".toList, "Cancel".toList] 3 0).Pairwise
      showConfirm.Button.disjoint ∧
    (∀ b ∈ showConfirm.buttons (boundUi (fixedFont 6) 70 64)
        ["Yes".toList, "No".toList, "Cancel".toList] 3 0,
      b.y + b.h ≤ (showConfirm.contentBottom (boundUi (fixedFont 6) 70 64) : Int)
        - (optionPadding : Int)) ∧
    ∃ b ∈ showConfirm.buttons (boundUi (fixedFont 6) 70 64)
        ["Yes".toList, "No".toList, "Cancel".toList] 3 0,
      b.y + b.h = (showConfirm.contentBottom (boundUi (fixedFont 6) 70 64) : Int)
        - (optionPadding : Int)) :=
  ⟨by decide, by decide, by decide, by decide,
    confirm_button_geometry (boundUi (fixedFont 6) 70 64)
      ["Yes".toList, "No".toList, "Cancel".toList] 3 0
      (by decide) (by decide) (by decide) (by decide) (by decide) (by decide) (by decide)⟩

set_option maxRecDepth 100000 in
/-- C13 fails for labels that `int16_t` cannot measure: with a glyph advance of
201 at text size 163 the two labels "a" are 32763 px wide, the three button
widths 32767 + 32767 + 4 wrap to a total of 4, so the horizontal layout is
chosen, `currentX` wraps twice, and the third button lies inside the first. -/
theorem confirm_button_geometry_counterexample :
    showConfirm.layout (sizedUi (fixedFont 201) 163 128 64) ["a".toList, "a".toList, []] 3
      = showConfirm.Layout.horizontal ∧
    (showConfirm.buttons (sizedUi (fixedFont 201) 163 128 64)
        ["a".toList, "a".toList, []] 3 0).map (fun b => (b.x, b.y, b.w, b.h))
      = [(62, 51, 32767, 10), (-32706, 51, 32767, 10), (62, 51, 4, 10)] ∧
    ¬ (showConfirm.buttons (sizedUi (fixedFont 201) 163 128 64)
        ["a".toList, "a".toList, []] 3 0).Pairwise showConfirm.Button.disjoint := by
  decide

/-! ## Termination of the wrap loops -/

theorem length_le_length_flatten (ls : List (List Char)) (h : ∀ c ∈ ls, 1 ≤ c.length) :
    ls.length ≤ ls.flatten.length := by
  induction ls with
  | nil => simp
  | cons a t ih =>
    have ha := h a (List.mem_cons_self a t)
    have ht := ih (fun c hc => h c (List.mem_cons_of_mem a hc))
    rw [List.flatten_cons, List.length_append, List.length_cons]
    omega

/-- C19, as amended: for every segment of fewer than 65536 characters, every
display, font and `maxWidth` (so also `maxWidth = 0` and a font whose advances
are all 0), each wrap loop returns, and it emits at most as many display lines
as the segment has characters; a loop calls `findWrapPoint` once per line it
emits.  The loops are the guarded chunk loop (`wrapChunks`), the counting pass
of the log, which has no guard (`countChunks`, whose `uint8_t` counter goes from
`d` to `d` plus the number of lines, modulo 256), the treatment of one segment by
the caption wrapper and by the drawing pass of the log (`segmentLines`), by the
counting pass (`countSegment`), and the question of `showConfirm`. -/
theorem wrap_loops_terminate (s : Ui) (segment : List Char) (maxWidth d : Nat)
    (hlen : segment.length < 65536) (hd : d < 256) :
    (∃ chunks, wrapChunks s segment maxWidth (segment.length + 1) 0 = some chunks ∧
      chunks.length ≤ segment.length ∧
      showActivityLiveLog.countChunks s segment maxWidth (segment.length + 1) 0 d
        = some ((d + chunks.length) % 256)) ∧
    (∃ ls, segmentLines s segment maxWidth = some ls ∧ ls.length ≤ segment.length ∧
      showActivityLiveLog.countSegment s segment maxWidth d
        = some ((d + ls.length) % 256)) ∧
    (∃ ls, showConfirm.questionLines s segment = some ls ∧ ls.length ≤ segment.length) := by
  have hchunks : ∀ w, ∃ chunks, wrapChunks s segment w (segment.length + 1) 0 = some chunks ∧
      chunks.length ≤ segment.length := by
    intro w
    obtain ⟨chunks, hc, hflat, hall⟩ :=
      wrapChunks_spec s segment w hlen (segment.length + 1) 0 (Nat.zero_le _) (by omega)
    refine ⟨chunks, hc, ?_⟩
    have h1 := length_le_length_flatten chunks (fun c hc => (hall c hc).1)
    rw [hflat, List.drop_zero] at h1
    exact h1
  refine ⟨?_, ?_, ?_⟩
  · obtain ⟨chunks, hc, hle⟩ := hchunks maxWidth
    exact ⟨chunks, hc, hle,
      countChunks_eq s segment maxWidth hlen _ 0 d chunks (Nat.zero_le _) hd hc⟩
  · obtain ⟨ls, hls, hflat, hall⟩ := segmentLines_spec s segment maxWidth hlen
    refine ⟨ls, hls, ?_, countSegment_eq s segment maxWidth d hlen hd ls hls⟩
    have h1 := length_le_length_flatten ls (fun c hc => (hall c hc).1)
    rw [hflat] at h1
    exact h1
  · unfold showConfirm.questionLines
    exact hchunks _

set_option maxRecDepth 100000 in
theorem wrap_loops_terminate_witness :
    ("abc def".toList.length < 65536 ∧ 0 < 256) ∧
    wrapChunks (boundUi (fixedFont 0) 128 64) "abc def".toList 0 8 0
      = some ["abc def".toList] ∧
    wrapChunks (boundUi (fixedFont 6) 128 64) "abc def".toList 0 8 0
      = some ["a".toList, "b".toList, "c".toList, " ".toList, "d".toList, "e".toList,
          "f".toList] ∧
    ((∃ chunks, wrapChunks (boundUi (fixedFont 6) 128 64) "abc def".toList 0
          ("abc def".toList.length + 1) 0 = some chunks ∧
        chunks.length ≤ "abc def".toList.length ∧
        showActivityLiveLog.countChunks (boundUi (fixedFont 6) 128 64) "abc def".toList 0
            ("abc def".toList.length + 1) 0 0
          = some ((0 + chunks.length) % 256)) ∧
      (∃ ls, segmentLines (boundUi (fixedFont 6) 128 64) "abc def".toList 0 = some ls ∧
        ls.length ≤ "abc def".toList.length ∧
        showActivityLiveLog.countSegment (boundUi (fixedFont 6) 128 64) "abc def".toList 0 0
          = some ((0 + ls.length) % 256)) ∧
      (∃ ls, showConfirm.questionLines (boundUi (fixedFont 6) 128 64) "abc def".toList
          = some ls ∧ ls.length ≤ "abc def".toList.length)) :=
  ⟨by decide, by decide, by decide,
    wrap_loops_terminate (boundUi (fixedFont 6) 128 64) "abc def".toList 0 0
      (by decide) (by decide)⟩

/-- C19 as stated fails for the question of `showConfirm` when it has 65536
characters: the loop over the question is not guarded by a width test, and with
a font whose advances are all 0 the first `findWrapPoint` call never returns (its
`uint16_t endIdx` cannot reach the length), so the wrap loop emits no line and
`showConfirm` does not return, whatever the number of turns allowed. -/
theorem wrap_loops_terminate_counterexample :
    (∀ fuel, wrapChunks (boundUi (fixedFont 0) 128 64) (List.replicate 65536 'a')
        (toUInt16 (showConfirm.availWidth (boundUi (fixedFont 0) 128 64))) fuel 0 = none) ∧
    showConfirm.questionLines (boundUi (fixedFont 0) 128 64) (List.replicate 65536 'a')
      = none ∧
    showConfirm (boundUi (fixedFont 0) 128 64) none 0 0 (List.replicate 65536 'a') none 0 0
      = none := by
  have hnever := findWrapLoop_never_returns (boundUi (fixedFont 0) 128 64)
    (List.replicate 65536 'a') 0
    (toUInt16 (showConfirm.availWidth (boundUi (fixedFont 0) 128 64)))
    (by rw [List.length_replicate])
    (fun a b => by rw [strWidth_zero_font]; exact Int.ofNat_nonneg _)
  have hfind : findWrapPoint (boundUi (fixedFont 0) 128 64) (List.replicate 65536 'a') 0
      (toUInt16 (showConfirm.availWidth (boundUi (fixedFont 0) 128 64))) = none := by
    unfold findWrapPoint
    rw [if_neg (by rw [List.length_replicate]; decide)]
    exact hnever _ 0 (-1) (by decide)
  have hall : ∀ fuel, wrapChunks (boundUi (fixedFont 0) 128 64) (List.replicate 65536 'a')
      (toUInt16 (showConfirm.availWidth (boundUi (fixedFont 0) 128 64))) fuel 0 = none := by
    intro fuel
    cases fuel with
    | zero => rfl
    | succ fuel =>
      rw [wrapChunks, if_pos (by rw [List.length_replicate]; decide), hfind]
  have hq : showConfirm.questionLines (boundUi (fixedFont 0) 128 64)
      (List.replicate 65536 'a') = none := by
    unfold showConfirm.questionLines
    exact hall _
  refine ⟨hall, hq, ?_⟩
  unfold showConfirm
  rw [if_neg (by decide), hq]
  rfl

/-! ## Calls without a display or a font -/

/-- C16, as amended: without a bound display, `showTitleAndBorder`,
`showOptionSelect`, `showOptionValueSet`, `showRunningActivity`,
`showActivityLiveLog`, `showConfirm`, `update`, `clear` and `clearContentBox`
return with no effect (no call to the display, the state unchanged) and
`strWidth` returns 0 for every font; without a content font,
`showActivityLiveLog` and `showConfirm` return with no call to the display and
the widths measured with the content font are 0; and `strWidth` returns 0 when
its font argument is null. -/
theorem no_effect_without_display (s : Ui)
    (title batteryPercentage caption question str : List Char)
    (options values : List (List Char)) (confirmOptions : Option (List (List Char)))
    (confirmBitmap : Option Nat) (bitmap bitmapW bitmapH numOptions cursorPos now size : Nat)
    (optionSelected : Bool) (font : Option GFXfont) :
    (s.gfx = false →
      showTitleAndBorder s title batteryPercentage = [] ∧
      showOptionSelect s options numOptions cursorPos = [] ∧
      showOptionValueSet s options values numOptions cursorPos optionSelected = [] ∧
      showRunningActivity s bitmap bitmapW bitmapH caption = some [] ∧
      showActivityLiveLog s = some [] ∧
      showConfirm s confirmBitmap bitmapW bitmapH question confirmOptions numOptions cursorPos
        = some [] ∧
      update s now = some (s, []) ∧
      clear s = (s, []) ∧
      clearContentBox s = [] ∧
      strWidth s str font size = 0) ∧
    (s.contentFont = none →
      showActivityLiveLog s = some [] ∧
      showConfirm s confirmBitmap bitmapW bitmapH question confirmOptions numOptions cursorPos
        = some [] ∧
      strWidth s str s.contentFont size = 0) ∧
    strWidth s str none size = 0 := by
  refine ⟨?_, ?_, ?_⟩
  · intro h
    refine ⟨?_, ?_, ?_, ?_, ?_, ?_, ?_, ?_, ?_, ?_⟩
    · unfold showTitleAndBorder; rw [if_pos h]
    · unfold showOptionSelect; rw [if_pos h]
    · unfold showOptionValueSet; rw [if_pos h]
    · unfold showRunningActivity; rw [if_pos h]
    · unfold showActivityLiveLog; rw [if_pos (Or.inl h)]
    · unfold showConfirm; rw [if_pos (Or.inl h)]
    · unfold update; rw [if_pos h]
    · unfold clear; rw [if_pos h]
    · unfold clearContentBox; rw [if_pos h]
    · unfold strWidth; rw [if_pos h]
  · intro h
    have hf : s.contentFont.isSome = false := by rw [h]; rfl
    refine ⟨?_, ?_, ?_⟩
    · unfold showActivityLiveLog; rw [if_pos (Or.inr hf)]
    · unfold showConfirm; rw [if_pos (Or.inr hf)]
    · rw [h]; unfold strWidth; split_ifs <;> rfl
  · unfold strWidth; split_ifs <;> rfl

theorem no_effect_without_display_witness :
    (init.gfx = false ∧ init.contentFont = none) ∧
    showOptionSelect init ["Start".toList, "Stop".toList] 2 0 = [] ∧
    showActivityLiveLog init = some [] ∧
    strWidth init "Start".toList (some (fixedFont 6)) 1 = 0 :=
  have h := no_effect_without_display init "Menu".toList "90%".toList "busy".toList
    "Sure?".toList "Start".toList ["Start".toList, "Stop".toList] ["1".toList, "2".toList]
    (some ["Yes".toList, "No".toList]) none 7 16 16 2 0 1000 1 false (some (fixedFont 6))
  ⟨⟨rfl, rfl⟩, (h.1 rfl).2.1, (h.2.1 rfl).1, (h.1 rfl).2.2.2.2.2.2.2.2.2⟩

set_option maxRecDepth 100000 in
/-- C16 as stated fails for an object with a display but no font (the state
after the constructor and `setDisplay`): only `showActivityLiveLog`,
`showConfirm` and `strWidth` test the font, the other entry points draw.  And
a screen wrapper called before `setDisplay` does not return with no effect: it
starts with `gfx->fillScreen(0)` on the null `gfx`. -/
theorem no_effect_without_display_counterexample :
    ((setDisplay init 128 64).titleFont = none ∧ (setDisplay init 128 64).contentFont = none) ∧
    showTitleAndBorder (setDisplay init 128 64) "Menu".toList "90%".toList
      = [DrawCall.print 0 (-1) 1 "Menu".toList, DrawCall.print 128 (-1) 1 "90%".toList,
          DrawCall.fillRect 0 2 128 62 1, DrawCall.fillRect 2 4 124 58 0] ∧
    showOptionSelect (setDisplay init 128 64) ["a".toList, "b".toList] 2 0
      = [DrawCall.drawRect 122 5 3 56 1, DrawCall.drawRect 123 5 1 56 1,
          DrawCall.fillRect 3 5 118 2 1, DrawCall.print 8 4 0 "a".toList,
          DrawCall.print 4 6 1 "b".toList] ∧
    showRunningActivity (setDisplay init 128 64) 7 16 16 "busy".toList
      = some [DrawCall.drawBitmap 56 25 7 16 16 1] ∧
    (clear (setDisplay init 128 64)).2 = [DrawCall.fillScreen 0] ∧
    clearContentBox (setDisplay init 128 64) = [DrawCall.fillRect 2 4 124 58 0] ∧
    (optionSelectScreen init "Menu".toList "90%".toList ["a".toList, "b".toList] 2 0).isNone
      = true :=
  ⟨⟨rfl, rfl⟩, by decide⟩

/-! ## The mode flags across screen changes -/

/-- C17, what the code does: on an object with a display, `activityLiveLogScreen`
leaves `logActive` set whenever it returns, and from every state in which
`logActive` is set, `optionSelectScreen`, `optionValueSetScreen`, the static
`runningActivityScreen` and `clear()` leave it set (they reset `animationActive`
only), so that the next `update()` clears the content box and draws the log
again; only `confirmScreen` resets `logActive`. -/
theorem screen_change_keeps_log_active (s : Ui)
    (title batteryPercentage caption question : List Char)
    (options values : List (List Char)) (bitmap bitmapW bitmapH numOptions cursorPos now : Nat)
    (optionSelected : Bool)
    (hgfx : s.gfx = true) (hlog : s.logActive = true) :
    (∀ s0 r, activityLiveLogScreen s0 title batteryPercentage = some r →
      r.1.gfx = true ∧ r.1.logActive = true) ∧
    (∃ r, optionSelectScreen s title batteryPercentage options numOptions cursorPos = some r ∧
      r.1.logActive = true) ∧
    (∃ r, optionValueSetScreen s title batteryPercentage options values numOptions cursorPos
        optionSelected = some r ∧ r.1.logActive = true) ∧
    (∀ r, runningActivityScreen s title batteryPercentage bitmap bitmapW bitmapH caption
        = some r → r.1.logActive = true) ∧
    (clear s).1.logActive = true ∧
    (s.animationActive = false →
      update s now = (showActivityLiveLog s).bind fun calls =>
        some (s, clearContentBox s ++ calls)) ∧
    (∀ r, confirmScreen s title batteryPercentage none 0 0 question (some options) numOptions
        cursorPos = some r → r.1.logActive = false) := by
  have hg : ¬ s.gfx = false := by rw [hgfx]; decide
  refine ⟨?_, ?_, ?_, ?_, ?_, ?_, ?_⟩
  · intro s0 r h
    unfold activityLiveLogScreen at h
    by_cases h0 : s0.gfx = false
    · rw [if_pos h0] at h; cases h
    · rw [if_neg h0] at h
      cases hshow : showActivityLiveLog { s0 with logActive := true, animationActive := false }
        with
      | none => rw [hshow] at h; cases h
      | some calls =>
        rw [hshow] at h
        cases h
        exact ⟨by simpa using h0, rfl⟩
  · unfold optionSelectScreen
    rw [if_neg hg]
    exact ⟨_, rfl, hlog⟩
  · unfold optionValueSetScreen
    rw [if_neg hg]
    exact ⟨_, rfl, hlog⟩
  · intro r h
    unfold runningActivityScreen at h
    rw [if_neg hg] at h
    cases hshow : showRunningActivity { s with animationActive := false } bitmap bitmapW
      bitmapH caption with
    | none => rw [hshow] at h; cases h
    | some calls =>
      rw [hshow] at h
      cases h
      exact hlog
  · unfold clear
    rw [if_neg hg]
    exact hlog
  · intro hanim
    unfold update
    rw [if_neg hg]
    unfold update.animationStep
    rw [if_neg (by rw [hanim]; simp)]
    simp only [Option.some_bind, hlog, if_true, List.nil_append]
  · intro r h
    unfold confirmScreen at h
    rw [if_neg hg] at h
    cases hshow : showConfirm { s with animationActive := false, logActive := false } none 0 0
      question (some options) numOptions cursorPos with
    | none => rw [hshow] at h; cases h
    | some calls =>
      rw [hshow] at h
      cases h
      rfl

set_option maxRecDepth 100000 in
theorem screen_change_keeps_log_active_witness :
    (({ bufferedUi (fixedFont 6) 128 64 ["boot ok".toList] with logActive := true }).gfx = true ∧
      ({ bufferedUi (fixedFont 6) 128 64 ["boot ok".toList] with logActive := true }).logActive
        = true) ∧
    ((activityLiveLogScreen (bufferedUi (fixedFont 6) 128 64 ["boot ok".toList])
        "Log".toList "90%".toList).bind fun r1 =>
      (optionSelectScreen r1.1 "Menu".toList "90%".toList ["Start".toList, "Stop".toList] 2
          0).bind fun r2 =>
        (update r2.1 1000).map fun r3 => (r2.1.logActive, r3.2))
      = some (true,
          [DrawCall.fillRect 2 12 124 50 0, DrawCall.print 3 19 1 "Log:".toList,
            DrawCall.drawRect 3 21 122 40 1, DrawCall.print 5 29 1 "boot ok".toList]) ∧
    (∃ r, optionSelectScreen
        { bufferedUi (fixedFont 6) 128 64 ["boot ok".toList] with logActive := true }
        "Menu".toList "90%".toList ["Start".toList, "Stop".toList] 2 0 = some r ∧
      r.1.logActive = true) :=
  ⟨⟨rfl, rfl⟩, by decide,
    (screen_change_keeps_log_active
      { bufferedUi (fixedFont 6) 128 64 ["boot ok".toList] with logActive := true }
      "Menu".toList "90%".toList "busy".toList "Sure?".toList
      ["Start".toList, "Stop".toList] ["1".toList, "2".toList] 7 16 16 2 0 1000 false
      rfl rfl).2.1⟩

/-- The fixture `boundUi` is the state after the constructor, `setDisplay`,
`setTitleFont` and `setContentFont`. -/
theorem boundUi_reachable (font : GFXfont) (width height : Nat) :
    boundUi font width height
      = setContentFont (setTitleFont (setDisplay init width height) font) font := rfl

/-! ## The wrap, segment by segment -/

theorem substring_append_shift (pre rest : List Char) (j i : Nat) (hji : j ≤ i) :
    substring (pre ++ rest) (pre.length + j) (pre.length + i) = substring rest j i := by
  rw [substring_of_le _ _ _ (by omega), substring_of_le _ _ _ hji, List.take_append,
    List.drop_append]

theorem charAt_append_shift (pre rest : List Char) (i : Nat) :
    charAt (pre ++ rest) (pre.length + i) = charAt rest i := by
  unfold charAt
  rw [List.getD_append_right _ _ _ _ (by omega), Nat.add_sub_cancel_left]

/-- The segment loop does not depend on the text before the segment it is
in. -/
theorem segmentLoop_shift (s : Ui) (isBreak : Char → Bool) (pre rest : List Char)
    (w m : Nat) :
    ∀ (turns i j : Nat), j ≤ i →
      segmentLoop s isBreak (pre ++ rest) w (pre.length + m) turns (pre.length + i)
          (pre.length + j)
        = segmentLoop s isBreak rest w m turns i j := by
  intro turns
  induction turns with
  | zero => intro i j _; rfl
  | succ turns ih =>
    intro i j hji
    have hlt : decide (pre.length + i < pre.length + m) = decide (i < m) := by
      simp only [Nat.add_lt_add_iff_left]
    have heq : decide (pre.length + i = pre.length + m) = decide (i = m) := by
      simp only [Nat.add_left_cancel_iff]
    have h1 := ih (i + 1) (i + 1) (le_refl _)
    have h2 := ih (i + 1) j (by omega)
    rw [← Nat.add_assoc] at h1 h2
    unfold segmentLoop
    simp only []
    rw [hlt, heq, charAt_append_shift, substring_append_shift _ _ _ _ hji, h1, h2]

theorem segmentLoop_scan (s : Ui) (isBreak : Char → Bool) (text : List Char) (w n segEnd : Nat)
    (hnb : ∀ i, i < segEnd → isBreak (charAt text i) = false) (hlt : segEnd ≤ n) :
    ∀ (d i turns : Nat), i + d = segEnd →
      segmentLoop s isBreak text w n (turns + d) i 0
        = segmentLoop s isBreak text w n turns segEnd 0 := by
  intro d
  induction d with
  | zero =>
    intro i turns hi
    have : i = segEnd := by omega
    subst this
    rfl
  | succ d ih =>
    intro i turns hi
    have hstep : turns + (d + 1) = (turns + d) + 1 := by omega
    rw [hstep, segmentLoop]
    have hc : (decide (i < n) && isBreak (charAt text i) || decide (i = n)) = false := by
      rw [hnb i (by omega)]
      have hne : ¬ i = n := by omega
      simp [hne]
    rw [hc]
    simp only [Bool.false_eq_true, if_false]
    exact ih (i + 1) turns (by omega)

/-- The wrap of a text that starts with a segment followed by a line break:
the lines of the segment, then the lines of the rest of the text. -/
theorem wrapSegments_cons_segment (s : Ui) (isBreak : Char → Bool) (seg rest : List Char)
    (br : Char) (w : Nat)
    (hnb : ∀ c ∈ seg, isBreak c = false) (hbr : isBreak br = true)
    (hlen : (seg ++ br :: rest).length ≤ 32766) :
    wrapSegments s isBreak (seg ++ br :: rest) w
      = (segmentLines s seg w).bind fun ls =>
          (wrapSegments s isBreak rest w).map fun r => ls ++ r := by
  have hl : (seg ++ br :: rest).length = seg.length + (rest.length + 1) := by
    rw [List.length_append, List.length_cons]
  have h16 : toInt16 ((seg ++ br :: rest).length : Int)
      = ((seg.length + (rest.length + 1) : Nat) : Int) := by
    rw [hl]; unfold toInt16; omega
  have h16r : toInt16 (rest.length : Int) = ((rest.length : Nat) : Int) := by
    rw [hl] at hlen; unfold toInt16; omega
  unfold wrapSegments
  rw [h16, h16r, if_neg (by omega), if_neg (by omega), if_neg (by omega),
    if_neg (by rw [hl] at hlen; omega), Int.toNat_ofNat, Int.toNat_ofNat]
  have hscan := segmentLoop_scan s isBreak (seg ++ br :: rest) w
    (seg.length + (rest.length + 1)) seg.length
    (fun i hi => by
      unfold charAt
      rw [List.getD_append _ _ _ _ hi, List.getD_eq_getElem _ _ hi]
      exact hnb _ (List.getElem_mem hi))
    (by omega) seg.length 0 (rest.length + 1 + 1) (by omega)
  have hturns : seg.length + (rest.length + 1) + 1 = rest.length + 1 + 1 + seg.length := by
    omega
  rw [hturns, hscan, segmentLoop]
  have hch : charAt (seg ++ br :: rest) seg.length = br := by
    have h := charAt_append_shift seg (br :: rest) 0
    rw [Nat.add_zero] at h
    rw [h]
    rfl
  have hsub : substring (seg ++ br :: rest) 0 seg.length = seg := by
    rw [substring_of_le _ _ _ (Nat.zero_le _), List.take_left, List.drop_zero]
  have hshift := segmentLoop_shift s isBreak (seg ++ [br]) rest w rest.length
    (rest.length + 1) 0 0 (le_refl _)
  rw [List.append_assoc, List.singleton_append, List.length_append, List.length_singleton,
    Nat.add_zero, Nat.add_assoc, Nat.add_comm 1 rest.length] at hshift
  rw [hch, hbr, hsub, hshift]
  have hcond : (decide (seg.length < seg.length + (rest.length + 1)) && true
      || decide (seg.length = seg.length + (rest.length + 1))) = true := by
    have : seg.length < seg.length + (rest.length + 1) := by omega
    simp [this]
  rw [if_pos hcond]
  cases segmentLines s seg w with
  | none => rfl
  | some ls =>
    cases segmentLoop s isBreak rest w rest.length (rest.length + 1) 0 0 with
    | none => rfl
    | some r => rfl

/-- The wrap of a text without line breaks: the lines of its only segment. -/
theorem wrapSegments_segment (s : Ui) (isBreak : Char → Bool) (seg : List Char) (w : Nat)
    (hnb : ∀ c ∈ seg, isBreak c = false) (hlen : seg.length ≤ 32766) :
    wrapSegments s isBreak seg w = segmentLines s seg w := by
  have h16 : toInt16 (seg.length : Int) = ((seg.length : Nat) : Int) := by
    unfold toInt16; omega
  unfold wrapSegments
  rw [h16, if_neg (by omega), if_neg (by omega), Int.toNat_ofNat]
  have hscan := segmentLoop_scan s isBreak seg w seg.length seg.length
    (fun i hi => by
      unfold charAt
      rw [List.getD_eq_getElem _ _ hi]
      exact hnb _ (List.getElem_mem hi))
    (le_refl _) seg.length 0 1 (by omega)
  rw [Nat.add_comm seg.length 1, hscan, segmentLoop]
  have hsub : substring seg 0 seg.length = seg := by
    rw [substring_of_le _ _ _ (Nat.zero_le _), List.take_length, List.drop_zero]
  have hcond : (decide (seg.length < seg.length) && isBreak (charAt seg seg.length)
      || decide (seg.length = seg.length)) = true := by simp
  rw [if_pos hcond, hsub]
  cases segmentLines s seg w with
  | none => rfl
  | some ls =>
    simp only [segmentLoop, List.append_nil]

theorem wrapSegments_nil (s : Ui) (isBreak : Char → Bool) (w : Nat) :
    wrapSegments s isBreak [] w = some [] :=
  wrapSegments_segment s isBreak [] w (fun c hc => by cases hc) (by simp)

/-! ## No empty display line -/

theorem eq_nil_of_flatten_nil (ls : List (List Char)) (h1 : ∀ l ∈ ls, 1 ≤ l.length)
    (h2 : ls.flatten = []) : ls = [] := by
  have h := length_le_length_flatten ls h1
  rw [h2] at h
  exact List.eq_nil_of_length_eq_zero (by simpa using h)

theorem withoutBreaks_of_all_breaks (isBreak : Char → Bool) (text : List Char)
    (h : ∀ c ∈ text, isBreak c = true) : withoutBreaks isBreak text = [] := by
  unfold withoutBreaks
  rw [List.filter_eq_nil_iff]
  intro c hc
  rw [h c hc]
  decide

/-- C21, as amended: in each wrap (caption wrapper with the breaks `'\n'` and
`'\r'`, drawing and counting pass of the log with `'\n'`), for every text and
width, every display line produced has length at least 1, and an empty segment
produces no display line (the counting pass leaves its counter unchanged).  For
texts of at most 32766 characters the wrap returns; a leading line break, a
line break that follows another one and a trailing line break add no display
line; and a text that consists only of line-break characters wraps to zero
lines (the counting pass counts 0). -/
theorem wrap_emits_no_empty_line (s : Ui) (isBreak : Char → Bool)
    (text seg rest : List Char) (br br2 : Char) (w d : Nat) :
    (∀ lines, wrapSegments s isBreak text w = some lines → ∀ l ∈ lines, 1 ≤ l.length) ∧
    (∀ lines, captionLinesFor s text w = some lines → ∀ l ∈ lines, 1 ≤ l.length) ∧
    (segmentLines s [] w = some [] ∧ showActivityLiveLog.countSegment s [] w d = some d) ∧
    (text.length ≤ 32766 → ∃ lines, wrapSegments s isBreak text w = some lines) ∧
    (isBreak br = true → (br :: rest).length ≤ 32766 →
      wrapSegments s isBreak (br :: rest) w = wrapSegments s isBreak rest w) ∧
    (isBreak br = true → isBreak br2 = true → (∀ c ∈ seg, isBreak c = false) →
      (seg ++ br :: br2 :: rest).length ≤ 32766 →
      wrapSegments s isBreak (seg ++ br :: br2 :: rest) w
        = wrapSegments s isBreak (seg ++ br :: rest) w) ∧
    (isBreak br = true → (∀ c ∈ seg, isBreak c = false) → (seg ++ [br]).length ≤ 32766 →
      wrapSegments s isBreak (seg ++ [br]) w = wrapSegments s isBreak seg w) ∧
    (text.length ≤ 32766 → (∀ c ∈ text, isBreak c = true) →
      wrapSegments s isBreak text w = some []) ∧
    (text.length ≤ 32766 → (∀ c ∈ text, isCaptionBreak c = true) →
      captionLinesFor s text w = some []) ∧
    (text.length ≤ 32766 → (∀ c ∈ text, showActivityLiveLog.isLogBreak c = true) →
      showActivityLiveLog.displayLineCount s text w = some 0) := by
  have hall : ∀ (isB : Char → Bool), text.length ≤ 32766 → (∀ c ∈ text, isB c = true) →
      wrapSegments s isB text w = some [] := by
    intro isB hlen hb
    obtain ⟨lines, h1, h2, h3⟩ := wrapSegments_short s isB text w hlen
    rw [withoutBreaks_of_all_breaks isB text hb] at h2
    rw [h1, eq_nil_of_flatten_nil lines (fun l hl => (h3 l hl).1) h2]
  have hcapnil : ¬ (s.gfx = true ∧ s.contentFont.isSome = true ∧ text.length > 0) →
      captionLinesFor s text w = some [] := by
    intro h
    apply captionLinesFor_nil
    by_cases hgfx : s.gfx = true
    · by_cases hfont : s.contentFont.isSome = true
      · exact Or.inr (Or.inl (by
          by_contra h0
          exact h ⟨hgfx, hfont, by omega⟩))
      · exact Or.inr (Or.inr (by simpa using hfont))
    · exact Or.inl (by simpa using hgfx)
  have hlead : ∀ (b : Char) (r : List Char), isBreak b = true → (b :: r).length ≤ 32766 →
      wrapSegments s isBreak (b :: r) w = wrapSegments s isBreak r w := by
    intro b r hb hlen
    have h := wrapSegments_cons_segment s isBreak [] r b w (fun c hc => by cases hc) hb hlen
    rw [List.nil_append] at h
    rw [h]
    cases wrapSegments s isBreak r w with
    | none => rfl
    | some ls => rfl
  refine ⟨?_, ?_, ⟨rfl, rfl⟩, ?_, hlead br rest, ?_, ?_, hall isBreak, ?_, ?_⟩
  · intro lines hl l hmem
    exact (wrapSegments_lineOk s isBreak text w lines hl l hmem).1
  · intro lines hl l hmem
    by_cases h : s.gfx = true ∧ s.contentFont.isSome = true ∧ text.length > 0
    · obtain ⟨hgfx, hfont, h0⟩ := h
      rw [captionLinesFor_eq s text w hgfx hfont h0] at hl
      exact (wrapSegments_lineOk s isCaptionBreak text w lines hl l hmem).1
    · rw [hcapnil h] at hl
      cases hl
      cases hmem
  · intro hlen
    obtain ⟨lines, h1, _⟩ := wrapSegments_short s isBreak text w hlen
    exact ⟨lines, h1⟩
  · intro hb hb2 hnb hlen
    have hlen2 : (br2 :: rest).length ≤ 32766 := by
      rw [List.length_append, List.length_cons] at hlen
      omega
    have hlen3 : (seg ++ br :: rest).length ≤ 32766 := by
      rw [List.length_append, List.length_cons, List.length_cons] at hlen
      rw [List.length_append, List.length_cons]
      omega
    rw [wrapSegments_cons_segment s isBreak seg (br2 :: rest) br w hnb hb hlen,
      wrapSegments_cons_segment s isBreak seg rest br w hnb hb hlen3,
      hlead br2 rest hb2 hlen2]
  · intro hb hnb hlen
    have hlen2 : seg.length ≤ 32766 := by
      rw [List.length_append, List.length_singleton] at hlen
      omega
    rw [wrapSegments_cons_segment s isBreak seg [] br w hnb hb hlen, wrapSegments_nil,
      wrapSegments_segment s isBreak seg w hnb hlen2]
    cases segmentLines s seg w with
    | none => rfl
    | some ls =>
      show some (ls ++ []) = some ls
      rw [List.append_nil]
  · intro hlen hb
    by_cases h : s.gfx = true ∧ s.contentFont.isSome = true ∧ text.length > 0
    · obtain ⟨hgfx, hfont, h0⟩ := h
      rw [captionLinesFor_eq s text w hgfx hfont h0]
      exact hall isCaptionBreak hlen hb
    · exact hcapnil h
  · intro hlen hb
    rw [displayLineCount_eq s text w [] (hall showActivityLiveLog.isLogBreak hlen hb)]
    rfl

set_option maxRecDepth 100000 in
theorem wrap_emits_no_empty_line_witness :
    ("\n\r\n".toList.length ≤ 32766 ∧ ∀ c ∈ "\n\r\n".toList, isCaptionBreak c = true) ∧
    captionLinesFor (boundUi (fixedFont 6) 128 64) "\n\r\n".toList 122 = some [] ∧
    captionLinesFor (boundUi (fixedFont 6) 128 64) "\n\nready\n\nset\r".toList 122
      = some ["ready".toList, "set".toList] :=
  ⟨by decide,
    (wrap_emits_no_empty_line (boundUi (fixedFont 6) 128 64) isCaptionBreak "\n\r\n".toList
      "set".toList "ready".toList '\n' '\r' 122 0).2.2.2.2.2.2.2.2.1 (by decide) (by decide),
    by decide⟩

/-- C21 as stated fails on a text of 32767 line breaks: `(int16_t)32767` is the
largest `int16_t`, so the condition `pos <= 32767` of the loop over the text
never fails and the wrap does not come to an end with zero lines; neither does
the counting pass of the log. -/
theorem wrap_emits_no_empty_line_counterexample :
    (∀ c ∈ List.replicate 32767 '\n', isCaptionBreak c = true) ∧
    captionLines (boundUi (fixedFont 6) 128 64) (List.replicate 32767 '\n') = none ∧
    showActivityLiveLog.displayLineCount (boundUi (fixedFont 6) 128 64)
      (List.replicate 32767 '\n') 118 = none := by
  refine ⟨?_, ?_, ?_⟩
  · intro c hc
    rw [List.eq_of_mem_replicate hc]
    decide
  · unfold captionLines captionLinesFor wrapSegments
    rw [List.length_replicate]
    rfl
  · unfold showActivityLiveLog.displayLineCount
    rw [List.length_replicate]
    rfl

/-! ## A caption that is too wide -/

theorem captionCalls_eq (s : Ui) (lh : Nat) :
    ∀ (lines : List (List Char)) (drawY : Int),
      ∃ n, n ≤ lines.length ∧
        showRunningActivity.captionCalls s lh lines drawY
          = (List.range n).map (showRunningActivity.captionCallAt s lh lines drawY) ∧
        (∀ i, i < n →
          showRunningActivity.baselineY s (showRunningActivity.drawYAt lh i drawY)
            ≤ showRunningActivity.maxBaseline s) ∧
        (n < lines.length →
          showRunningActivity.baselineY s (showRunningActivity.drawYAt lh n drawY)
            > showRunningActivity.maxBaseline s) := by
  intro lines
  induction lines with
  | nil => intro _; exact ⟨0, le_refl _, rfl, fun i hi => by omega, fun h => by cases h⟩
  | cons l t ih =>
    intro drawY
    by_cases h : showRunningActivity.baselineY s drawY > showRunningActivity.maxBaseline s
    · refine ⟨0, Nat.zero_le _, ?_, fun i hi => by omega, fun _ => h⟩
      rw [showRunningActivity.captionCalls, if_pos h]
      rfl
    · obtain ⟨n, hn, hcalls, hle, hgt⟩ := ih (toInt16 (drawY + (lh : Int)))
      refine ⟨n + 1, by rw [List.length_cons]; omega, ?_, ?_, ?_⟩
      · rw [showRunningActivity.captionCalls, if_neg h, hcalls, List.range_succ_eq_map,
          List.map_cons, List.map_map]
        rfl
      · intro i hi
        cases i with
        | zero => exact not_lt.1 h
        | succ i => exact hle i (by omega)
      · intro hlt
        rw [List.length_cons] at hlt
        exact hgt (by omega)

theorem drawYAt_eq (lh : Nat) :
    ∀ (i : Nat) (drawY : Int), -32768 ≤ drawY → drawY + (i : Int) * (lh : Int) ≤ 32767 →
      showRunningActivity.drawYAt lh i drawY = drawY + (i : Int) * (lh : Int) := by
  intro i
  induction i with
  | zero =>
    intro drawY _ _
    rw [showRunningActivity.drawYAt]
    omega
  | succ i ih =>
    intro drawY hlo hhi
    have hmul : ((i + 1 : Nat) : Int) * (lh : Int) = (i : Int) * (lh : Int) + (lh : Int) := by
      push_cast
      ring
    have hnn : 0 ≤ (i : Int) * (lh : Int) :=
      Int.mul_nonneg (Int.ofNat_nonneg i) (Int.ofNat_nonneg lh)
    rw [hmul] at hhi ⊢
    have hstep : toInt16 (drawY + (lh : Int)) = drawY + (lh : Int) := by
      unfold toInt16
      omega
    rw [showRunningActivity.drawYAt, hstep, ih (drawY + (lh : Int)) (by omega) (by omega)]
    omega

theorem lineX_centred (s : Ui) (line : List Char)
    (hw : contentWidth s ≤ 32767)
    (h0 : 0 ≤ strWidth s line s.contentFont s.contentSize)
    (h1 : strWidth s line s.contentFont s.contentSize ≤ (contentWidth s : Int)) :
    showRunningActivity.lineX s line
      = (contentBoxThickness : Int)
        + ((contentWidth s : Int) - strWidth s line s.contentFont s.contentSize) / 2 := by
  unfold showRunningActivity.lineX
  generalize strWidth s line s.contentFont s.contentSize = w at h0 h1 ⊢
  have hcb : toInt16 (contentBoxThickness : Int) = (contentBoxThickness : Int) := by decide
  have hcb2 : (contentBoxThickness : Int) = 2 := rfl
  have hcw : toInt16 (contentWidth s : Int) = (contentWidth s : Int) := by
    unfold toInt16; omega
  rw [hcb, hcw, Int.tdiv_eq_ediv (by omega) (by omega), hcb2]
  unfold toInt16
  omega

/-- C22, as amended: with a display and a content font bound, a caption of at
most 32766 characters passed to `showRunningActivity` (with a line height that
fits its `uint16_t`) is never shortened and no character is added to it: it is
cut into display lines whose characters, in order, are those of the caption
without its line breaks, each line measured not wider than the content area
less its padding unless it is a single character.  After the bitmap, drawn at
`(bmpX, groupTop)`, the calls are the prints of the first `n` lines in order,
line `i` at `x = lineX` and at the baseline `drawY + contentFontHeight - 1`,
where `drawY` starts at `groupTop + bitmapH` and grows by `lineHeight` per line
(in `int16_t`; it is `groupTop + bitmapH + i * lineHeight` while that is at most
32767).  The baselines of these `n` lines are at most `maxBaseline`, and `n` is
the number of lines unless line `n` has its baseline below `maxBaseline`, where
the loop stops.  `lineX` is `contentLeft + (contentWidth - lineW) / 2`, which
centres a line whose measured width is between 0 and `contentWidth ≤ 32767`.  A
caption of at least 2 characters without line breaks that is too wide gives at
least 2 lines. -/
theorem caption_is_wrapped (s : Ui) (bitmap bitmapW bitmapH : Nat) (caption : List Char)
    (hgfx : s.gfx = true) (hfont : s.contentFont.isSome = true)
    (hlen : caption.length ≤ 32766)
    (hlh : s.contentFontHeight + s.contentFontHeight / 5 ≤ 65535) :
    ∃ lines n,
      captionLines s caption = some lines ∧
      lines.flatten = withoutBreaks isCaptionBreak caption ∧
      (∀ l ∈ lines, lineOk s (captionAvailWidth s) l) ∧
      n ≤ lines.length ∧
      showRunningActivity s bitmap bitmapW bitmapH caption
        = some (DrawCall.drawBitmap (showRunningActivity.bmpX s bitmapW)
            (showRunningActivity.groupTop s caption bitmapH lines.length
              (s.contentFontHeight + s.contentFontHeight / 5))
            bitmap (bitmapW : Int) (bitmapH : Int) 1
          :: (List.range n).map (fun i =>
            DrawCall.print (showRunningActivity.lineX s (lines.getD i []))
              (showRunningActivity.baselineY s
                (showRunningActivity.drawYAt (s.contentFontHeight + s.contentFontHeight / 5) i
                  (toInt16 (showRunningActivity.groupTop s caption bitmapH lines.length
                    (s.contentFontHeight + s.contentFontHeight / 5)
                      + toInt16 (bitmapH : Int)))))
              1 (lines.getD i []))) ∧
      (∀ i, i < n →
        showRunningActivity.baselineY s
            (showRunningActivity.drawYAt (s.contentFontHeight + s.contentFontHeight / 5) i
              (toInt16 (showRunningActivity.groupTop s caption bitmapH lines.length
                (s.contentFontHeight + s.contentFontHeight / 5) + toInt16 (bitmapH : Int))))
          ≤ showRunningActivity.maxBaseline s) ∧
      (n < lines.length →
        showRunningActivity.baselineY s
            (showRunningActivity.drawYAt (s.contentFontHeight + s.contentFontHeight / 5) n
              (toInt16 (showRunningActivity.groupTop s caption bitmapH lines.length
                (s.contentFontHeight + s.contentFontHeight / 5) + toInt16 (bitmapH : Int))))
          > showRunningActivity.maxBaseline s) ∧
      (∀ i : Nat, toInt16 (showRunningActivity.groupTop s caption bitmapH lines.length
            (s.contentFontHeight + s.contentFontHeight / 5) + toInt16 (bitmapH : Int))
          + (i : Int) * ((s.contentFontHeight + s.contentFontHeight / 5 : Nat) : Int) ≤ 32767 →
        showRunningActivity.drawYAt (s.contentFontHeight + s.contentFontHeight / 5) i
            (toInt16 (showRunningActivity.groupTop s caption bitmapH lines.length
              (s.contentFontHeight + s.contentFontHeight / 5) + toInt16 (bitmapH : Int)))
          = toInt16 (showRunningActivity.groupTop s caption bitmapH lines.length
              (s.contentFontHeight + s.contentFontHeight / 5) + toInt16 (bitmapH : Int))
            + (i : Int) * ((s.contentFontHeight + s.contentFontHeight / 5 : Nat) : Int)) ∧
      (∀ l, contentWidth s ≤ 32767 →
        0 ≤ strWidth s l s.contentFont s.contentSize →
        strWidth s l s.contentFont s.contentSize ≤ (contentWidth s : Int) →
        showRunningActivity.lineX s l
          = (contentBoxThickness : Int)
            + ((contentWidth s : Int) - strWidth s l s.contentFont s.contentSize) / 2) ∧
      ((∀ c ∈ caption, isCaptionBreak c = false) → 2 ≤ caption.length →
        strWidth s caption s.contentFont s.contentSize > (captionAvailWidth s : Int) →
        2 ≤ lines.length) := by
  have hg : ¬ s.gfx = false := by rw [hgfx]; decide
  have hlines : ∃ lines, captionLines s caption = some lines ∧
      lines.flatten = withoutBreaks isCaptionBreak caption ∧
      (∀ l ∈ lines, lineOk s (captionAvailWidth s) l) := by
    unfold captionLines
    by_cases h0 : caption.length > 0
    · rw [captionLinesFor_eq s caption _ hgfx hfont h0]
      exact wrapSegments_short s isCaptionBreak caption _ hlen
    · rw [captionLinesFor_nil s caption _ (Or.inr (Or.inl (by omega)))]
      have hnil : caption = [] := List.eq_nil_of_length_eq_zero (by omega)
      refine ⟨[], rfl, ?_, fun l hl => by cases hl⟩
      rw [hnil]
      rfl
  obtain ⟨lines, h1, h2, h3⟩ := hlines
  obtain ⟨n, hn, hcalls, hle, hgt⟩ := captionCalls_eq s
    (s.contentFontHeight + s.contentFontHeight / 5) lines
    (toInt16 (showRunningActivity.groupTop s caption bitmapH lines.length
      (s.contentFontHeight + s.contentFontHeight / 5) + toInt16 (bitmapH : Int)))
  have hempty : showRunningActivity.hasCaption s caption = false → lines = [] := by
    intro hcap
    unfold showRunningActivity.hasCaption at hcap
    rw [hfont, Bool.and_true, decide_eq_false_iff_not] at hcap
    unfold captionLines at h1
    rw [captionLinesFor_nil s caption _ (Or.inr (Or.inl (by omega)))] at h1
    cases h1
    rfl
  refine ⟨lines, n, h1, h2, h3, hn, ?_, hle, hgt,
    fun i hi => drawYAt_eq _ i _ (toInt16_range _).1 hi,
    fun l hw h0 hle2 => lineX_centred s l hw h0 hle2, ?_⟩
  · unfold showRunningActivity showRunningActivity.lineHeight
    rw [if_neg hg, if_pos hlh, h1]
    simp only [Option.some_bind]
    by_cases hcap : showRunningActivity.hasCaption s caption = true
    · rw [if_pos hcap, hcalls]
      rfl
    · rw [if_neg hcap]
      have hl0 := hempty (by simpa using hcap)
      have hn0 : n = 0 := by rw [hl0] at hn; exact Nat.le_zero.1 hn
      rw [hn0]
      rfl
  · intro hnb hlen2 hwide
    have hwb : withoutBreaks isCaptionBreak caption = caption := by
      unfold withoutBreaks
      rw [List.filter_eq_self]
      intro c hc
      rw [hnb c hc]
      rfl
    rw [hwb] at h2
    match lines, h2, h3 with
    | [], h2, _ =>
      rw [← h2] at hlen2
      simp at hlen2
    | [l], h2, h3 =>
      have hl : l = caption := by simpa using h2
      have hok := h3 l (List.mem_singleton.2 rfl)
      rw [hl] at hok
      rcases hok.2 with hfit | hone
      · omega
      · omega
    | _ :: _ :: _, _, _ =>
      simp only [List.length_cons]
      omega

set_option maxRecDepth 100000 in
theorem caption_is_wrapped_witness :
    ((boundUi (fixedFont 6) 128 64).gfx = true ∧
      (boundUi (fixedFont 6) 128 64).contentFont.isSome = true ∧
      "Downloading firmware update".toList.length ≤ 32766 ∧
      (boundUi (fixedFont 6) 128 64).contentFontHeight
        + (boundUi (fixedFont 6) 128 64).contentFontHeight / 5 ≤ 65535) ∧
    showRunningActivity (boundUi (fixedFont 6) 128 40) 7 16 16
        "Downloading firmware update".toList
      = some [DrawCall.drawBitmap 56 12 7 16 16 1,
          DrawCall.print 28 35 1 "Downloading ".toList] ∧
    ∃ lines n,
      captionLines (boundUi (fixedFont 6) 128 64) "Downloading firmware update".toList = some lines ∧
      lines.flatten = withoutBreaks isCaptionBreak "Downloading firmware update".toList ∧
      (∀ l ∈ lines, lineOk (boundUi (fixedFont 6) 128 64) (captionAvailWidth (boundUi (fixedFont 6) 128 64)) l) ∧
      n ≤ lines.length ∧
      showRunningActivity (boundUi (fixedFont 6) 128 64) 7 16 16 "Downloading firmware update".toList
        = some (DrawCall.drawBitmap (showRunningActivity.bmpX (boundUi (fixedFont 6) 128 64) 16)
            (showRunningActivity.groupTop (boundUi (fixedFont 6) 128 64) "Downloading firmware update".toList 16 lines.length
              ((boundUi (fixedFont 6) 128 64).contentFontHeight + (boundUi (fixedFont 6) 128 64).contentFontHeight / 5))
            7 ((16 : Nat) : Int) ((16 : Nat) : Int) 1
          :: (List.range n).map (fun i =>
            DrawCall.print (showRunningActivity.lineX (boundUi (fixedFont 6) 128 64) (lines.getD i []))
              (showRunningActivity.baselineY (boundUi (fixedFont 6) 128 64)
                (showRunningActivity.drawYAt ((boundUi (fixedFont 6) 128 64).contentFontHeight + (boundUi (fixedFont 6) 128 64).contentFontHeight / 5) i
                  (toInt16 (showRunningActivity.groupTop (boundUi (fixedFont 6) 128 64) "Downloading firmware update".toList 16 lines.length
                    ((boundUi (fixedFont 6) 128 64).contentFontHeight + (boundUi (fixedFont 6) 128 64).contentFontHeight / 5)
                      + toInt16 ((16 : Nat) : Int)))))
              1 (lines.getD i []))) ∧
      (∀ i, i < n →
        showRunningActivity.baselineY (boundUi (fixedFont 6) 128 64)
            (showRunningActivity.drawYAt ((boundUi (fixedFont 6) 128 64).contentFontHeight + (boundUi (fixedFont 6) 128 64).contentFontHeight / 5) i
              (toInt16 (showRunningActivity.groupTop (boundUi (fixedFont 6) 128 64) "Downloading firmware update".toList 16 lines.length
                ((boundUi (fixedFont 6) 128 64).contentFontHeight + (boundUi (fixedFont 6) 128 64).contentFontHeight / 5) + toInt16 ((16 : Nat) : Int))))
          ≤ showRunningActivity.maxBaseline (boundUi (fixedFont 6) 128 64)) ∧
      (n < lines.length →
        showRunningActivity.baselineY (boundUi (fixedFont 6) 128 64)
            (showRunningActivity.drawYAt ((boundUi (fixedFont 6) 128 64).contentFontHeight + (boundUi (fixedFont 6) 128 64).contentFontHeight / 5) n
              (toInt16 (showRunningActivity.groupTop (boundUi (fixedFont 6) 128 64) "Downloading firmware update".toList 16 lines.length
                ((boundUi (fixedFont 6) 128 64).contentFontHeight + (boundUi (fixedFont 6) 128 64).contentFontHeight / 5) + toInt16 ((16 : Nat) : Int))))
          > showRunningActivity.maxBaseline (boundUi (fixedFont 6) 128 64)) ∧
      (∀ i : Nat, toInt16 (showRunningActivity.groupTop (boundUi (fixedFont 6) 128 64) "Downloading firmware update".toList 16 lines.length
            ((boundUi (fixedFont 6) 128 64).contentFontHeight + (boundUi (fixedFont 6) 128 64).contentFontHeight / 5) + toInt16 ((16 : Nat) : Int))
          + (i : Int) * (((boundUi (fixedFont 6) 128 64).contentFontHeight + (boundUi (fixedFont 6) 128 64).contentFontHeight / 5 : Nat) : Int) ≤ 32767 →
        showRunningActivity.drawYAt ((boundUi (fixedFont 6) 128 64).contentFontHeight + (boundUi (fixedFont 6) 128 64).contentFontHeight / 5) i
            (toInt16 (showRunningActivity.groupTop (boundUi (fixedFont 6) 128 64) "Downloading firmware update".toList 16 lines.length
              ((boundUi (fixedFont 6) 128 64).contentFontHeight + (boundUi (fixedFont 6) 128 64).contentFontHeight / 5) + toInt16 ((16 : Nat) : Int)))
          = toInt16 (showRunningActivity.groupTop (boundUi (fixedFont 6) 128 64) "Downloading firmware update".toList 16 lines.length
              ((boundUi (fixedFont 6) 128 64).contentFontHeight + (boundUi (fixedFont 6) 128 64).contentFontHeight / 5) + toInt16 ((16 : Nat) : Int))
            + (i : Int) * (((boundUi (fixedFont 6) 128 64).contentFontHeight + (boundUi (fixedFont 6) 128 64).contentFontHeight / 5 : Nat) : Int)) ∧
      (∀ l, contentWidth (boundUi (fixedFont 6) 128 64) ≤ 32767 →
        0 ≤ strWidth (boundUi (fixedFont 6) 128 64) l (boundUi (fixedFont 6) 128 64).contentFont (boundUi (fixedFont 6) 128 64).contentSize →
        strWidth (boundUi (fixedFont 6) 128 64) l (boundUi (fixedFont 6) 128 64).contentFont (boundUi (fixedFont 6) 128 64).contentSize ≤ (contentWidth (boundUi (fixedFont 6) 128 64) : Int) →
        showRunningActivity.lineX (boundUi (fixedFont 6) 128 64) l
          = (contentBoxThickness : Int)
            + ((contentWidth (boundUi (fixedFont 6) 128 64) : Int) - strWidth (boundUi (fixedFont 6) 128 64) l (boundUi (fixedFont 6) 128 64).contentFont (boundUi (fixedFont 6) 128 64).contentSize) / 2) ∧
      ((∀ c ∈ "Downloading firmware update".toList, isCaptionBreak c = false) → 2 ≤ "Downloading firmware update".toList.length →
        strWidth (boundUi (fixedFont 6) 128 64) "Downloading firmware update".toList (boundUi (fixedFont 6) 128 64).contentFont (boundUi (fixedFont 6) 128 64).contentSize > (captionAvailWidth (boundUi (fixedFont 6) 128 64) : Int) →
        2 ≤ lines.length) :=
  ⟨⟨rfl, rfl, by decide, by decide⟩, by decide,
    caption_is_wrapped (boundUi (fixedFont 6) 128 64) 7 16 16
      "Downloading firmware update".toList rfl rfl (by decide) (by decide)⟩

set_option maxRecDepth 100000 in
/-- C22 fails: the caption "Downloading firmware update" is 162 px wide at 6 px
per character and the content area of a 128 px display offers 122 px; the
caption is not shortened to one line that ends in an ellipsis, it is printed in
full on two lines, "Downloading " and "firmware update". -/
theorem caption_is_wrapped_counterexample :
    strWidth (boundUi (fixedFont 6) 128 64) "Downloading firmware update".toList
      (boundUi (fixedFont 6) 128 64).contentFont (boundUi (fixedFont 6) 128 64).contentSize
      = 162 ∧
    captionAvailWidth (boundUi (fixedFont 6) 128 64) = 122 ∧
    showRunningActivity (boundUi (fixedFont 6) 128 64) 7 16 16
        "Downloading firmware update".toList
      = some [DrawCall.drawBitmap 56 20 7 16 16 1,
          DrawCall.print 28 43 1 "Downloading ".toList,
          DrawCall.print 19 52 1 "firmware update".toList] := by
  decide

/-! ## The rows of the option list -/

theorem topIndex_eq_min (s : Ui) (numOptions cursorPos : Nat)
    (hn : numOptions < 256) (hc : cursorPos < 256)
    (hgt : numOptions > showOptionSelect.fullyVisibleCount s) :
    showOptionSelect.topIndex s numOptions cursorPos
      = min (cursorPos - showOptionSelect.fullyVisibleCount s / 2)
          (numOptions - showOptionSelect.fullyVisibleCount s - 1) := by
  have h1 := fullyVisibleCount_pos s
  have h2 := fullyVisibleCount_le s
  unfold showOptionSelect.topIndex
  generalize showOptionSelect.fullyVisibleCount s = f at h1 h2 hgt ⊢
  rw [if_pos hgt]
  have e1 : toInt16 (cursorPos : Int) = (cursorPos : Int) := by unfold toInt16; omega
  have e2 : toInt16 ((f / 2 : Nat) : Int) = ((f / 2 : Nat) : Int) := by unfold toInt16; omega
  have e3 : toInt16 ((cursorPos : Int) - ((f / 2 : Nat) : Int))
      = (cursorPos : Int) - ((f / 2 : Nat) : Int) := by unfold toInt16; omega
  have e4 : toInt16 (numOptions : Int) = (numOptions : Int) := by unfold toInt16; omega
  have e5 : toInt16 (f : Int) = (f : Int) := by unfold toInt16; omega
  have e6 : toInt16 ((numOptions : Int) - (f : Int) - 1) = (numOptions : Int) - (f : Int) - 1 := by
    unfold toInt16; omega
  simp only [e1, e2, e3, e4, e5, e6, toUInt8]
  split_ifs <;> omega

theorem window_within_options (s : Ui) (numOptions cursorPos : Nat)
    (hn : numOptions < 256) (hc : cursorPos < 256) :
    showOptionSelect.topIndex s numOptions cursorPos
      + showOptionSelect.visibleCount s numOptions ≤ numOptions := by
  have h1 := fullyVisibleCount_pos s
  have h2 := fullyVisibleCount_le s
  by_cases hgt : numOptions > showOptionSelect.fullyVisibleCount s
  · rw [topIndex_eq_min s numOptions cursorPos hn hc hgt]
    unfold showOptionSelect.visibleCount toUInt8
    rw [if_pos hgt]
    omega
  · unfold showOptionSelect.topIndex showOptionSelect.visibleCount
    rw [if_neg hgt, if_neg hgt]
    omega

theorem rowCalls_eq (s : Ui) (options : List (List Char)) (numOptions cursorPos : Nat) :
    ∀ (turns row : Nat),
      showOptionSelect.topIndex s numOptions cursorPos + row + turns ≤ numOptions →
      numOptions < 256 →
      showOptionSelect.rowCalls s options numOptions cursorPos turns row
        = ((List.range' row turns).map fun r =>
            showOptionSelect.rowCallsAt s options numOptions cursorPos r
              (showOptionSelect.topIndex s numOptions cursorPos + r)).flatten := by
  intro turns
  induction turns with
  | zero => intro row _ _; rfl
  | succ turns ih =>
    intro row hle hn
    have hi : toUInt8 ((showOptionSelect.topIndex s numOptions cursorPos : Int) + (row : Int))
        = showOptionSelect.topIndex s numOptions cursorPos + row := by
      unfold toUInt8; omega
    rw [showOptionSelect.rowCalls, hi, if_neg (by omega), ih (row + 1) (by omega) hn,
      List.range'_succ, List.map_cons, List.flatten_cons]

/-- C24: for every `numOptions` and `cursorPos` (both `uint8_t`) and every
object (so every content height and option height), the window of
`showOptionSelect` satisfies `topIndex + visibleCount ≤ numOptions`; so for every
`row < visibleCount` the index `i = topIndex + row` is not cut by its `uint8_t`
and is below `numOptions`, and the loop over the rows never takes its
`if (i >= numOptions) break`: it draws the row of every `row < visibleCount`. -/
theorem window_indices_valid (s : Ui) (options : List (List Char))
    (numOptions cursorPos : Nat) (hn : numOptions < 256) (hc : cursorPos < 256) :
    showOptionSelect.topIndex s numOptions cursorPos
      + showOptionSelect.visibleCount s numOptions ≤ numOptions ∧
    (∀ row, row < showOptionSelect.visibleCount s numOptions →
      toUInt8 ((showOptionSelect.topIndex s numOptions cursorPos : Int) + (row : Int))
        = showOptionSelect.topIndex s numOptions cursorPos + row ∧
      showOptionSelect.topIndex s numOptions cursorPos + row < numOptions) ∧
    showOptionSelect.rowCalls s options numOptions cursorPos
        (showOptionSelect.visibleCount s numOptions) 0
      = ((List.range (showOptionSelect.visibleCount s numOptions)).map fun row =>
          showOptionSelect.rowCallsAt s options numOptions cursorPos row
            (showOptionSelect.topIndex s numOptions cursorPos + row)).flatten := by
  have hw := window_within_options s numOptions cursorPos hn hc
  refine ⟨hw, ?_, ?_⟩
  · intro row hrow
    constructor
    · unfold toUInt8; omega
    · omega
  · rw [rowCalls_eq s options numOptions cursorPos _ 0 (by omega) hn, List.range_eq_range']

set_option maxRecDepth 100000 in
theorem window_indices_valid_witness :
    (7 < 256 ∧ 6 < 256) ∧
    showOptionSelect.topIndex (boundUi (fixedFont 6) 128 64) 7 6 = 1 ∧
    showOptionSelect.visibleCount (boundUi (fixedFont 6) 128 64) 7 = 6 ∧
    showOptionSelect.topIndex (boundUi (fixedFont 6) 128 64) 7 6
      + showOptionSelect.visibleCount (boundUi (fixedFont 6) 128 64) 7 ≤ 7 :=
  ⟨by decide, by decide, by decide,
    (window_indices_valid (boundUi (fixedFont 6) 128 64)
      ["a".toList, "b".toList, "c".toList, "d".toList, "e".toList, "f".toList, "g".toList]
      7 6 (by decide) (by decide)).1⟩

/-! ## The last row of the option list -/

/-- C23, what the code does: when the list does not fit
(`numOptions > fullyVisibleCount`) and the cursor is on the last option, the
last row drawn is the row `fullyVisibleCount`, it shows the selected last option,
and `contentTop` was moved up by 4 px only.  Its highlight starts at
`optionPos + optionPadding` and its bottom edge is
`contentTop + optionHeight * (fullyVisibleCount + 1) - 3`, which is within the
content area (`≤ contentTop + contentHeight`) if and only if
`contentHeight % optionHeight ≥ optionHeight - 3`.  The widths of the integer
types are not exceeded: the display is at most 65535 px high and holds the title
bar, the font is at most 253 px high, and at least one and at most 255 options
fit the content box. -/
theorem last_row_bottom_edge (s : Ui) (options : List (List Char)) (numOptions : Nat)
    (hdh : s.titleFontHeight + 6 ≤ s.displayHeight) (hdh2 : s.displayHeight ≤ 65535)
    (hcfh : s.contentFontHeight ≤ 253)
    (hfit : s.contentFontHeight + 2 ≤ contentHeight s)
    (hq : contentHeight s / (s.contentFontHeight + 2) ≤ 255)
    (hn : numOptions < 256) (hgt : numOptions > showOptionSelect.fullyVisibleCount s) :
    showOptionSelect.optionHeight s = s.contentFontHeight + 2 ∧
    showOptionSelect.fullyVisibleCount s = contentHeight s / showOptionSelect.optionHeight s ∧
    showOptionSelect.visibleCount s numOptions = showOptionSelect.fullyVisibleCount s + 1 ∧
    showOptionSelect.topIndex s numOptions (numOptions - 1)
      + showOptionSelect.fullyVisibleCount s = numOptions - 1 ∧
    (showOptionSelect.rowsTop s numOptions (numOptions - 1) : Int) = (contentTop s : Int) - 4 ∧
    (showOptionSelect.rowCallsAt s options numOptions (numOptions - 1)
        (showOptionSelect.fullyVisibleCount s) (numOptions - 1)).head?
      = some (DrawCall.fillRect ((contentBoxThickness : Int) + (optionPadding : Int))
          ((showOptionSelect.optionPos s numOptions (numOptions - 1)
              (showOptionSelect.fullyVisibleCount s) : Int) + (optionPadding : Int))
          (showOptionSelect.rowWidth s) (showOptionSelect.optionHeight s : Int) 1) ∧
    (showOptionSelect.optionPos s numOptions (numOptions - 1)
          (showOptionSelect.fullyVisibleCount s) : Int)
        + (optionPadding : Int) + (showOptionSelect.optionHeight s : Int)
      = (contentTop s : Int)
        + ((showOptionSelect.optionHeight s * (showOptionSelect.fullyVisibleCount s + 1) : Nat)
            : Int) - 3 ∧
    ((showOptionSelect.optionPos s numOptions (numOptions - 1)
          (showOptionSelect.fullyVisibleCount s) : Int)
        + (optionPadding : Int) + (showOptionSelect.optionHeight s : Int)
        ≤ (contentTop s : Int) + (contentHeight s : Int)
      ↔ showOptionSelect.optionHeight s
        ≤ contentHeight s % showOptionSelect.optionHeight s + 3) := by
  have hoh : showOptionSelect.optionHeight s = s.contentFontHeight + 2 := by
    unfold showOptionSelect.optionHeight toUInt8 optionPadding
    omega
  have hdiv : 1 ≤ contentHeight s / (s.contentFontHeight + 2) :=
    (Nat.one_le_div_iff (by omega)).2 hfit
  have hfvc : showOptionSelect.fullyVisibleCount s
      = contentHeight s / showOptionSelect.optionHeight s := by
    have hx : toUInt8 ((contentHeight s / (s.contentFontHeight + 2) : Nat) : Int)
        = contentHeight s / (s.contentFontHeight + 2) := by
      unfold toUInt8; omega
    have hne : ¬ contentHeight s / (s.contentFontHeight + 2) = 0 := by omega
    have hinit : showOptionSelect.fullyVisibleCountInit s
        = contentHeight s / (s.contentFontHeight + 2) := by
      unfold showOptionSelect.fullyVisibleCountInit
      rw [hoh, if_neg (by omega)]
      exact hx
    unfold showOptionSelect.fullyVisibleCount
    rw [hinit, if_neg hne, hoh]
  have hct : contentTop s = s.titleFontHeight + 4 := by
    unfold contentTop toUInt16 titleMargin contentBoxThickness
    omega
  have hch : contentHeight s = s.displayHeight - s.titleFontHeight - 6 := by
    unfold contentHeight toUInt16 titleMargin contentBoxThickness
    omega
  have hmod := Nat.div_add_mod (contentHeight s) (showOptionSelect.optionHeight s)
  have hlt := Nat.mod_lt (contentHeight s) (show showOptionSelect.optionHeight s > 0 by omega)
  have h1 := fullyVisibleCount_pos s
  have h2 := fullyVisibleCount_le s
  have hvis : showOptionSelect.visibleCount s numOptions
      = showOptionSelect.fullyVisibleCount s + 1 := by
    unfold showOptionSelect.visibleCount toUInt8
    rw [if_pos hgt]
    omega
  have htop : showOptionSelect.topIndex s numOptions (numOptions - 1)
      + showOptionSelect.fullyVisibleCount s = numOptions - 1 := by
    rw [topIndex_eq_min s numOptions (numOptions - 1) hn (by omega) hgt]
    omega
  have hrt : (showOptionSelect.rowsTop s numOptions (numOptions - 1) : Int)
      = (contentTop s : Int) - 4 := by
    unfold showOptionSelect.rowsTop
    rw [if_pos ⟨hgt, by omega⟩, hoh]
    have hd : Int.tdiv (((s.contentFontHeight + 2 : Nat) : Int) - (s.contentFontHeight : Int)) 2
        = 1 := by
      have : ((s.contentFontHeight + 2 : Nat) : Int) - (s.contentFontHeight : Int) = 2 := by
        omega
      rw [this]; rfl
    rw [hd, hct]
    unfold toUInt16 contentBoxThickness optionPadding
    omega
  have hprod : ((showOptionSelect.optionHeight s
      * (showOptionSelect.fullyVisibleCount s + 1) : Nat) : Int)
      = (showOptionSelect.optionHeight s : Int) * (showOptionSelect.fullyVisibleCount s : Int)
        + (showOptionSelect.optionHeight s : Int) := by
    push_cast; ring
  have hpos : (showOptionSelect.optionPos s numOptions (numOptions - 1)
      (showOptionSelect.fullyVisibleCount s) : Int)
      = (contentTop s : Int) - 4
        + (showOptionSelect.optionHeight s : Int) * (showOptionSelect.fullyVisibleCount s : Int) := by
    unfold showOptionSelect.optionPos
    rw [hrt]
    have hP : (showOptionSelect.optionHeight s : Int) * (showOptionSelect.fullyVisibleCount s : Int)
        = ((showOptionSelect.optionHeight s * (contentHeight s / showOptionSelect.optionHeight s)
            : Nat) : Int) := by
      rw [hfvc]; push_cast; rfl
    rw [hP]
    generalize showOptionSelect.optionHeight s * (contentHeight s / showOptionSelect.optionHeight s)
      = P at hmod ⊢
    unfold toUInt16
    omega
  refine ⟨hoh, hfvc, hvis, htop, hrt, ?_, ?_, ?_⟩
  · unfold showOptionSelect.rowCallsAt
    rw [if_pos rfl]
    rfl
  · rw [hpos, hprod]
    unfold optionPadding
    omega
  · rw [hpos]
    have hP : (showOptionSelect.optionHeight s : Int) * (showOptionSelect.fullyVisibleCount s : Int)
        = ((showOptionSelect.optionHeight s * (contentHeight s / showOptionSelect.optionHeight s)
            : Nat) : Int) := by
      rw [hfvc]; push_cast; rfl
    rw [hP]
    generalize showOptionSelect.optionHeight s * (contentHeight s / showOptionSelect.optionHeight s)
      = P at hmod ⊢
    unfold optionPadding
    omega

set_option maxRecDepth 100000 in
theorem last_row_bottom_edge_witness :
    ((boundUi (fixedFont 6) 128 64).titleFontHeight + 6 ≤ (boundUi (fixedFont 6) 128 64).displayHeight ∧
      (boundUi (fixedFont 6) 128 64).displayHeight ≤ 65535 ∧
      (boundUi (fixedFont 6) 128 64).contentFontHeight ≤ 253 ∧
      (boundUi (fixedFont 6) 128 64).contentFontHeight + 2
        ≤ contentHeight (boundUi (fixedFont 6) 128 64) ∧
      contentHeight (boundUi (fixedFont 6) 128 64)
        / ((boundUi (fixedFont 6) 128 64).contentFontHeight + 2) ≤ 255 ∧
      7 < 256 ∧ 7 > showOptionSelect.fullyVisibleCount (boundUi (fixedFont 6) 128 64)) ∧
    (contentTop (boundUi (fixedFont 6) 128 64) = 12 ∧
      contentHeight (boundUi (fixedFont 6) 128 64) = 50 ∧
      showOptionSelect.optionHeight (boundUi (fixedFont 6) 128 64) = 10 ∧
      showOptionSelect.fullyVisibleCount (boundUi (fixedFont 6) 128 64) = 5) ∧
    showOptionSelect (boundUi (fixedFont 6) 128 64)
        ["a".toList, "b".toList, "c".toList, "d".toList, "e".toList, "f".toList, "g".toList]
        7 6
      = [DrawCall.drawRect 122 13 3 48 1, DrawCall.drawRect 123 27 1 34 1,
          DrawCall.print 4 16 1 "b".toList, DrawCall.print 4 26 1 "c".toList,
          DrawCall.print 4 36 1 "d".toList, DrawCall.print 4 46 1 "e".toList,
          DrawCall.print 4 56 1 "f".toList, DrawCall.fillRect 3 59 118 10 1,
          DrawCall.print 8 66 0 "g".toList] ∧
    ¬ ((showOptionSelect.optionPos (boundUi (fixedFont 6) 128 64) 7 (7 - 1)
          (showOptionSelect.fullyVisibleCount (boundUi (fixedFont 6) 128 64)) : Int)
        + (optionPadding : Int)
        + (showOptionSelect.optionHeight (boundUi (fixedFont 6) 128 64) : Int)
        ≤ (contentTop (boundUi (fixedFont 6) 128 64) : Int)
          + (contentHeight (boundUi (fixedFont 6) 128 64) : Int)) :=
  ⟨by decide, by decide, by decide,
    fun h => absurd
      ((last_row_bottom_edge (boundUi (fixedFont 6) 128 64)
        ["a".toList, "b".toList, "c".toList, "d".toList, "e".toList, "f".toList, "g".toList]
        7 (by decide) (by decide) (by decide) (by decide) (by decide) (by decide)
        (by decide)).2.2.2.2.2.2.2.1 h)
      (by decide)⟩

/-! ## The two passes of the live log -/

theorem getD_map_append_singleton (f : List Char → Nat) (older : List (List Char))
    (newest : List Char) :
    ((older ++ [newest]).map f).getD older.length 0 = f newest := by
  rw [List.getD_eq_getElem?_getD, List.map_append, List.getElem?_append_right (by simp)]
  simp

/-- C26, as amended: with a display and a content font bound, for every log
buffer of at most 32768 entries (each of at most 32766 characters) whose
newest entry alone wraps to more display lines than `visibleLineCount` and to
fewer than 256 (its count is kept in a `uint8_t`), the tail walk stops at the
newest entry and sets `startIndex` to the buffer length (as an `int16_t`: the
length itself for fewer than 32768 entries, -32768 for 32768), the drawing loop
`for (uint16_t i = startIndex; i < totalLines; i++)` starts at the buffer
length, and `showActivityLiveLog` draws no log line at all: its only calls are
the label "Log:" and the border of the log window. -/
theorem oversized_newest_entry (s : Ui) (K : Nat) (older : List (List Char))
    (newest : List Char)
    (hgfx : s.gfx = true) (hfont : s.contentFont.isSome = true)
    (hlog : s.logLines = older ++ [newest]) (hN : s.logLines.length ≤ 32768)
    (hlen : ∀ e ∈ s.logLines, e.length ≤ 32766)
    (hK : showActivityLiveLog.visibleLineCount s = some K)
    (hbig : K < (showActivityLiveLog.entryLines s (showActivityLiveLog.availWidth s)
      newest).length)
    (h256 : (showActivityLiveLog.entryLines s (showActivityLiveLog.availWidth s)
      newest).length < 256) :
    ∃ counts,
      showActivityLiveLog.lineDisplayCounts s (showActivityLiveLog.availWidth s) s.logLines
        = some counts ∧
      showActivityLiveLog.startIndex counts K s.logLines.length
        = toInt16 (s.logLines.length : Int) ∧
      (s.logLines.length < 32768 →
        showActivityLiveLog.startIndex counts K s.logLines.length = s.logLines.length) ∧
      showActivityLiveLog.firstDrawn counts K s.logLines.length = s.logLines.length ∧
      showActivityLiveLog.drawnLines s (showActivityLiveLog.availWidth s) K = some [] ∧
      showActivityLiveLog s
        = some [DrawCall.print (showActivityLiveLog.logWindowLeft : Int)
            (showActivityLiveLog.labelBaseline s) 1 "Log:".toList,
          DrawCall.drawRect (showActivityLiveLog.logWindowLeft : Int)
            (showActivityLiveLog.logWindowTop s : Int)
            (showActivityLiveLog.logWindowWidth s : Int)
            (showActivityLiveLog.logWindowHeight s : Int) 1] := by
  have hcounts := lineDisplayCounts_mod s (showActivityLiveLog.availWidth s) s.logLines hlen
  have hNlen : s.logLines.length = older.length + 1 := by
    rw [hlog, List.length_append, List.length_singleton]
  have hKlt := visibleLineCount_lt s K hK
  have hclen : (s.logLines.map (fun e =>
      (showActivityLiveLog.entryLines s (showActivityLiveLog.availWidth s) e).length
        % 256)).length = s.logLines.length := List.length_map _ _
  have hfirst : showActivityLiveLog.firstDrawn (s.logLines.map (fun e =>
        (showActivityLiveLog.entryLines s (showActivityLiveLog.availWidth s) e).length % 256))
      K s.logLines.length = s.logLines.length := by
    have h := firstDrawn_eq (s.logLines.map (fun e =>
        (showActivityLiveLog.entryLines s (showActivityLiveLog.availWidth s) e).length % 256))
      K (by omega) (by rw [hclen]; exact hN)
    rw [hclen] at h
    rw [h]
    conv_lhs => rw [hNlen]
    rw [showActivityLiveLog.tailWalk, hlog,
      getD_map_append_singleton (fun e =>
        (showActivityLiveLog.entryLines s (showActivityLiveLog.availWidth s) e).length % 256),
      Nat.mod_eq_of_lt h256, if_pos (by omega), List.length_append, List.length_singleton]
  have hstart := startIndex_toInt16 (s.logLines.map (fun e =>
      (showActivityLiveLog.entryLines s (showActivityLiveLog.availWidth s) e).length % 256))
    K s.logLines.length
  rw [hfirst] at hstart
  have hsame : s.logLines.length < 32768 →
      showActivityLiveLog.startIndex (s.logLines.map (fun e =>
        (showActivityLiveLog.entryLines s (showActivityLiveLog.availWidth s) e).length % 256))
        K s.logLines.length = s.logLines.length := by
    intro hlt
    rw [hstart]
    exact toInt16_natCast _ hlt
  have hdrawn : showActivityLiveLog.drawnLines s (showActivityLiveLog.availWidth s) K
      = some [] := by
    rw [drawnLines_eq s _ K _ hgfx hfont (by omega) hcounts, hfirst, List.drop_length]
    rfl
  refine ⟨_, hcounts, hstart, hsame, hfirst, hdrawn, ?_⟩
  unfold showActivityLiveLog
  rw [if_neg (by rw [hgfx, hfont]; decide)]
  cases hlh : showActivityLiveLog.lineHeight s with
  | none =>
    unfold showActivityLiveLog.visibleLineCount at hK
    rw [hlh] at hK
    cases hK
  | some lh =>
    rw [hK]
    simp only [Option.some_bind]
    rw [hdrawn]
    rfl

set_option maxRecDepth 100000 in
theorem oversized_newest_entry_witness :
    showActivityLiveLog.visibleLineCount
        (bufferedUi (fixedFont 6) 128 64 ["old".toList, "1\n2\n3\n4\n5".toList]) = some 4 ∧
    showActivityLiveLog.entryLines
        (bufferedUi (fixedFont 6) 128 64 ["old".toList, "1\n2\n3\n4\n5".toList])
        (showActivityLiveLog.availWidth
          (bufferedUi (fixedFont 6) 128 64 ["old".toList, "1\n2\n3\n4\n5".toList]))
        "1\n2\n3\n4\n5".toList
      = ["1".toList, "2".toList, "3".toList, "4".toList, "5".toList] ∧
    showActivityLiveLog (bufferedUi (fixedFont 6) 128 64 ["old".toList, "1\n2\n3\n4\n5".toList])
      = some [DrawCall.print 3 19 1 "Log:".toList, DrawCall.drawRect 3 21 122 40 1] ∧
    ∃ counts,
      showActivityLiveLog.lineDisplayCounts
          (bufferedUi (fixedFont 6) 128 64 ["old".toList, "1\n2\n3\n4\n5".toList])
          (showActivityLiveLog.availWidth
            (bufferedUi (fixedFont 6) 128 64 ["old".toList, "1\n2\n3\n4\n5".toList]))
          (bufferedUi (fixedFont 6) 128 64 ["old".toList, "1\n2\n3\n4\n5".toList]).logLines
        = some counts ∧
      showActivityLiveLog.startIndex counts 4
          (bufferedUi (fixedFont 6) 128 64 ["old".toList, "1\n2\n3\n4\n5".toList]).logLines.length
        = toInt16 ((bufferedUi (fixedFont 6) 128 64 ["old".toList, "1\n2\n3\n4\n5".toList]).logLines.length : Int) ∧
      ((bufferedUi (fixedFont 6) 128 64 ["old".toList, "1\n2\n3\n4\n5".toList]).logLines.length < 32768 →
        showActivityLiveLog.startIndex counts 4
            (bufferedUi (fixedFont 6) 128 64 ["old".toList, "1\n2\n3\n4\n5".toList]).logLines.length
          = (bufferedUi (fixedFont 6) 128 64 ["old".toList, "1\n2\n3\n4\n5".toList]).logLines.length) ∧
      showActivityLiveLog.firstDrawn counts 4
          (bufferedUi (fixedFont 6) 128 64 ["old".toList, "1\n2\n3\n4\n5".toList]).logLines.length
        = (bufferedUi (fixedFont 6) 128 64 ["old".toList, "1\n2\n3\n4\n5".toList]).logLines.length ∧
      showActivityLiveLog.drawnLines
          (bufferedUi (fixedFont 6) 128 64 ["old".toList, "1\n2\n3\n4\n5".toList])
          (showActivityLiveLog.availWidth
            (bufferedUi (fixedFont 6) 128 64 ["old".toList, "1\n2\n3\n4\n5".toList])) 4
        = some [] ∧
      showActivityLiveLog (bufferedUi (fixedFont 6) 128 64 ["old".toList, "1\n2\n3\n4\n5".toList])
        = some [DrawCall.print
            (showActivityLiveLog.logWindowLeft : Int)
            (showActivityLiveLog.labelBaseline
              (bufferedUi (fixedFont 6) 128 64 ["old".toList, "1\n2\n3\n4\n5".toList]))
            1 "Log:".toList,
          DrawCall.drawRect (showActivityLiveLog.logWindowLeft : Int)
            (showActivityLiveLog.logWindowTop
              (bufferedUi (fixedFont 6) 128 64 ["old".toList, "1\n2\n3\n4\n5".toList]) : Int)
            (showActivityLiveLog.logWindowWidth
              (bufferedUi (fixedFont 6) 128 64 ["old".toList, "1\n2\n3\n4\n5".toList]) : Int)
            (showActivityLiveLog.logWindowHeight
              (bufferedUi (fixedFont 6) 128 64 ["old".toList, "1\n2\n3\n4\n5".toList]) : Int)
            1] :=
  ⟨by decide, by decide, by decide,
    oversized_newest_entry
      (bufferedUi (fixedFont 6) 128 64 ["old".toList, "1\n2\n3\n4\n5".toList]) 4
      ["old".toList] "1\n2\n3\n4\n5".toList rfl rfl rfl (by decide) (by decide) (by decide)
      (by decide) (by decide)⟩

theorem wrapSegments_replicate_lines (s : Ui) (w : Nat)
    (hseg : segmentLines s "a".toList w = some ["a".toList]) :
    ∀ k, 2 * k ≤ 32766 →
      wrapSegments s showActivityLiveLog.isLogBreak (List.replicate k "a\n".toList).flatten w
        = some (List.replicate k "a".toList) := by
  intro k
  induction k with
  | zero => intro _; exact wrapSegments_nil s _ w
  | succ k ih =>
    intro hk
    have hcons : (List.replicate (k + 1) "a\n".toList).flatten
        = "a".toList ++ '\n' :: (List.replicate k "a\n".toList).flatten := by
      rw [List.replicate_succ, List.flatten_cons]
      rfl
    have hlen : ("a".toList ++ '\n' :: (List.replicate k "a\n".toList).flatten).length
        ≤ 32766 := by
      rw [List.length_append, List.length_cons, List.length_flatten, List.map_replicate,
        List.sum_replicate]
      have h1 : "a".toList.length = 1 := rfl
      have h2 : "a\n".toList.length = 2 := rfl
      rw [h1, h2, smul_eq_mul]
      omega
    rw [hcons, wrapSegments_cons_segment s _ "a".toList _ '\n' w
      (fun c hc => by rw [List.mem_singleton.1 hc]; rfl) rfl hlen, hseg, ih (by omega)]
    rfl

set_option maxRecDepth 100000 in
/-- A newest entry of 256 display lines (256 lines "a", each ended by `'\n'`)
has the stored `uint8_t` count 0: with the older entry "old" in the buffer and a
window of 4 lines, the walk stops nowhere and the drawing pass prints the older
entry and all 256 lines. -/
theorem drawnLines_of_256_lines :
    wrapSegments
        (bufferedUi (fixedFont 6) 128 64
          ["old".toList, (List.replicate 256 "a\n".toList).flatten])
        showActivityLiveLog.isLogBreak (List.replicate 256 "a\n".toList).flatten 118
      = some (List.replicate 256 "a".toList) ∧
    showActivityLiveLog.lineDisplayCounts
        (bufferedUi (fixedFont 6) 128 64
          ["old".toList, (List.replicate 256 "a\n".toList).flatten]) 118
        ["old".toList, (List.replicate 256 "a\n".toList).flatten] = some [1, 0] ∧
    showActivityLiveLog.drawnLines
        (bufferedUi (fixedFont 6) 128 64
          ["old".toList, (List.replicate 256 "a\n".toList).flatten]) 118 4
      = some ("old".toList :: List.replicate 256 "a".toList) := by
  have hwrap := wrapSegments_replicate_lines
    (bufferedUi (fixedFont 6) 128 64
          ["old".toList, (List.replicate 256 "a\n".toList).flatten]) 118 (by decide) 256
    (by decide)
  have hold : wrapSegments
      (bufferedUi (fixedFont 6) 128 64
          ["old".toList, (List.replicate 256 "a\n".toList).flatten])
      showActivityLiveLog.isLogBreak "old".toList 118 = some ["old".toList] := by decide
  have hcounts : showActivityLiveLog.lineDisplayCounts
      (bufferedUi (fixedFont 6) 128 64
          ["old".toList, (List.replicate 256 "a\n".toList).flatten]) 118
      ["old".toList, (List.replicate 256 "a\n".toList).flatten] = some [1, 0] := by
    simp only [showActivityLiveLog.lineDisplayCounts]
    rw [displayLineCount_eq _ _ _ _ hold, displayLineCount_eq _ _ _ _ hwrap,
      List.length_replicate]
    rfl
  refine ⟨hwrap, hcounts, ?_⟩
  have hd := drawnLines_eq
    (bufferedUi (fixedFont 6) 128 64
          ["old".toList, (List.replicate 256 "a\n".toList).flatten]) 118 4 [1, 0] rfl rfl
    (by decide) hcounts
  rw [hd]
  have hs : showActivityLiveLog.firstDrawn [1, 0] 4
      (bufferedUi (fixedFont 6) 128 64
          ["old".toList, (List.replicate 256 "a\n".toList).flatten]).logLines.length = 0 := by
    decide
  rw [hs, List.drop_zero]
  show showActivityLiveLog.drawEntries _ 118
    ["old".toList, (List.replicate 256 "a\n".toList).flatten] = _
  simp only [showActivityLiveLog.drawEntries]
  rw [hold, hwrap]
  rfl

set_option maxRecDepth 100000 in
/-- C26 as stated fails when the newest entry wraps to 256 display lines (here
256 lines "a", each ended by `'\n'`): the count kept for it is the `uint8_t`
value 0, the walk does not stop at it (`0 + 0 > 4` is false) nor at the older
entry (`0 + 1 > 4` is false), `startIndex` stays 0, and the drawing pass prints
the older entry and all 256 lines of the newest one, although only 4 lines fit
the window.  It also fails for a buffer of 32769 entries: the initial index
`(int16_t)totalLines - 1` of the walk is -32768, the walk does not run,
`startIndex` stays 0, and the drawing pass prints every entry, the five lines
of the newest one included. -/
theorem oversized_newest_entry_counterexample :
    (showActivityLiveLog.visibleLineCount
        (bufferedUi (fixedFont 6) 128 64
          ["old".toList, (List.replicate 256 "a\n".toList).flatten]) = some 4 ∧
      showActivityLiveLog.availWidth
        (bufferedUi (fixedFont 6) 128 64
          ["old".toList, (List.replicate 256 "a\n".toList).flatten]) = 118 ∧
      wrapSegments
        (bufferedUi (fixedFont 6) 128 64
          ["old".toList, (List.replicate 256 "a\n".toList).flatten])
        showActivityLiveLog.isLogBreak (List.replicate 256 "a\n".toList).flatten 118
        = some (List.replicate 256 "a".toList) ∧
      showActivityLiveLog.lineDisplayCounts
        (bufferedUi (fixedFont 6) 128 64
          ["old".toList, (List.replicate 256 "a\n".toList).flatten]) 118
        ["old".toList, (List.replicate 256 "a\n".toList).flatten] = some [1, 0] ∧
      showActivityLiveLog.startIndex [1, 0] 4 2 = 0 ∧
      showActivityLiveLog.firstDrawn [1, 0] 4 2 = 0 ∧
      showActivityLiveLog.drawnLines
        (bufferedUi (fixedFont 6) 128 64
          ["old".toList, (List.replicate 256 "a\n".toList).flatten]) 118 4
        = some ("old".toList :: List.replicate 256 "a".toList)) ∧
    (showActivityLiveLog.visibleLineCount
        (bufferedUi (fixedFont 6) 128 64
          (List.replicate 32768 "a".toList ++ ["1\n2\n3\n4\n5".toList])) = some 4 ∧
      showActivityLiveLog.availWidth
        (bufferedUi (fixedFont 6) 128 64
          (List.replicate 32768 "a".toList ++ ["1\n2\n3\n4\n5".toList])) = 118 ∧
      showActivityLiveLog.entryLines
        (bufferedUi (fixedFont 6) 128 64
          (List.replicate 32768 "a".toList ++ ["1\n2\n3\n4\n5".toList])) 118
        "1\n2\n3\n4\n5".toList
        = ["1".toList, "2".toList, "3".toList, "4".toList, "5".toList] ∧
      showActivityLiveLog.walkStart
        (bufferedUi (fixedFont 6) 128 64
          (List.replicate 32768 "a".toList ++ ["1\n2\n3\n4\n5".toList])).logLines.length = -32768 ∧
      (∀ counts, showActivityLiveLog.startIndex counts 4
        (bufferedUi (fixedFont 6) 128 64
          (List.replicate 32768 "a".toList ++ ["1\n2\n3\n4\n5".toList])).logLines.length = 0) ∧
      showActivityLiveLog.drawnLines
        (bufferedUi (fixedFont 6) 128 64
          (List.replicate 32768 "a".toList ++ ["1\n2\n3\n4\n5".toList])) 118 4
        = some (List.replicate 32768 "a".toList
            ++ ["1".toList, "2".toList, "3".toList, "4".toList, "5".toList])) := by
  obtain ⟨hwrap, hcounts, hdrawn⟩ := drawnLines_of_256_lines
  have hl : (bufferedUi (fixedFont 6) 128 64
          (List.replicate 32768 "a".toList ++ ["1\n2\n3\n4\n5".toList])).logLines.length = 32769 := by
    show (List.replicate 32768 "a".toList ++ ["1\n2\n3\n4\n5".toList]).length = 32769
    rw [List.length_append, List.length_replicate]
    rfl
  have hs0 : ∀ counts, showActivityLiveLog.startIndex counts 4 32769 = 0 := by
    intro counts
    unfold showActivityLiveLog.startIndex
    rw [if_pos (by decide)]
  have hnew : showActivityLiveLog.entryLines
      (bufferedUi (fixedFont 6) 128 64
          (List.replicate 32768 "a".toList ++ ["1\n2\n3\n4\n5".toList])) 118
      "1\n2\n3\n4\n5".toList
      = ["1".toList, "2".toList, "3".toList, "4".toList, "5".toList] := by decide
  refine ⟨⟨by decide, by decide, hwrap, hcounts, by decide, by decide, hdrawn⟩,
    by decide, by decide, hnew, ?_, ?_, ?_⟩
  · rw [hl]
    decide
  · intro counts
    rw [hl]
    exact hs0 counts
  · have hlen : ∀ e ∈ (bufferedUi (fixedFont 6) 128 64
          (List.replicate 32768 "a".toList ++ ["1\n2\n3\n4\n5".toList])).logLines, e.length ≤ 32766 := by
      intro e he
      have he2 : e ∈ List.replicate 32768 "a".toList ++ ["1\n2\n3\n4\n5".toList] := he
      rcases List.mem_append.1 he2 with h | h
      · rw [List.eq_of_mem_replicate h]
        decide
      · rw [List.mem_singleton.1 h]
        decide
    have hc := lineDisplayCounts_mod
      (bufferedUi (fixedFont 6) 128 64
          (List.replicate 32768 "a".toList ++ ["1\n2\n3\n4\n5".toList])) 118 _ hlen
    rw [drawnLines_eq
      (bufferedUi (fixedFont 6) 128 64
          (List.replicate 32768 "a".toList ++ ["1\n2\n3\n4\n5".toList]))
      118 4 _ rfl rfl (by rw [hl]; decide) hc, hl]
    have h0 : ∀ counts, showActivityLiveLog.firstDrawn counts 4 32769 = 0 := by
      intro counts
      unfold showActivityLiveLog.firstDrawn
      rw [hs0]
      rfl
    rw [h0, List.drop_zero, drawEntries_eq _ 118 _ hlen]
    have he : showActivityLiveLog.entryLines
        (bufferedUi (fixedFont 6) 128 64
          (List.replicate 32768 "a".toList ++ ["1\n2\n3\n4\n5".toList])) 118 "a".toList
        = ["a".toList] := by decide
    show some ((List.replicate 32768 "a".toList ++ ["1\n2\n3\n4\n5".toList]).map
      _).flatten = _
    rw [List.map_append, List.map_replicate, he, List.flatten_append,
      flatten_replicate_singleton, List.map_singleton, hnew]
    rfl

/-! ## The tail of the live log: entries of several lines and long buffers -/

set_option maxRecDepth 100000 in
/-- C10 as stated fails when an entry takes more than one display line.  After
appending "a\nb" and "c\nd", a window of capacity 3 shows "c" and "d" only:
the walk keeps whole entries, and the entry "a\nb" would bring the total to 4.
The 3 most recent display lines of the wrapped buffer are "b", "c", "d".  It
also fails for a buffer of 32769 one-line entries: `(int16_t)32769 - 1` is
-32768, the walk does not run, `startIndex` stays 0, and the drawing pass prints
all 32769 lines, not the 3 most recent ones.  And it fails for an entry of 256
display lines, whose stored `uint8_t` count is 0: with a capacity of 4 lines the
drawing pass prints 257 lines. -/
theorem log_tail_shows_most_recent_counterexample :
    (showActivityLiveLog.drawnLines
        (loggedUi (fixedFont 6) 128 64 ["a\nb".toList, "c\nd".toList]) 100 3
        = some ["c".toList, "d".toList] ∧
      showActivityLiveLog.drawEntries
        (loggedUi (fixedFont 6) 128 64 ["a\nb".toList, "c\nd".toList]) 100
        (loggedUi (fixedFont 6) 128 64 ["a\nb".toList, "c\nd".toList]).logLines
        = some ["a".toList, "b".toList, "c".toList, "d".toList] ∧
      ["c".toList, "d".toList]
        ≠ ["a".toList, "b".toList, "c".toList, "d".toList].drop (4 - 3)) ∧
    (showActivityLiveLog.walkStart 32769 = -32768 ∧
      showActivityLiveLog.drawnLines
        (bufferedUi (fixedFont 6) 128 64 (List.replicate 32769 "a".toList)) 100 3
        = some (List.replicate 32769 "a".toList)) ∧
    (showActivityLiveLog.drawnLines
        (bufferedUi (fixedFont 6) 128 64
          ["old".toList, (List.replicate 256 "a\n".toList).flatten]) 118 4
        = some ("old".toList :: List.replicate 256 "a".toList) ∧
      4 < ("old".toList :: List.replicate 256 "a".toList).length) := by
  refine ⟨by decide, ⟨by decide, ?_⟩,
    drawnLines_of_256_lines.2.2, by rw [List.length_cons, List.length_replicate]; decide⟩
  have hlen : ∀ e ∈ (bufferedUi (fixedFont 6) 128 64
      (List.replicate 32769 "a".toList)).logLines, e.length ≤ 32766 := by
    intro e he
    rw [List.eq_of_mem_replicate he]
    decide
  have hl : (bufferedUi (fixedFont 6) 128 64
      (List.replicate 32769 "a".toList)).logLines.length = 32769 :=
    List.length_replicate _ _
  have hcounts := lineDisplayCounts_mod
    (bufferedUi (fixedFont 6) 128 64 (List.replicate 32769 "a".toList)) 100 _ hlen
  rw [drawnLines_eq (bufferedUi (fixedFont 6) 128 64 (List.replicate 32769 "a".toList))
    100 3 _ rfl rfl (by rw [hl]; decide) hcounts, hl]
  have h0 : ∀ counts, showActivityLiveLog.firstDrawn counts 3 32769 = 0 := by
    intro counts
    unfold showActivityLiveLog.firstDrawn showActivityLiveLog.startIndex
    rw [if_pos (by decide)]
    rfl
  rw [h0, List.drop_zero, drawEntries_eq _ 100 _ hlen]
  have he : showActivityLiveLog.entryLines
      (bufferedUi (fixedFont 6) 128 64 (List.replicate 32769 "a".toList)) 100 "a".toList
      = ["a".toList] := by decide
  show some ((List.replicate 32769 "a".toList).map _).flatten = _
  rw [List.map_replicate, he, flatten_replicate_singleton]

end s3ui

